import Mathlib

/-!
# ramses: task worker, transport factory, expiration monitor, effect inputs

A verification development over these parts of the repository:

* `TaskExecutingThread` (framework/Core/TaskFramework/src/TaskExecutingThread.cpp):
  the worker object with `start`, `stop`, `cancelThread`, `unlockThread`,
  `joinThread` and the worker loop `run`;
* `CommunicationSystemFactory`
  (framework/Communication/TransportCommon/src/CommunicationSystemFactory.cpp);
* the expiration monitor exercised by the renderer lifecycle tests, and the
  flush sequencer;
* `GlslToEffectConverter`
  (client/ramses-client/impl/glslEffectBlock/GlslToEffectConverter.cpp).

Pointers are `Option` values (`none` is `nullptr`).  The worker loop talks to
other threads through the blocking queue and the cancellation flag; what those
other threads do is given to the model as an explicit list of rounds.
-/

namespace Ramses

/-! ## Tasks, queues, and the calls a worker makes -/

/-- A task object behind an `ITask*`: its identity and whether its `execute()`
raises instead of returning. -/
structure ITask where
  id : Nat
  executeRaises : Bool
  deriving DecidableEq, Repr

/-- Identity of an `IBlockingTaskQueue` object. -/
abbrev QueueId := Nat

/-- The calls that the methods of `TaskExecutingThread` make on their
collaborators, in the order of the source text. -/
inductive Call where
  /-- Call `m_aliveHandler.notifyAlive(m_workerIndex)` -/
  | notifyAlive (workerIndex : Nat)
  /-- Call `isCancelRequested()` with the value it returned -/
  | isCancelRequested (result : Bool)
  /-- Call `m_aliveHandler.calculateTimeout()` with the value it returned -/
  | calculateTimeout (result : Nat)
  /-- Call `m_pBlockingTaskQueue->popTask(timeout)` with the pointer it returned -/
  | popTask (timeout : Nat) (result : Option ITask)
  /-- Call `pTaskToExecute->execute()` -/
  | execute (t : ITask)
  /-- Call `pTaskToExecute->release()` -/
  | release (t : ITask)
  /-- The `LOG_WARN` of the null queue pointer -/
  | logWarn
  /-- The `LOG_TRACE` on leaving `run` -/
  | logTrace
  /-- Call `resetCancel()` -/
  | resetCancel
  /-- Call `m_thread.start(*this)` -/
  | threadStart
  /-- Call `m_thread.cancel()` -/
  | threadCancel
  /-- Call `m_thread.join()` -/
  | threadJoin
  /-- Call `queue->addTask(task)` on the queue object `q` -/
  | addTask (q : QueueId) (task : Option ITask)
  deriving DecidableEq, Repr

/-- The member variables of `TaskExecutingThread` that its methods read or
write, together with the cancellation flag of its `Runnable` base class
(`cancelRequested`: set by `m_thread.cancel()`, cleared by `resetCancel()`,
read by `isCancelRequested()`). -/
structure TaskExecutingThread where
  m_pBlockingTaskQueue : Option QueueId
  m_workerIndex : Nat
  m_bThreadStarted : Bool
  cancelRequested : Bool
  deriving DecidableEq, Repr

/-- The constructor: no queue, not started. -/
def TaskExecutingThread.new (workerIndex : Nat) : TaskExecutingThread :=
  { m_pBlockingTaskQueue := none
    m_workerIndex := workerIndex
    m_bThreadStarted := false
    cancelRequested := false }

/-! ## The worker loop -/

/-- What the rest of the process does during one round of the worker loop.
The queue and the cancellation flag are shared with other threads, so the
values the worker reads from them are inputs of the model. -/
structure Round where
  /-- another thread requested cancellation before the loop condition of this
  round is evaluated -/
  cancelBeforeCheck : Bool
  /-- the value `calculateTimeout()` returns in this round -/
  timeout : Nat
  /-- the pointer `popTask` returns in this round (`none`: the timeout ran out
  or the null sentinel was popped) -/
  popped : Option ITask
  /-- another thread requested cancellation after `popTask` returned and before
  the loop condition is evaluated again -/
  cancelWhileHeld : Bool
  deriving DecidableEq, Repr

/-- How far a run of the worker got. -/
inductive RunStatus where
  /-- the rounds given are used up and the loop is still going -/
  | running
  /-- the loop was left and `run` returned -/
  | finished
  /-- An `execute()` raised: control left `run` at line 99 -/
  | aborted
  deriving DecidableEq, Repr

/-- Calls made and the status reached. -/
structure RunResult where
  trace : List Call
  status : RunStatus
  deriving DecidableEq, Repr

/-- The calls of one round of the loop from the loop condition, found false,
to the liveness report after `popTask` (lines 93-96). -/
def roundHead (workerIndex : Nat) (r : Round) : List Call :=
  [ .isCancelRequested false
  , .calculateTimeout r.timeout
  , .popTask r.timeout r.popped
  , .notifyAlive workerIndex ]

/-- The `while (!isCancelRequested())` loop of `run` (lines 93-102).
`cancel` is the cancellation flag as it stands when the loop condition is
about to be evaluated. -/
def runLoop (workerIndex : Nat) : Bool → List Round → RunResult
  | cancel, [] =>
    -- nothing more is known about the other threads: a flag that is already
    -- set is found set at the next check, otherwise the loop is still going
    if cancel then { trace := [.isCancelRequested true], status := .finished }
    else { trace := [], status := .running }
  | cancel, r :: rest =>
    let flag := cancel || r.cancelBeforeCheck
    if flag then
      { trace := [.isCancelRequested true], status := .finished }
    else
      match r.popped with
      | none =>
        let tail := runLoop workerIndex (flag || r.cancelWhileHeld) rest
        { trace := roundHead workerIndex r ++ tail.trace, status := tail.status }
      | some t =>
        if t.executeRaises then
          { trace := roundHead workerIndex r ++ [.execute t], status := .aborted }
        else
          let tail := runLoop workerIndex (flag || r.cancelWhileHeld) rest
          { trace := roundHead workerIndex r ++ [.execute t, .release t] ++ tail.trace
            status := tail.status }

/-- Method `TaskExecutingThread::run` (lines 88-110). -/
def TaskExecutingThread.run (self : TaskExecutingThread) (rounds : List Round) : RunResult :=
  match self.m_pBlockingTaskQueue with
  | some _ =>
    let body := runLoop self.m_workerIndex self.cancelRequested rounds
    match body.status with
    | .finished =>
      { trace := .notifyAlive self.m_workerIndex :: body.trace ++ [.logTrace]
        status := .finished }
    | st => { trace := .notifyAlive self.m_workerIndex :: body.trace, status := st }
  | none => { trace := [.logWarn, .logTrace], status := .finished }

/-! ## Starting and stopping the worker -/

/-- The worker object together with the queue objects it can point to and the
record of the calls made so far.  `start`, `stop`, `cancelThread` and
`joinThread` hold `m_startStopLock` for their whole body
(`PlatformLightweightGuard`), so each is one atomic step on this state;
`unlockThread` is a single call on the queue. -/
structure World where
  worker : TaskExecutingThread
  /-- contents of every queue object, oldest entry first; an entry `none` is a
  `nullptr` task -/
  queues : QueueId → List (Option ITask)
  /-- calls made on `m_thread`, on the `Runnable` base and on queues, oldest first -/
  calls : List Call

/-- Modelled from the spec: `resetCancel()` of the `Runnable` base, which is not
part of the sources at hand; it clears the "cancellation flag" that the worker
loop observes. -/
def World.resetCancel (w : World) : World :=
  { w with
    worker := { w.worker with cancelRequested := false }
    calls := w.calls ++ [.resetCancel] }

/-- Modelled from the spec: `m_thread.start(*this)` of `PlatformThread`, which
is not part of the sources at hand; a thread begins to execute `run` (one of
the "N independent worker threads"). -/
def World.threadStart (w : World) : World :=
  { w with calls := w.calls ++ [.threadStart] }

/-- Modelled from the spec: `m_thread.cancel()` of `PlatformThread`, which is
not part of the sources at hand; it "requests cancellation", that is, it sets
the cancellation flag of the runnable (the comment at line 52: "Signal the
runnable the cancel request"). -/
def World.threadCancel (w : World) : World :=
  { w with
    worker := { w.worker with cancelRequested := true }
    calls := w.calls ++ [.threadCancel] }

/-- Modelled from the spec: `m_thread.join()` of `PlatformThread`, which is not
part of the sources at hand; it returns once the thread has left `run`
("joins all of them before returning"). -/
def World.threadJoin (w : World) : World :=
  { w with calls := w.calls ++ [.threadJoin] }

/-- Modelled from the spec: `queue->addTask(task)` of `IBlockingTaskQueue`,
which is not part of the sources at hand; a submitted task is enqueued and
"ordering within the queue is FIFO", so the task goes to the back of the
queue. -/
def World.addTask (w : World) (q : QueueId) (task : Option ITask) : World :=
  { w with
    queues := Function.update w.queues q (w.queues q ++ [task])
    calls := w.calls ++ [.addTask q task] }

namespace TaskExecutingThread

/-- Method `TaskExecutingThread::start` (lines 32-45). -/
def start (blockingTaskQueue : QueueId) (w : World) : World :=
  if !w.worker.m_bThreadStarted then
    let w1 : World := { w with worker := { w.worker with m_bThreadStarted := true } }
    let w2 : World :=
      { w1 with worker := { w1.worker with m_pBlockingTaskQueue := some blockingTaskQueue } }
    let w3 := w2.resetCancel
    w3.threadStart
  else
    w

/-- Method `TaskExecutingThread::stop` (lines 47-60).  `none` is the
dereference of a null `m_pBlockingTaskQueue` at line 54. -/
def stop (w : World) : Option World :=
  if w.worker.m_bThreadStarted then
    let w1 := w.threadCancel
    match w1.worker.m_pBlockingTaskQueue with
    | none => none
    | some q =>
      let w2 := w1.addTask q none
      let w3 := w2.threadJoin
      let w4 : World := { w3 with worker := { w3.worker with m_pBlockingTaskQueue := none } }
      some { w4 with worker := { w4.worker with m_bThreadStarted := false } }
  else
    some w

/-- Method `TaskExecutingThread::~TaskExecutingThread` (lines 26-29). -/
def destructor (w : World) : Option World :=
  stop w

/-- Method `TaskExecutingThread::cancelThread` (lines 62-70). -/
def cancelThread (w : World) : World :=
  if w.worker.m_bThreadStarted then w.threadCancel else w

/-- Method `TaskExecutingThread::unlockThread` (lines 72-75).  `none` is the
dereference of a null `m_pBlockingTaskQueue`. -/
def unlockThread (w : World) : Option World :=
  match w.worker.m_pBlockingTaskQueue with
  | none => none
  | some q => some (w.addTask q none)

/-- Method `TaskExecutingThread::joinThread` (lines 77-86). -/
def joinThread (w : World) : World :=
  if w.worker.m_bThreadStarted && w.worker.cancelRequested then
    let w1 := w.threadJoin
    let w2 : World := { w1 with worker := { w1.worker with m_pBlockingTaskQueue := none } }
    { w2 with worker := { w2.worker with m_bThreadStarted := false } }
  else
    w

end TaskExecutingThread

/-- The public methods of the worker, as one can call them from outside. -/
inductive Method where
  | start (blockingTaskQueue : QueueId)
  | stop
  | cancelThread
  | unlockThread
  | joinThread
  deriving DecidableEq, Repr

/-- One call of a method; `none` when it dereferences a null pointer. -/
def Method.call : Method → World → Option World
  | .start q, w => some (TaskExecutingThread.start q w)
  | .stop, w => TaskExecutingThread.stop w
  | .cancelThread, w => some (TaskExecutingThread.cancelThread w)
  | .unlockThread, w => TaskExecutingThread.unlockThread w
  | .joinThread, w => some (TaskExecutingThread.joinThread w)

/-- A sequence of calls, one after the other. -/
def callAll : List Method → World → Option World
  | [], w => some w
  | m :: ms, w => (m.call w).bind (callAll ms)

/-- A freshly constructed worker in a process whose queues are all empty. -/
def World.fresh (workerIndex : Nat) : World :=
  { worker := TaskExecutingThread.new workerIndex
    queues := fun _ => []
    calls := [] }

/-! ## Reading a trace -/

/-- The non-null tasks that `popTask` returned, in order. -/
def poppedTasks : List Call → List ITask
  | [] => []
  | .popTask _ (some t) :: cs => t :: poppedTasks cs
  | _ :: cs => poppedTasks cs

/-- The tasks on which `execute()` was called, in order. -/
def executedTasks : List Call → List ITask
  | [] => []
  | .execute t :: cs => t :: executedTasks cs
  | _ :: cs => executedTasks cs

/-- The `execute` and `release` calls of a trace, in order. -/
def taskCalls : List Call → List Call
  | [] => []
  | .execute t :: cs => .execute t :: taskCalls cs
  | .release t :: cs => .release t :: taskCalls cs
  | _ :: cs => taskCalls cs

/-- What executing and releasing the given tasks one after the other looks like. -/
def executeAndRelease : List ITask → List Call
  | [] => []
  | t :: ts => .execute t :: .release t :: executeAndRelease ts

/-! ## CommunicationSystemFactory -/

/-- The values `config.getUsedProtocol()` can have.  The enumeration is declared
in a header outside the sources at hand; the factory names two of its
enumerators, every other value is `other`. -/
inductive EConnectionProtocol where
  | EConnectionProtocol_TCP
  | EConnectionProtocol_Fake
  | other (value : Nat)
  deriving DecidableEq, Repr

/-- What is fixed when the factory is compiled. -/
structure Build where
  /-- Whether `HAS_TCP_COMM` is defined -/
  HAS_TCP_COMM : Bool
  /-- Whether `NDEBUG` is defined: when it is, `assert` expands to nothing -/
  NDEBUG : Bool
  /-- the value of `TCPConnectionSystem::GetDaemonId()` -/
  daemonId : Nat
  deriving DecidableEq, Repr

/-- The member `config.m_tcpConfig`, by its getters. -/
structure TCPConfig where
  getIPAddress : String
  getPort : Bool → Nat
  getDaemonIPAddress : String
  getDaemonPort : Nat
  getAliveInterval : Nat
  getAliveTimeout : Nat

/-- The class `ramses::RamsesFrameworkConfigImpl`, as far as the factory reads it. -/
structure RamsesFrameworkConfigImpl where
  getUsedProtocol : EConnectionProtocol
  getProtocolVersion : Nat
  m_tcpConfig : TCPConfig

/-- The class `ParticipantIdentifier`, by its getters. -/
structure ParticipantIdentifier where
  getParticipantId : Nat
  getParticipantName : String
  deriving DecidableEq, Repr

/-- The four constructor arguments of `NetworkParticipantAddress`. -/
structure NetworkParticipantAddress where
  id : Nat
  name : String
  ip : String
  port : Nat
  deriving DecidableEq, Repr

/-- Identity of a `PlatformLock` object. -/
abbrev PlatformLock := Nat

/-- Identity of a `StatisticCollectionFramework` object. -/
abbrev StatisticCollectionFramework := Nat

/-- Identity of a `Ramsh` object. -/
abbrev Ramsh := Nat

/-- The constructor arguments of `TCPConnectionSystem`, in order. -/
structure TCPConnectionSystem where
  participantNetworkAddress : NetworkParticipantAddress
  protocolVersion : Nat
  daemonNetworkAddress : NetworkParticipantAddress
  pureDaemon : Bool
  frameworkLock : PlatformLock
  statisticCollection : StatisticCollectionFramework
  aliveInterval : Nat
  aliveTimeout : Nat
  deriving DecidableEq, Repr

/-- The object behind an `ICommunicationSystem` pointer. -/
inductive ICommunicationSystem where
  | FakeConnectionSystem
  | TCPConnectionSystem (sys : TCPConnectionSystem)
  deriving DecidableEq, Repr

/-- The constructor arguments of `TcpDiscoveryDaemon`, in order. -/
structure TcpDiscoveryDaemon where
  config : RamsesFrameworkConfigImpl
  frameworkLock : PlatformLock
  statisticCollection : StatisticCollectionFramework
  optionalRamsh : Option Ramsh

/-- The object behind an `IDiscoveryDaemon` pointer. -/
inductive IDiscoveryDaemon where
  | FakeDiscoveryDaemon
  | TcpDiscoveryDaemon (d : TcpDiscoveryDaemon)

/-- Which class a communication system is. -/
inductive TransportKind where
  | fake
  | tcp
  deriving DecidableEq, Repr

/-- The class of a communication system. -/
def ICommunicationSystem.kind : ICommunicationSystem → TransportKind
  | .FakeConnectionSystem => .fake
  | .TCPConnectionSystem _ => .tcp

/-- The class of a discovery daemon. -/
def IDiscoveryDaemon.kind : IDiscoveryDaemon → TransportKind
  | .FakeDiscoveryDaemon => .fake
  | .TcpDiscoveryDaemon _ => .tcp

/-- How a call of a factory function ends: it returns a pointer, or a failed
`assert` aborts the process. -/
inductive FactoryResult (α : Type) where
  | returned (pointer : Option α)
  | assertionFailed (message : String)
  deriving DecidableEq, Repr

/-- Function `ConstructTCPConnectionManager` (lines 36-54); it exists only with
`HAS_TCP_COMM`. -/
def ConstructTCPConnectionManager (b : Build) (config : RamsesFrameworkConfigImpl)
    (participantIdentifier : ParticipantIdentifier) (frameworkLock : PlatformLock)
    (statisticCollection : StatisticCollectionFramework) : TCPConnectionSystem :=
  let isDaemon := false
  let participantNetworkAddress : NetworkParticipantAddress :=
    { id := participantIdentifier.getParticipantId
      name := participantIdentifier.getParticipantName
      ip := config.m_tcpConfig.getIPAddress
      port := config.m_tcpConfig.getPort isDaemon }
  let daemonNetworkAddress : NetworkParticipantAddress :=
    { id := b.daemonId
      name := "SM"
      ip := config.m_tcpConfig.getDaemonIPAddress
      port := config.m_tcpConfig.getDaemonPort }
  { participantNetworkAddress := participantNetworkAddress
    protocolVersion := config.getProtocolVersion
    daemonNetworkAddress := daemonNetworkAddress
    pureDaemon := false
    frameworkLock := frameworkLock
    statisticCollection := statisticCollection
    aliveInterval := config.m_tcpConfig.getAliveInterval
    aliveTimeout := config.m_tcpConfig.getAliveTimeout }

/-- Function `CommunicationSystemFactory::ConstructDiscoveryDaemon` (lines 59-85).
Without `HAS_TCP_COMM` the TCP case has no `break` and falls through to the
fake case. -/
def ConstructDiscoveryDaemon (b : Build) (config : RamsesFrameworkConfigImpl)
    (frameworkLock : PlatformLock) (statisticCollection : StatisticCollectionFramework)
    (optionalRamsh : Option Ramsh) : Option IDiscoveryDaemon :=
  match config.getUsedProtocol with
  | .EConnectionProtocol_TCP =>
    if b.HAS_TCP_COMM then
      some (.TcpDiscoveryDaemon
        { config := config
          frameworkLock := frameworkLock
          statisticCollection := statisticCollection
          optionalRamsh := optionalRamsh })
    else
      some .FakeDiscoveryDaemon
  | .EConnectionProtocol_Fake => some .FakeDiscoveryDaemon
  | .other _ => none

/-- Function `CommunicationSystemFactory::ConstructCommunicationSystem` (lines 87-112).
The TCP case is compiled only with `HAS_TCP_COMM`; the default case asserts
before it logs and returns `nullptr`. -/
def ConstructCommunicationSystem (b : Build) (config : RamsesFrameworkConfigImpl)
    (participantIdentifier : ParticipantIdentifier) (frameworkLock : PlatformLock)
    (statisticCollection : StatisticCollectionFramework) :
    FactoryResult ICommunicationSystem :=
  let defaultCase : FactoryResult ICommunicationSystem :=
    if b.NDEBUG then .returned none
    else .assertionFailed "Unable to construct connection system for given protocol"
  match config.getUsedProtocol with
  | .EConnectionProtocol_TCP =>
    if b.HAS_TCP_COMM then
      .returned (some (.TCPConnectionSystem
        (ConstructTCPConnectionManager b config participantIdentifier frameworkLock
          statisticCollection)))
    else
      defaultCase
  | .EConnectionProtocol_Fake => .returned (some .FakeConnectionSystem)
  | .other _ => defaultCase

/-! ## Expiration monitor

The monitor itself is not among the sources at hand: only the renderer
lifecycle tests that drive it are.  The definitions of this section follow
section 4.4 of the specification and its "dual presentation-instant rule",
read so that the lifecycle tests pass: a scene that is not shown is compared
with its deadline in the ticks that apply a flush of it; for a shown scene a
render decides which flush counts as presented, and every tick compares the
scene with the deadline of that flush. -/

/-- A scene identifier (`ramses::sceneId_t`). -/
abbrev SceneId := Nat

/-- A point in time on `FlushTime::Clock`, in milliseconds. -/
abbrev Time := Int

/-- One hour, `std::chrono::hours(1)`, in milliseconds. -/
def hour : Time := 3600000

/-- Modelled from the spec: the phases of an `ExpirationState`,
"`phase ∈ {NotMonitored, OnTime, Expired, Recovered}`". -/
inductive Phase where
  | NotMonitored
  | OnTime
  | Expired
  | Recovered
  deriving DecidableEq, Repr

/-- Modelled from the spec: the visibility of a subscription,
"`visibilityState ∈ {Unsubscribed, Subscribed, Mapped, Shown}`". -/
inductive VisibilityState where
  | Unsubscribed
  | Subscribed
  | Mapped
  | Shown
  deriving DecidableEq, Repr

/-- Modelled from the spec: a flush,
"`{sceneId, sequenceNumber, optionalName, commands, expirationDeadline|None}`".
A deadline `none` is `FlushTime::InvalidTimestamp`. -/
structure Flush where
  sceneId : SceneId
  sequenceNumber : Nat
  optionalName : Option String
  commands : List Nat
  expirationDeadline : Option Time
  deriving DecidableEq, Repr

/-- Modelled from the spec: "`ExpirationState`: `{sceneId, deadline|None, phase}`";
`deadline` is the deadline of the latest applied flush. -/
structure ExpirationState where
  sceneId : SceneId
  deadline : Option Time
  phase : Phase
  deriving DecidableEq, Repr

/-- Modelled from the spec: the events of the monitor, `Expired(sceneId)`
(`onSceneExpired`) and `Recovered(sceneId)` (`onSceneRecovered`). -/
inductive MonitorEvent where
  | Expired (sceneId : SceneId)
  | Recovered (sceneId : SceneId)
  deriving DecidableEq, Repr

/-- Modelled from the spec: the effect of an applied flush on the expiration
state.  "Setting `expirationDeadline = None` on a flush [...] disables
monitoring for that scene from that flush onward, forcing
`phase = NotMonitored` [...] until a non-`None` deadline is set again"; a
deadline that is set takes a scene that is not monitored to `OnTime`
(the transition `NotMonitored↔OnTime`) and becomes the deadline of the latest
applied flush. -/
def ExpirationState.applyFlush (st : ExpirationState) (f : Flush) : ExpirationState :=
  match f.expirationDeadline with
  | none => { st with deadline := none, phase := .NotMonitored }
  | some d =>
    { st with
      deadline := some d
      phase := if st.phase = .NotMonitored then .OnTime else st.phase }

/-- Modelled from the spec: whether a tick is a presentation instant of a
scene.  "for a scene that is `Shown` [...] the presentation instant is the
completion of a render tick; for a scene that is only `Subscribed` or
`Mapped`-but-hidden, the presentation instant is simply the tick at which the
flush was applied (no render required)". -/
def isPresentationInstant (v : VisibilityState) (flushApplied rendered : Bool) : Bool :=
  match v with
  | .Shown => rendered
  | .Subscribed => flushApplied
  | .Mapped => flushApplied
  | .Unsubscribed => false

/-- Modelled from the spec: the comparison the monitor makes in a tick, against
the deadline `reference` of the flush that counts as presented, if there is
one.  "if `now > deadline` and `phase != Expired`: emit one `Expired(sceneId)`
event, set `phase = Expired`"; "if `phase == Expired` and
`now <= deadline-of-latest-applied-flush`: emit one `Recovered(sceneId)` event,
set `phase = OnTime`".  A scene whose latest applied flush has no deadline is
not monitored, "suppressing all future events until a non-`None` deadline is
set again". -/
def ExpirationState.evaluate (now : Time) (reference : Option Time) (st : ExpirationState) :
    List MonitorEvent × ExpirationState :=
  match st.deadline, reference with
  | some _, some deadline =>
    if now > deadline ∧ st.phase ≠ .Expired then
      ([.Expired st.sceneId], { st with phase := .Expired })
    else if st.phase = .Expired ∧ now ≤ deadline then
      ([.Recovered st.sceneId], { st with phase := .OnTime })
    else
      ([], st)
  | _, _ => ([], st)

/-- Modelled from the spec: the monitor's record of one subscribed scene: the
`visibilityState` of its `SceneSubscription`, its `ExpirationState`, and the
deadline of the flush that was the latest applied one at the scene's last
presentation instant (for a `Shown` scene "the deadline of the last rendered
flush"). -/
structure SceneMonitor where
  visibility : VisibilityState
  state : ExpirationState
  presentedDeadline : Option Time
  deriving DecidableEq, Repr

/-- Modelled from the spec: a scene right after `subscribeScene`: subscribed,
no deadline, not monitored. -/
def SceneMonitor.subscribed (sceneId : SceneId) : SceneMonitor :=
  { visibility := .Subscribed
    state := { sceneId := sceneId, deadline := none, phase := .NotMonitored }
    presentedDeadline := none }

/-- The flushes of one scene among those given, in the same order. -/
def ownFlushes (sceneId : SceneId) (flushes : List Flush) : List Flush :=
  flushes.filter (fun f => f.sceneId == sceneId)

/-- Modelled from the spec: the expiration state of a scene once the flushes of
a tick that are flushes of this scene have been applied, oldest first. -/
def SceneMonitor.afterFlushes (flushes : List Flush) (m : SceneMonitor) : ExpirationState :=
  (ownFlushes m.state.sceneId flushes).foldl ExpirationState.applyFlush m.state

/-- Modelled from the spec: the deadline of the flush that counts as presented
in a tick: if the tick is a presentation instant of the scene, that of the
latest applied flush; otherwise that of the flush presented before. -/
def SceneMonitor.presentedAt (flushes : List Flush) (rendered : Bool) (m : SceneMonitor) :
    Option Time :=
  if isPresentationInstant m.visibility
      (!(ownFlushes m.state.sceneId flushes).isEmpty) rendered then
    (m.afterFlushes flushes).deadline
  else
    m.presentedDeadline

/-- Modelled from the spec: the deadline that a tick compares the scene with,
`none` when the tick makes no comparison.  A scene that is not shown is compared
at its presentation instants only, "the tick at which the flush was applied",
with the deadline of the latest applied flush.  A shown scene is compared in
every tick with the deadline of the last rendered flush: at the completion of a
render that is the latest applied flush, and between renders the tests
`SceneExpiredWhenRendered` and `SceneExpiredAndRecoveredWhenRendered` see the
scene expire in loops that do not render. -/
def SceneMonitor.comparedWith (flushes : List Flush) (rendered : Bool) (m : SceneMonitor) :
    Option Time :=
  if m.visibility = .Shown ∨
      isPresentationInstant m.visibility
        (!(ownFlushes m.state.sceneId flushes).isEmpty) rendered = true then
    m.presentedAt flushes rendered
  else
    none

/-- Modelled from the spec: one tick of the monitor for one scene ("evaluated
once per tick on the consumer side, where tick is a periodic evaluation point
such as a render or update loop iteration").  `flushes` are the flushes applied
in this tick, oldest first; those of this scene take effect, and `rendered`
says whether the tick completes a render.  If the tick is a presentation
instant of the scene, the latest applied flush becomes the presented one; then
the state is compared with the deadline that `comparedWith` gives, if any.  A
scene that is not subscribed is not touched. -/
def SceneMonitor.tick (now : Time) (flushes : List Flush) (rendered : Bool)
    (m : SceneMonitor) : List MonitorEvent × SceneMonitor :=
  if m.visibility = .Unsubscribed then
    ([], m)
  else
    let r := (m.afterFlushes flushes).evaluate now (m.comparedWith flushes rendered)
    (r.1, { m with state := r.2, presentedDeadline := m.presentedAt flushes rendered })

/-- Modelled from the spec: a change of the visibility of a scene
(`mapScene`, `showScene`, `hideScene`, ...).  "Hiding a `Shown` scene changes
the presentation instant requirement from render-completion to
flush-application only": from then on the latest applied flush is the
presented one. -/
def SceneMonitor.setVisibility (v : VisibilityState) (m : SceneMonitor) : SceneMonitor :=
  if m.visibility = .Shown ∧ v ≠ .Shown then
    { m with visibility := v, presentedDeadline := m.state.deadline }
  else
    { m with visibility := v }

/-- What can happen to one scene of the monitor: a tick, or a change of its
visibility. -/
inductive SceneInput where
  | tick (now : Time) (flushes : List Flush) (rendered : Bool)
  | setVisibility (v : VisibilityState)
  deriving DecidableEq, Repr

/-- One input, with the events it raises. -/
def SceneMonitor.step (m : SceneMonitor) : SceneInput → List MonitorEvent × SceneMonitor
  | .tick now flushes rendered => m.tick now flushes rendered
  | .setVisibility v => ([], m.setVisibility v)

/-- A sequence of inputs, with all events raised, oldest first. -/
def SceneMonitor.run : List SceneInput → SceneMonitor → List MonitorEvent × SceneMonitor
  | [], m => ([], m)
  | i :: rest, m =>
    let r := m.step i
    let r2 := SceneMonitor.run rest r.2
    (r.1 ++ r2.1, r2.2)

/-- The flush a test client makes for a scene: it carries the deadline given to
`setExpirationTimestamp` before (`none` when none was given). -/
def testFlush (sceneId : SceneId) (sequenceNumber : Nat) (deadline : Option Time) : Flush :=
  { sceneId := sceneId
    sequenceNumber := sequenceNumber
    optionalName := none
    commands := []
    expirationDeadline := deadline }

/-- The test `TEST_F(ARendererLifecycleTest, SceneExpiredWhenSubscribed)` (lines 930-948),
as the events raised up to its assertion: the scene is flushed and subscribed
and a first loop runs at `firstLoop`; then a flush with the deadline
`clockNow - 1h` is made, where `clockNow` is what `FlushTime::Clock::now()`
returned, and the second loop runs at `secondLoop`.  No display exists, so
nothing is rendered. -/
def SceneExpiredWhenSubscribed (sceneId : SceneId) (firstLoop clockNow secondLoop : Time) :
    List MonitorEvent :=
  let m0 := SceneMonitor.subscribed sceneId
  let r1 := m0.tick firstLoop [testFlush sceneId 1 none] false
  let r2 := r1.2.tick secondLoop [testFlush sceneId 2 (some (clockNow - hour))] false
  r1.1 ++ r2.1

/-- The loop body of the lifecycle tests,
`setExpirationTimestamp(sceneId, now() + ahead); flush(sceneId); doOneLoop();`,
run once for every pair given: the first component is what `now()` returned, the
second the time of the loop.  `rendered` says whether the loops render
(`ELoopMode_UpdateAndRender`) or not (`ELoopMode_UpdateOnly`, or no display). -/
def updateRounds (sceneId : SceneId) (ahead : Time) (rendered : Bool) :
    Nat → List (Time × Time) → List SceneInput
  | _, [] => []
  | sequenceNumber, (clock, loop) :: rest =>
    .tick loop [testFlush sceneId sequenceNumber (some (clock + ahead))] rendered
      :: updateRounds sceneId ahead rendered (sequenceNumber + 1) rest

/-- The test `TEST_F(ARendererLifecycleTest, SceneNotExpiredWhenUpdatedAndSubscribed)`
(lines 909-928), as the events raised: the scene is flushed, without a deadline,
and subscribed, and then come the rounds of the loop (five in the test), each
with a flush whose deadline is one hour after the clock reading.  No display
exists. -/
def SceneNotExpiredWhenUpdatedAndSubscribed (sceneId : SceneId) (rounds : List (Time × Time)) :
    List MonitorEvent :=
  ((SceneMonitor.subscribed sceneId).run (updateRounds sceneId hour false 2 rounds)).1

/-- The tests `TEST_F(ARendererLifecycleTest, SceneNotExpiredWhenUpdatedAndRendered)`
(lines 978-1005) and `SceneNotExpiredWhenUpdatedWithEmptyFlushesAndRendered`
(lines 1007-1033), as the events raised: the scene is flushed, without a
deadline, subscribed, mapped and shown, a first loop runs at `firstLoop`, and
then come the rounds of the loop (five in the tests), each with a flush whose
deadline is one hour after the clock reading and each rendering.  The two tests
differ in whether the flushes carry scene changes, which the monitor does not
look at. -/
def SceneNotExpiredWhenUpdatedAndRendered (sceneId : SceneId) (firstLoop : Time)
    (rounds : List (Time × Time)) : List MonitorEvent :=
  ((SceneMonitor.subscribed sceneId).run
    (.setVisibility .Mapped :: .setVisibility .Shown :: .tick firstLoop [] true
      :: updateRounds sceneId hour true 2 rounds)).1

/-- The test `TEST_F(ARendererLifecycleTest, SceneExpiredWhenRendered)`
(lines 1035-1069), as the events raised: the scene is flushed, without a
deadline, subscribed, mapped and shown, and a first loop runs at `firstLoop`; a
flush with the deadline `c0 + 300ms` is made and rendered by the loop at
`secondLoop`; then, in loop mode `UpdateOnly`, come the rounds (five in the
test), each with a flush whose deadline is 500ms after the clock reading. -/
def SceneExpiredWhenRendered (sceneId : SceneId) (firstLoop c0 secondLoop : Time)
    (rounds : List (Time × Time)) : List MonitorEvent :=
  ((SceneMonitor.subscribed sceneId).run
    (.setVisibility .Mapped :: .setVisibility .Shown :: .tick firstLoop [] true
      :: .tick secondLoop [testFlush sceneId 2 (some (c0 + 300))] true
      :: updateRounds sceneId 500 false 3 rounds)).1

/-- The test `TEST_F(ARendererLifecycleTest, SceneExpiredWhenRenderedAndRecoveredAfterHidden)`
(lines 1071-1122), as the events raised: as `SceneExpiredWhenRendered`, then a
flush with the deadline `cPast - 1h` and a loop at `pastLoop`, then `hideScene`,
then the rounds `hidden` (five in the test), each with a flush whose deadline is
500ms after the clock reading; nothing is rendered after the second loop. -/
def SceneExpiredWhenRenderedAndRecoveredAfterHidden (sceneId : SceneId)
    (firstLoop c0 secondLoop : Time) (rounds : List (Time × Time)) (cPast pastLoop : Time)
    (hidden : List (Time × Time)) : List MonitorEvent :=
  ((SceneMonitor.subscribed sceneId).run
    ((.setVisibility .Mapped :: .setVisibility .Shown :: .tick firstLoop [] true
      :: .tick secondLoop [testFlush sceneId 2 (some (c0 + 300))] true
      :: updateRounds sceneId 500 false 3 rounds)
    ++ [ .tick pastLoop [testFlush sceneId (3 + rounds.length) (some (cPast - hour))] false
       , .setVisibility .Mapped ]
    ++ updateRounds sceneId 500 false (4 + rounds.length) hidden)).1

/-- The scene an event is about. -/
def MonitorEvent.sceneId : MonitorEvent → SceneId
  | .Expired sceneId => sceneId
  | .Recovered sceneId => sceneId

/-- Modelled from the spec: the Expiration Monitor, a "per-scene staleness state
machine": its records of the subscribed scenes, one for each. -/
abbrev ExpirationMonitor := List SceneMonitor

/-- Modelled from the spec: one tick of the monitor, which "re-evaluates each
subscribed scene's deadline".  `flushes` are the flushes applied in this tick,
of whatever scene, and `rendered` lists the scenes the tick renders. -/
def ExpirationMonitor.tick (now : Time) (flushes : List Flush) (rendered : List SceneId) :
    ExpirationMonitor → List MonitorEvent × ExpirationMonitor
  | [] => ([], [])
  | m :: ms =>
    let r := m.tick now flushes (rendered.contains m.state.sceneId)
    let rs := ExpirationMonitor.tick now flushes rendered ms
    (r.1 ++ rs.1, r.2 :: rs.2)

/-- Modelled from the spec: a change of the visibility of one scene. -/
def ExpirationMonitor.setVisibility (sceneId : SceneId) (v : VisibilityState) :
    ExpirationMonitor → ExpirationMonitor
  | [] => []
  | m :: ms =>
    (if m.state.sceneId = sceneId then m.setVisibility v else m)
      :: ExpirationMonitor.setVisibility sceneId v ms

/-- What can happen to the monitor: a tick, or a change of the visibility of
one scene. -/
inductive MonitorInput where
  | tick (now : Time) (flushes : List Flush) (rendered : List SceneId)
  | setVisibility (sceneId : SceneId) (v : VisibilityState)
  deriving DecidableEq, Repr

/-- One input to the monitor, with the events it raises. -/
def ExpirationMonitor.step (ms : ExpirationMonitor) :
    MonitorInput → List MonitorEvent × ExpirationMonitor
  | .tick now flushes rendered => ExpirationMonitor.tick now flushes rendered ms
  | .setVisibility sceneId v => ([], ExpirationMonitor.setVisibility sceneId v ms)

/-- A sequence of inputs to the monitor, with all events raised, oldest first. -/
def ExpirationMonitor.run :
    List MonitorInput → ExpirationMonitor → List MonitorEvent × ExpirationMonitor
  | [], ms => ([], ms)
  | i :: rest, ms =>
    let r := ms.step i
    let r2 := ExpirationMonitor.run rest r.2
    (r.1 ++ r2.1, r2.2)

/-- What an input to the monitor is for one scene: the tick with the flushes of
that scene and with whether that scene is rendered, or the change of that
scene's visibility; nothing when the visibility of another scene changes. -/
def MonitorInput.forScene (sceneId : SceneId) : MonitorInput → Option SceneInput
  | .tick now flushes rendered =>
    some (.tick now (flushes.filter (fun f => f.sceneId == sceneId)) (rendered.contains sceneId))
  | .setVisibility id v => if id = sceneId then some (.setVisibility v) else none

/-- The rounds of the first loop of the test `ScenesExpireOneAfterAnother`
after the first one: each applies a flush of the second scene whose deadline is
500ms after the clock reading, and renders both scenes. -/
def secondSceneRounds (sceneId1 sceneId2 : SceneId) : Nat → List (Time × Time) → List MonitorInput
  | _, [] => []
  | sequenceNumber, (clock, loop) :: rest =>
    .tick loop [testFlush sceneId2 sequenceNumber (some (clock + 500))] [sceneId1, sceneId2]
      :: secondSceneRounds sceneId1 sceneId2 (sequenceNumber + 1) rest

/-- The test `TEST_F(ARendererLifecycleTest, ScenesExpireOneAfterAnother)`
(lines 1244-1320) up to its first assertion, as the events raised: two scenes
are flushed, without a deadline, subscribed, mapped and shown, and a first loop
runs at `firstLoop`; for each scene a flush with the deadline `c0 + 500ms` is
made; then come the rounds (five in the test), each with a flush of the second
scene whose deadline is 500ms after the clock reading, and each rendering both
scenes.  The loop of the first round, at `loop1` with the clock reading
`clock1`, also applies the two flushes made before. -/
def ScenesExpireOneAfterAnother (sceneId1 sceneId2 : SceneId) (firstLoop c0 clock1 loop1 : Time)
    (rounds : List (Time × Time)) : List MonitorEvent :=
  (ExpirationMonitor.run
    (.setVisibility sceneId1 .Mapped :: .setVisibility sceneId2 .Mapped
      :: .setVisibility sceneId1 .Shown :: .setVisibility sceneId2 .Shown
      :: .tick firstLoop [] [sceneId1, sceneId2]
      :: .tick loop1
          [ testFlush sceneId1 2 (some (c0 + 500)), testFlush sceneId2 2 (some (c0 + 500))
          , testFlush sceneId2 3 (some (clock1 + 500)) ] [sceneId1, sceneId2]
      :: secondSceneRounds sceneId1 sceneId2 4 rounds)
    [SceneMonitor.subscribed sceneId1, SceneMonitor.subscribed sceneId2]).1

/-! ## Flush sequencer, consumer side

The sequencer is not among the sources at hand either; the definitions follow
section 4.4 of the specification. -/

/-- Modelled from the spec: what one consumer keeps for one scene: the
`highestAppliedSequence` of its `SceneSubscription`, the "out-of-order
arrivals" it "holds [...] until the gap is filled", and the `onFlushApplied`
calls it has made, oldest first. -/
structure FlushSequencer where
  sceneId : SceneId
  highestAppliedSequence : Nat
  held : List Flush
  applied : List Flush
  deriving DecidableEq, Repr

/-- Modelled from the spec: a consumer that has just subscribed to a scene whose
highest applied sequence number is `highest`. -/
def FlushSequencer.new (sceneId : SceneId) (highest : Nat) : FlushSequencer :=
  { sceneId := sceneId, highestAppliedSequence := highest, held := [], applied := [] }

/-- Modelled from the spec: "applying strictly in order": as long as the flush
with the next sequence number is held, it is applied (`onFlushApplied`) and
what is held at or below the new highest applied number is dropped.  Every round
takes a flush out of `held`, so a `fuel` of the number of held flushes is
enough. -/
def FlushSequencer.applyHeld : Nat → FlushSequencer → FlushSequencer
  | 0, s => s
  | fuel + 1, s =>
    match s.held.find? (fun g => g.sequenceNumber == s.highestAppliedSequence + 1) with
    | none => s
    | some g =>
      FlushSequencer.applyHeld fuel
        { s with
          highestAppliedSequence := s.highestAppliedSequence + 1
          applied := s.applied ++ [g]
          held := s.held.filter (fun h => h.sequenceNumber > s.highestAppliedSequence + 1) }

/-- Modelled from the spec: the arrival of a flush at the consumer.  "an arrival
with a sequence number ≤ the highest already applied is discarded as a
duplicate", and so is the second arrival of a flush that is held ("delivering
the same flush payload twice [...] second is discarded as duplicate"); any other
arrival is held, and then what can be applied in order is applied.  A flush of
another scene is not for this sequencer. -/
def FlushSequencer.deliver (f : Flush) (s : FlushSequencer) : FlushSequencer :=
  if f.sceneId ≠ s.sceneId then s
  else if f.sequenceNumber ≤ s.highestAppliedSequence then s
  else if s.held.any (fun g => g.sequenceNumber == f.sequenceNumber) then s
  else FlushSequencer.applyHeld (s.held.length + 1) { s with held := s.held ++ [f] }

/-- Modelled from the spec: the arrivals of a whole sequence of flushes, in the
order given. -/
def FlushSequencer.deliverAll : List Flush → FlushSequencer → FlushSequencer
  | [], s => s
  | f :: fs, s => FlushSequencer.deliverAll fs (s.deliver f)

/-- The sequence numbers of the `onFlushApplied` calls made, oldest first. -/
def FlushSequencer.appliedNumbers (s : FlushSequencer) : List Nat :=
  s.applied.map (fun f => f.sequenceNumber)

/-! ## A pool of workers on one queue

The pool and the blocking queue are not among the sources at hand; the worker
loop that every pool slot runs is (`TaskExecutingThread::run`, above).  The
queue follows section 4.1 of the specification. -/

/-- What happens at the shared queue, one event after the other: producers add
tasks, and the `popTask` calls of the workers return, in some interleaving. -/
inductive QueueEvent where
  /-- A producer's `addTask(task)` -/
  | addTask (task : Option ITask)
  /-- The `popTask(timeout)` of the worker with this index returns -/
  | popTask (worker : Nat) (timeout : Nat)
  deriving DecidableEq, Repr

/-- Modelled from the spec: `popTask(timeout)` of the "shared blocking queue":
"ordering within the queue is FIFO" and "ownership transfers to the worker that
pops it", so the front entry is taken out and returned; on an empty queue the
timeout runs out and the null pointer is returned.  The result is the pointer
returned and the queue left. -/
def IBlockingTaskQueue.popTask : List (Option ITask) → Option ITask × List (Option ITask)
  | [] => (none, [])
  | task :: rest => (task, rest)

/-- One pop as a worker sees it. -/
structure PopResult where
  worker : Nat
  timeout : Nat
  popped : Option ITask
  deriving DecidableEq, Repr

/-- The pops of a history of the queue, in order, each with what it returned.
`addTask` puts the task at the back, as in `World.addTask`. -/
def popResults : List (Option ITask) → List QueueEvent → List PopResult
  | _, [] => []
  | queue, .addTask task :: events => popResults (queue ++ [task]) events
  | queue, .popTask worker timeout :: events =>
    { worker := worker, timeout := timeout, popped := (IBlockingTaskQueue.popTask queue).1 }
      :: popResults (IBlockingTaskQueue.popTask queue).2 events

/-- The queue after a history. -/
def queueAfter : List (Option ITask) → List QueueEvent → List (Option ITask)
  | queue, [] => queue
  | queue, .addTask task :: events => queueAfter (queue ++ [task]) events
  | queue, .popTask _ _ :: events => queueAfter (IBlockingTaskQueue.popTask queue).2 events

/-- The rounds of the loop of one worker in a history: one round for each of
its pops, with the timeout and the pointer of that pop; nobody requests
cancellation. -/
def roundsOf (worker : Nat) (results : List PopResult) : List Round :=
  (results.filter (fun p => p.worker == worker)).map
    (fun p =>
      { cancelBeforeCheck := false, timeout := p.timeout, popped := p.popped
        cancelWhileHeld := false })

/-- The worker of a pool slot: constructed with its index and started on the
queue of the pool. -/
def poolWorker (queue : QueueId) (index : Nat) : TaskExecutingThread :=
  (TaskExecutingThread.start queue (World.fresh index)).worker

/-- The run of the worker in pool slot `index` in a history of the shared
queue, which is empty at first. -/
def poolRun (queue : QueueId) (events : List QueueEvent) (index : Nat) : RunResult :=
  (poolWorker queue index).run (roundsOf index (popResults [] events))

/-! ## GlslToEffectConverter

The converter (client/ramses-client/impl/glslEffectBlock/GlslToEffectConverter.cpp)
reads the linker objects of a linked shader program and collects the
attributes and uniforms of the effect.  The enumerations and the class
`EffectInputInformation` are declared in headers outside the sources at hand,
the syntax tree and its types come from the glslang library; they are given
here by the values and getters that the converter uses.  A `String` stands for
the characters of a C string, so `c_str()` and the construction of a `String`
from it are the identity; a stream is the `String` of what was written to it. -/

/-- The values of `EDataType` that the converter names; every other value of
the enumeration is `other`. -/
inductive EDataType where
  | EDataType_UInt16
  | EDataType_Float
  | EDataType_Vector2F
  | EDataType_Vector3F
  | EDataType_Vector4F
  | EDataType_Vector2I
  | EDataType_Vector3I
  | EDataType_Vector4I
  | EDataType_Matrix22F
  | EDataType_Matrix33F
  | EDataType_Matrix44F
  | EDataType_Int32
  | EDataType_UInt32
  | EDataType_TextureSampler
  | EDataType_UInt16Buffer
  | EDataType_FloatBuffer
  | EDataType_Vector2Buffer
  | EDataType_Vector3Buffer
  | EDataType_Vector4Buffer
  | EDataType_NUMBER_OF_ELEMENTS
  | other (value : Nat)
  deriving DecidableEq, Repr

/-- The values of `EEffectInputTextureType` that the converter names; every
other value of the enumeration is `other`. -/
inductive EEffectInputTextureType where
  | EEffectInputTextureType_Texture2D
  | EEffectInputTextureType_Texture3D
  | EEffectInputTextureType_TextureCube
  | other (value : Nat)
  deriving DecidableEq, Repr

/-- A value of the enumeration `EFixedSemantics`. -/
abbrev EFixedSemantics := Nat

/-- The class `EffectInputInformation`, by the members that the converter reads
and writes; two of them are equal under `operator==` when all members are. -/
structure EffectInputInformation where
  inputName : String
  elementCount : Nat
  dataType : EDataType
  semantics : EFixedSemantics
  textureType : EEffectInputTextureType
  deriving DecidableEq, Repr

/-- The type `EffectInputInformationVector`. -/
abbrev EffectInputInformationVector := List EffectInputInformation

/-- The enumeration `EShaderStage`. -/
inductive EShaderStage where
  | Vertex
  | Fragment
  deriving DecidableEq, Repr

/-- What the converter takes from declarations that are not among the sources
at hand, and how it was compiled. -/
structure Declarations where
  /-- Whether `NDEBUG` is defined: when it is, `assert` expands to nothing -/
  NDEBUG : Bool
  /-- A default-constructed `EffectInputInformation` -/
  defaultInput : EffectInputInformation
  /-- The function `EnumToString(EDataType)` -/
  EnumToStringDataType : EDataType → String
  /-- The function `EnumToString(EFixedSemantics)` -/
  EnumToStringSemantics : EFixedSemantics → String
  /-- The function `IsSemanticCompatibleWithDataType` -/
  IsSemanticCompatibleWithDataType : EFixedSemantics → EDataType → Bool

/-- The values of `glslang::TBasicType` that the converter names. -/
inductive TBasicType where
  | EbtFloat
  | EbtDouble
  | EbtInt
  | EbtUint
  | EbtSampler
  | other (value : Nat)
  deriving DecidableEq, Repr

/-- The values of `glslang::TSamplerDim` that the converter names. -/
inductive TSamplerDim where
  | Esd2D
  | Esd3D
  | EsdCube
  | other (value : Nat)
  deriving DecidableEq, Repr

/-- The values of `glslang::TStorageQualifier` that the converter names. -/
inductive TStorageQualifier where
  | EvqVaryingIn
  | EvqUniform
  | other (value : Nat)
  deriving DecidableEq, Repr

/-- The class `glslang::TSampler`, by what the converter reads. -/
structure TSampler where
  dim : TSamplerDim
  getString : String
  deriving DecidableEq, Repr

/-- The getters of `glslang::TType` that the converter calls, apart from
`getStruct()`; `storage` is `getQualifier().storage`. -/
structure TTypeGetters where
  getBasicType : TBasicType
  getBasicTypeString : String
  getSampler : TSampler
  isVector : Bool
  getVectorSize : Int
  isMatrix : Bool
  getMatrixRows : Int
  getMatrixCols : Int
  isArray : Bool
  isArrayOfArrays : Bool
  getOuterArraySize : Int
  isStruct : Bool
  getFieldName : String
  storage : TStorageQualifier
  deriving DecidableEq, Repr

/-- The class `glslang::TType`: its getters and, behind `getStruct()`, the
types of the fields of a structure. -/
inductive TType where
  | mk (getters : TTypeGetters) (getStruct : List TType)

/-- The getters of a type. -/
def TType.getters : TType → TTypeGetters
  | .mk getters _ => getters

/-- The call `type.getStruct()`. -/
def TType.getStruct : TType → List TType
  | .mk _ fields => fields

/-- The class `TIntermNode` of the syntax tree: `getAsAggregate()` is not null
for an aggregate, which has its `getSequence()`, and `getAsSymbolNode()` is not
null for a symbol, which has `getName()` and `getType()`. -/
inductive TIntermNode where
  | aggregate (getSequence : List TIntermNode)
  | symbol (getName : String) (getType : TType)
  | other

/-- The class `glslang::TProgram`, by the tree roots
`getIntermediate(stage)->getTreeRoot()` of its two stages. -/
structure TProgram where
  vertexTreeRoot : TIntermNode
  fragmentTreeRoot : TIntermNode

/-- The members of `GlslToEffectConverter`.  `m_semanticInputs` is the hash map
by its `get`; `m_message` is the stream of the status message. -/
structure GlslToEffectConverter where
  m_semanticInputs : String → Option EFixedSemantics
  m_message : String
  m_uniformInputs : EffectInputInformationVector
  m_attributeInputs : EffectInputInformationVector

/-- How a call ends: it returns, or an `assert` fails and the process is
aborted. -/
inductive Outcome (α : Type) where
  | returned (value : α)
  | assertionFailed (expression : String)

/-- The macro `assert(expression)`: nothing with `NDEBUG`, otherwise the
process is aborted when the expression is false. -/
def assert (NDEBUG : Bool) (expression : Bool) (text : String)
    {α : Type} (next : Outcome α) : Outcome α :=
  if NDEBUG || expression then next else .assertionFailed text

/-- What follows a call that may fail an assertion. -/
def Outcome.andThen {α β : Type} : Outcome α → (α → Outcome β) → Outcome β
  | .returned value, next => next value
  | .assertionFailed expression, _ => .assertionFailed expression

/-- The conversion of an `int` to `uint32_t`. -/
def toUInt32 (value : Int) : Nat :=
  (value % 4294967296).toNat

/-- The conversion `static_cast<int32_t>` of a `uint32_t`. -/
def toInt32 (value : Nat) : Int :=
  if value < 2147483648 then (value : Int) else (value : Int) - 4294967296

namespace GlslToEffectConverter

/-- The constructor (lines 15-18). -/
def new (semanticInputs : String → Option EFixedSemantics) : GlslToEffectConverter :=
  { m_semanticInputs := semanticInputs
    m_message := ""
    m_uniformInputs := []
    m_attributeInputs := [] }

/-- Method `getStatusMessage` (lines 33-41). -/
def getStatusMessage (self : GlslToEffectConverter) : String :=
  let msg := self.m_message
  if msg.length == 0 then "Ok" else msg

/-- Method `getUniformInputs` (lines 43-46). -/
def getUniformInputs (self : GlslToEffectConverter) : EffectInputInformationVector :=
  self.m_uniformInputs

/-- Method `getAttributeInputs` (lines 48-51). -/
def getAttributeInputs (self : GlslToEffectConverter) : EffectInputInformationVector :=
  self.m_attributeInputs

/-- What `m_message << ...` leaves: the text is appended to the stream. -/
def write (self : GlslToEffectConverter) (text : String) : GlslToEffectConverter :=
  { self with m_message := self.m_message ++ text }

/-- Method `getLinkerObjectSequence` (lines 72-89); `none` is `nullptr`. -/
def getLinkerObjectSequence (self : GlslToEffectConverter) (node : TIntermNode) :
    Option (List TIntermNode) × GlslToEffectConverter :=
  match node with
  | .aggregate topLevelSeq =>
    if topLevelSeq.length < 2 then
      (none, self.write "unexpected internal structure on top level")
    else
      match topLevelSeq.getLast? with
      | some (.aggregate linkerObjects) => (some linkerObjects, self)
      | _ => (none, self.write "unexpected internal structure in linker objects")
  | _ => (none, self.write "unexpected internal structure on top level")

/-- Method `getElementCountFromType` (lines 386-403): the value written to
`elementCount`, or `none` when it returns false. -/
def getElementCountFromType (self : GlslToEffectConverter) (type : TType)
    (inputName : String) : Option Nat × GlslToEffectConverter :=
  if type.getters.isArray then
    if type.getters.isArrayOfArrays then
      (none, self.write (inputName ++ ": multidimensional arrays not supported"))
    else
      (some (toUInt32 type.getters.getOuterArraySize), self)
  else
    (some 1, self)

/-- Method `getStructFieldIdentifier` (lines 190-206). -/
def getStructFieldIdentifier (baseName fieldName : String) (arrayIndex : Int) : String :=
  let stream := baseName
  let stream := if arrayIndex != -1 then stream ++ "[" ++ toString arrayIndex ++ "]" else stream
  stream ++ "." ++ fieldName

/-- The inner `switch (vectorSize)` of the float and double vectors
(lines 284-297): the data type with which it returns, `none` when it breaks. -/
def floatVectorType (vectorSize : Int) : Option EDataType :=
  if vectorSize = 2 then some .EDataType_Vector2F
  else if vectorSize = 3 then some .EDataType_Vector3F
  else if vectorSize = 4 then some .EDataType_Vector4F
  else none

/-- The inner `switch (vectorSize)` of the int vectors (lines 299-312). -/
def intVectorType (vectorSize : Int) : Option EDataType :=
  if vectorSize = 2 then some .EDataType_Vector2I
  else if vectorSize = 3 then some .EDataType_Vector3I
  else if vectorSize = 4 then some .EDataType_Vector4I
  else none

/-- The `switch (type.getBasicType())` of the vectors (lines 280-315).  The
float case has no `break` behind its inner switch, so control falls through to
the int case, and from there to the default case. -/
def vectorType (basicType : TBasicType) (vectorSize : Int) : Option EDataType :=
  match basicType with
  | .EbtFloat | .EbtDouble =>
    match floatVectorType vectorSize with
    | some dataType => some dataType
    | none => intVectorType vectorSize
  | .EbtInt => intVectorType vectorSize
  | _ => none

/-- Method `setInputTypeFromType(const TType&, EffectInputInformation&)`
(lines 251-368): what it returns, the input as it leaves it, and the converter. -/
def setInputTypeFromType (d : Declarations) (self : GlslToEffectConverter) (type : TType)
    (input : EffectInputInformation) :
    Outcome (Bool × EffectInputInformation × GlslToEffectConverter) :=
  assert d.NDEBUG (input.inputName.length != 0) "input.inputName.getLength() != 0" <|
  assert d.NDEBUG (!type.getters.isStruct) "!type.isStruct()" <|
  let basicType := type.getters.getBasicType
  if basicType = .EbtSampler then
    let input := { input with dataType := .EDataType_TextureSampler }
    match type.getters.getSampler.dim with
    | .Esd2D =>
      .returned (true, { input with textureType := .EEffectInputTextureType_Texture2D }, self)
    | .Esd3D =>
      .returned (true, { input with textureType := .EEffectInputTextureType_Texture3D }, self)
    | .EsdCube =>
      .returned (true, { input with textureType := .EEffectInputTextureType_TextureCube }, self)
    | .other _ =>
      .returned (false, input,
        self.write (input.inputName ++ ": unknown sampler dimension "
          ++ type.getters.getSampler.getString))
  else if type.getters.isVector then
    let vectorSize := type.getters.getVectorSize
    match vectorType type.getters.getBasicType vectorSize with
    | some dataType => .returned (true, { input with dataType := dataType }, self)
    | none =>
      .returned (false, input,
        self.write (input.inputName ++ ": unknown vector " ++ toString vectorSize
          ++ "D of type " ++ type.getters.getBasicTypeString))
  else if type.getters.isMatrix then
    let rows := type.getters.getMatrixRows
    let cols := type.getters.getMatrixCols
    if rows = cols ∧ rows ≥ 2 ∧ rows ≤ 4 then
      if rows = 2 then .returned (true, { input with dataType := .EDataType_Matrix22F }, self)
      else if rows = 3 then
        .returned (true, { input with dataType := .EDataType_Matrix33F }, self)
      else if rows = 4 then
        .returned (true, { input with dataType := .EDataType_Matrix44F }, self)
      else assert d.NDEBUG false "false" (.returned (false, input, self))
    else
      .returned (false, input,
        self.write (input.inputName ++ ": unsupported " ++ toString cols ++ "x"
          ++ toString rows ++ " matrix for type " ++ type.getters.getBasicTypeString))
  else
    assert d.NDEBUG (!type.getters.isVector && !type.getters.isMatrix)
      "!type.isVector() && !type.isMatrix()" <|
    match basicType with
    | .EbtFloat | .EbtDouble =>
      .returned (true, { input with dataType := .EDataType_Float }, self)
    | .EbtInt => .returned (true, { input with dataType := .EDataType_Int32 }, self)
    | .EbtUint => .returned (true, { input with dataType := .EDataType_UInt32 }, self)
    | _ =>
      .returned (false, input,
        self.write (input.inputName ++ ": unknown scalar base type "
          ++ type.getters.getBasicTypeString))

/-- Method `setSemanticsOnInput` (lines 370-384). -/
def setSemanticsOnInput (d : Declarations) (self : GlslToEffectConverter)
    (input : EffectInputInformation) :
    Outcome (Bool × EffectInputInformation × GlslToEffectConverter) :=
  assert d.NDEBUG (input.inputName.length != 0) "input.inputName.getLength() != 0" <|
  assert d.NDEBUG (input.dataType != .EDataType_NUMBER_OF_ELEMENTS)
    "input.dataType != EDataType_NUMBER_OF_ELEMENTS" <|
  match self.m_semanticInputs input.inputName with
  | some semantic =>
    if !d.IsSemanticCompatibleWithDataType semantic input.dataType then
      .returned (false, input,
        self.write (input.inputName ++ ": input type " ++ d.EnumToStringDataType input.dataType
          ++ " not compatible with semantic " ++ d.EnumToStringSemantics semantic))
    else
      .returned (true, { input with semantics := semantic }, self)
  | none => .returned (true, input, self)

/-- Method `createEffectInputType` (lines 208-219): what it returns, the output
vector as it leaves it, and the converter. -/
def createEffectInputType (d : Declarations) (self : GlslToEffectConverter) (type : TType)
    (inputName : String) (elementCount : Nat) (outputVector : EffectInputInformationVector) :
    Outcome (Bool × EffectInputInformationVector × GlslToEffectConverter) :=
  let input : EffectInputInformation :=
    { d.defaultInput with inputName := inputName, elementCount := elementCount }
  (setInputTypeFromType d self type input).andThen fun r1 =>
    if !r1.1 then .returned (false, outputVector, r1.2.2)
    else
      (setSemanticsOnInput d r1.2.2 r1.2.1).andThen fun r2 =>
        if !r2.1 then .returned (false, outputVector, r2.2.2)
        else .returned (true, outputVector ++ [r2.2.1], r2.2.2)

/-- The loop `for (uint32_t i = 0; i < elementCount; i++)` (line 162) from `i`
on, `count` rounds being left; the body returns false to leave the method with
false. -/
def forEachElement {σ : Type} (body : Nat → σ → Outcome (Bool × σ)) :
    Nat → Nat → σ → Outcome (Bool × σ)
  | 0, _, state => .returned (true, state)
  | count + 1, i, state =>
    (body i state).andThen fun r =>
      if !r.1 then .returned (false, r.2)
      else forEachElement body count (i + 1) r.2

mutual

/-- Method `setInputTypeFromType(const TType&, const String&,
EffectInputInformationVector&)` (lines 146-188). -/
def setInputTypeFromTypeVector (d : Declarations) :
    TType → String → EffectInputInformationVector × GlslToEffectConverter →
      Outcome (Bool × EffectInputInformationVector × GlslToEffectConverter)
  | .mk getters structFields, inputName, (outputVector, self) =>
    match getElementCountFromType self (.mk getters structFields) inputName with
    | (none, self1) => .returned (false, outputVector, self1)
    | (some elementCount, self1) =>
      assert d.NDEBUG (inputName.length != 0) "inputName.getLength() != 0" <|
      assert d.NDEBUG (decide (elementCount > 0)) "elementCount > 0" <|
      if !getters.isStruct then
        createEffectInputType d self1 (.mk getters structFields) inputName elementCount
          outputVector
      else
        forEachElement
          (fun i state =>
            forEachStructField d inputName (if getters.isArray then toInt32 i else -1)
              structFields state)
          elementCount 0 (outputVector, self1)

/-- The loop over the fields of the structure (lines 164-183), for one array
index. -/
def forEachStructField (d : Declarations) (inputName : String) (arrayIndex : Int) :
    List TType → EffectInputInformationVector × GlslToEffectConverter →
      Outcome (Bool × EffectInputInformationVector × GlslToEffectConverter)
  | [], state => .returned (true, state)
  | fieldType :: rest, (outputVector, self) =>
    let fieldName := fieldType.getters.getFieldName
    let subName := getStructFieldIdentifier inputName fieldName arrayIndex
    match getElementCountFromType self fieldType inputName with
    | (none, self1) => .returned (false, outputVector, self1)
    | (some newElementCount, self1) =>
      (if fieldType.getters.isStruct then
        setInputTypeFromTypeVector d fieldType subName (outputVector, self1)
      else
        createEffectInputType d self1 fieldType subName newElementCount outputVector).andThen
        fun r =>
          if !r.1 then .returned (false, r.2)
          else forEachStructField d inputName arrayIndex rest r.2

end

/-- Method `handleSymbol` (lines 91-105), for a symbol with the given name and
type. -/
def handleSymbol (d : Declarations) (self : GlslToEffectConverter) (getName : String)
    (getType : TType) (stage : EShaderStage) : Outcome (Bool × GlslToEffectConverter) :=
  let storageQualifier := getType.getters.storage
  if storageQualifier = .EvqVaryingIn ∧ stage = .Vertex then
    (setInputTypeFromTypeVector d getType getName (self.m_attributeInputs, self)).andThen
      fun r => .returned (r.1, { r.2.2 with m_attributeInputs := r.2.1 })
  else if storageQualifier = .EvqUniform then
    (setInputTypeFromTypeVector d getType getName (self.m_uniformInputs, self)).andThen
      fun r => .returned (r.1, { r.2.2 with m_uniformInputs := r.2.1 })
  else
    .returned (true, self)

/-- The loop over the linker objects (lines 61-68). -/
def forEachLinkerObject (d : Declarations) (stage : EShaderStage) :
    List TIntermNode → GlslToEffectConverter → Outcome (Bool × GlslToEffectConverter)
  | [], self => .returned (true, self)
  | .symbol getName getType :: rest, self =>
    (handleSymbol d self getName getType stage).andThen fun r =>
      if !r.1 then .returned (false, r.2)
      else forEachLinkerObject d stage rest r.2
  | _ :: rest, self => forEachLinkerObject d stage rest self

/-- Method `parseLinkerObjectsForStage` (lines 53-70). -/
def parseLinkerObjectsForStage (d : Declarations) (self : GlslToEffectConverter)
    (node : TIntermNode) (stage : EShaderStage) : Outcome (Bool × GlslToEffectConverter) :=
  match getLinkerObjectSequence self node with
  | (none, self1) => .returned (false, self1)
  | (some linkerObjects, self1) => forEachLinkerObject d stage linkerObjects self1

/-- How the inner loop of `makeUniformsUnique` ends for one entry. -/
inductive LaterEntries where
  /-- No later entry has the name: `add` is still true -/
  | add
  /-- The first later entry of the name is equal: `add = false; break` -/
  | single
  /-- The first later entry of the name is different: `return false` -/
  | different
  deriving DecidableEq, Repr

/-- The inner loop of `makeUniformsUnique` (lines 118-135) for the entry `A`,
over the entries `temp[j]` with `j > i`. -/
def laterEntries (A : EffectInputInformation) : List EffectInputInformation → LaterEntries
  | [] => .add
  | B :: rest =>
    if A.inputName = B.inputName then
      if A = B then .single else .different
    else laterEntries A rest

/-- The outer loop of `makeUniformsUnique` (lines 112-141), over the entries
`temp[i]`, `temp[i + 1]`, ... -/
def forEachUniform :
    List EffectInputInformation → GlslToEffectConverter → Bool × GlslToEffectConverter
  | [], self => (true, self)
  | A :: rest, self =>
    match laterEntries A rest with
    | .different =>
      (false, self.write (A.inputName
        ++ ": uniform with same name but different data type declared in multiple stages"))
    | .single => forEachUniform rest self
    | .add => forEachUniform rest { self with m_uniformInputs := self.m_uniformInputs ++ [A] }

/-- Method `makeUniformsUnique` (lines 107-144). -/
def makeUniformsUnique (self : GlslToEffectConverter) : Bool × GlslToEffectConverter :=
  let temp := self.m_uniformInputs
  forEachUniform temp { self with m_uniformInputs := [] }

/-- The `switch (input.dataType)` of `replaceVertexAttributeWithBufferVariant`
(lines 225-245): the buffer type written, `none` in the default case. -/
def bufferVariant : EDataType → Option EDataType
  | .EDataType_UInt16 => some .EDataType_UInt16Buffer
  | .EDataType_Float => some .EDataType_FloatBuffer
  | .EDataType_Vector2F => some .EDataType_Vector2Buffer
  | .EDataType_Vector3F => some .EDataType_Vector3Buffer
  | .EDataType_Vector4F => some .EDataType_Vector4Buffer
  | _ => none

/-- The loop of `replaceVertexAttributeWithBufferVariant` (lines 223-246) over
the attributes not yet visited: what is returned, these attributes as the loop
leaves them, and the stream. -/
def forEachAttribute (d : Declarations) :
    List EffectInputInformation → String → Bool × List EffectInputInformation × String
  | [], message => (true, [], message)
  | input :: rest, message =>
    match bufferVariant input.dataType with
    | some buffer =>
      let r := forEachAttribute d rest message
      (r.1, { input with dataType := buffer } :: r.2.1, r.2.2)
    | none =>
      (false, input :: rest,
        message ++ (input.inputName ++ ": unknown base type for attribute buffer type "
          ++ d.EnumToStringDataType input.dataType))

/-- Method `replaceVertexAttributeWithBufferVariant` (lines 221-249). -/
def replaceVertexAttributeWithBufferVariant (d : Declarations) (self : GlslToEffectConverter) :
    Bool × GlslToEffectConverter :=
  let r := forEachAttribute d self.m_attributeInputs self.m_message
  (r.1, { self with m_attributeInputs := r.2.1, m_message := r.2.2 })

/-- Method `parseShaderProgram` (lines 24-31). -/
def parseShaderProgram (d : Declarations) (self : GlslToEffectConverter) (program : TProgram) :
    Outcome (Bool × GlslToEffectConverter) :=
  (parseLinkerObjectsForStage d self program.vertexTreeRoot .Vertex).andThen fun r1 =>
    if !r1.1 then .returned (false, r1.2)
    else
      (parseLinkerObjectsForStage d r1.2 program.fragmentTreeRoot .Fragment).andThen fun r2 =>
        if !r2.1 then .returned (false, r2.2)
        else
          let r3 := replaceVertexAttributeWithBufferVariant d r2.2
          if !r3.1 then .returned (false, r3.2)
          else
            let r4 := makeUniformsUnique r3.2
            if !r4.1 then .returned (false, r4.2)
            else .returned (true, r4.2)

end GlslToEffectConverter

end Ramses

/-! ## Notions used in the statements -/

namespace Ramses

/-- The class of the object a factory call returned, if it returned one. -/
def FactoryResult.kindOf (r : FactoryResult ICommunicationSystem) : FactoryResult TransportKind :=
  match r with
  | .returned p => .returned (p.map ICommunicationSystem.kind)
  | .assertionFailed m => .assertionFailed m

/-- Whether the flush carries a deadline, and one that is not before `now`. -/
def Flush.withinDeadline (now : Time) (f : Flush) : Bool :=
  match f.expirationDeadline with
  | some d => decide (now ≤ d)
  | none => false

/-- Whether the input is a tick that applies at least one flush of the scene,
all flushes of the scene it applies carry a deadline not before the tick, and,
if `mustRender` is set, the tick renders. -/
def SceneInput.timelyFlushTick (sceneId : SceneId) (mustRender : Bool) : SceneInput → Bool
  | .tick now flushes rendered =>
    (!mustRender || rendered) && !(ownFlushes sceneId flushes).isEmpty
      && (ownFlushes sceneId flushes).all (fun f => f.withinDeadline now)
  | .setVisibility _ => false

/-- Whether the input is a tick that renders nothing and in which every flush
of the scene that is applied carries a deadline. -/
def SceneInput.unrenderedTick (sceneId : SceneId) : SceneInput → Bool
  | .tick _ flushes rendered =>
    !rendered && (ownFlushes sceneId flushes).all (fun f => f.expirationDeadline.isSome)
  | .setVisibility _ => false

/-- The time of a tick (0 for an input that is no tick). -/
def SceneInput.time : SceneInput → Time
  | .tick now _ _ => now
  | .setVisibility _ => 0

/-- A shown, monitored scene whose last rendered flush has the deadline `d`. -/
def SceneMonitor.ShowsDeadline (d : Time) (m : SceneMonitor) : Prop :=
  m.visibility = .Shown ∧ m.presentedDeadline = some d ∧ m.state.deadline ≠ none

/-- Whether the input applies no flush of the scene that carries a deadline. -/
def SceneInput.withoutDeadline (sceneId : SceneId) : SceneInput → Bool
  | .tick _ flushes _ => (ownFlushes sceneId flushes).all (fun f => f.expirationDeadline.isNone)
  | .setVisibility _ => true

/-- Whether every flush of the scene that the input applies carries a
deadline. -/
def SceneInput.keepsDeadline (sceneId : SceneId) : SceneInput → Bool
  | .tick _ flushes _ => (ownFlushes sceneId flushes).all (fun f => f.expirationDeadline.isSome)
  | .setVisibility _ => true

/-- Whether the input is a tick in which every flush of the scene that is
applied carries a deadline not before the tick, whether or not it applies one
and whether or not it renders, or a change of visibility that does not show the
scene. -/
def SceneInput.inTimeNotShown (sceneId : SceneId) : SceneInput → Bool
  | .tick now flushes _ => (ownFlushes sceneId flushes).all (fun f => f.withinDeadline now)
  | .setVisibility v => v != .Shown

/-- Whether the events come one per change of a scene that is expired or not as
`expired` says: `Expired` only while the scene is not expired, `Recovered` only
while it is. -/
def eventsAlternate : Bool → List MonitorEvent → Bool
  | _, [] => true
  | expired, .Expired _ :: rest => !expired && eventsAlternate true rest
  | expired, .Recovered _ :: rest => expired && eventsAlternate false rest

/-- The phase transitions that C13 allows: "`NotMonitored↔OnTime`,
`OnTime→Expired`, `Expired→Recovered→OnTime`". -/
def claimedTransition : Phase → Phase → Bool
  | .NotMonitored, .OnTime => true
  | .OnTime, .NotMonitored => true
  | .OnTime, .Expired => true
  | .Expired, .Recovered => true
  | .Recovered, .OnTime => true
  | _, _ => false

/-- What makes the phase of a scene change. -/
inductive TransitionCause where
  /-- a flush that carries a deadline is applied -/
  | flushWithDeadline
  /-- a flush without deadline is applied -/
  | flushWithoutDeadline
  /-- the comparison of a tick raises `Expired` -/
  | expiredEvent
  /-- the comparison of a tick raises `Recovered` -/
  | recoveredEvent
  deriving DecidableEq, Repr

/-- The phase changes of the monitor, each with its cause: a flush with a
deadline takes a scene that is not monitored to `OnTime`; a flush without one
takes a monitored scene to `NotMonitored`; the comparison that raises `Expired`
takes `OnTime` to `Expired`, the one that raises `Recovered` takes `Expired` to
`OnTime`. -/
def causedTransition : TransitionCause → Phase → Phase → Bool
  | .flushWithDeadline, .NotMonitored, .OnTime => true
  | .flushWithoutDeadline, .OnTime, .NotMonitored => true
  | .flushWithoutDeadline, .Expired, .NotMonitored => true
  | .expiredEvent, .OnTime, .Expired => true
  | .recoveredEvent, .Expired, .OnTime => true
  | _, _, _ => false

/-- The cause that the application of a flush is. -/
def Flush.cause (f : Flush) : TransitionCause :=
  if f.expirationDeadline.isSome then .flushWithDeadline else .flushWithoutDeadline

/-- The cause that an event of the monitor reports. -/
def MonitorEvent.cause : MonitorEvent → TransitionCause
  | .Expired _ => .expiredEvent
  | .Recovered _ => .recoveredEvent

/-- The expiration states the monitor can be in: the phase is `NotMonitored`
exactly when there is no deadline, and it is never `Recovered`. -/
def ExpirationState.WellFormed (st : ExpirationState) : Prop :=
  (st.phase = .NotMonitored ↔ st.deadline = none) ∧ st.phase ≠ .Recovered

/-- The events among those given that are about one scene. -/
def eventsOf (sceneId : SceneId) (events : List MonitorEvent) : List MonitorEvent :=
  events.filter (fun e => e.sceneId == sceneId)

/-- The scene ids of the monitor's records. -/
def ExpirationMonitor.sceneIds (ms : ExpirationMonitor) : List SceneId :=
  ms.map (fun m => m.state.sceneId)

/-- A sequencer that has applied, from `base` on, the flushes numbered
`base + 1`, `base + 2`, ... up to its highest applied number, each once and in
this order, and that holds only flushes beyond the next number. -/
def FlushSequencer.InOrder (base : Nat) (s : FlushSequencer) : Prop :=
  base ≤ s.highestAppliedSequence ∧
  s.appliedNumbers = List.range' (base + 1) (s.highestAppliedSequence - base) ∧
  ∀ g ∈ s.held, s.highestAppliedSequence + 1 < g.sequenceNumber

/-- A sequence number the sequencer has taken note of: a flush with this number
was applied (or dropped as a duplicate of an applied one), or one is held. -/
def FlushSequencer.Covers (s : FlushSequencer) (n : Nat) : Prop :=
  n ≤ s.highestAppliedSequence ∨ ∃ g ∈ s.held, g.sequenceNumber = n

/-- Whether a backend for the protocol is compiled in: the fake one always is,
the TCP one with `HAS_TCP_COMM`, and no other protocol has one. -/
def hasBackend (b : Build) : EConnectionProtocol → Bool
  | .EConnectionProtocol_Fake => true
  | .EConnectionProtocol_TCP => b.HAS_TCP_COMM
  | .other _ => false

/-- Whether the call is a `popTask`. -/
def Call.isPopTask : Call → Bool
  | .popTask _ _ => true
  | _ => false

/-- Whether the call is a `notifyAlive`. -/
def Call.isNotifyAlive : Call → Bool
  | .notifyAlive _ => true
  | _ => false

/-- The stretches of time without a liveness report in a trace, when the call
`c` takes the time `cost c`: the time from the beginning to the first report,
from each report to the next, and from the last report to the end of the trace.
`sinceLast` is the time that has passed since the last report. -/
def silences (cost : Call → Nat) (sinceLast : Nat) : List Call → List Nat
  | [] => [sinceLast]
  | .notifyAlive _ :: rest => sinceLast :: silences cost 0 rest
  | c :: rest => silences cost (sinceLast + cost c) rest

/-- The tasks that producers add in a history, in order. -/
def submittedTasks : List QueueEvent → List (Option ITask)
  | [] => []
  | .addTask task :: events => task :: submittedTasks events
  | .popTask _ _ :: events => submittedTasks events

/-- The indices of the workers that pop in a history. -/
def poppingWorkers : List QueueEvent → List Nat
  | [] => []
  | .addTask _ :: events => poppingWorkers events
  | .popTask worker _ :: events => worker :: poppingWorkers events

/-- Whether the list has two entries with the same name that are not equal. -/
def SameNameDifferentData (uniforms : List EffectInputInformation) : Prop :=
  ∃ A ∈ uniforms, ∃ B ∈ uniforms, A.inputName = B.inputName ∧ A ≠ B

/-- The entries of a list that are the last of their name, in the order of the
list. -/
def lastOfEachName : List EffectInputInformation → List EffectInputInformation
  | [] => []
  | A :: rest =>
    if rest.any (fun B => B.inputName == A.inputName) then lastOfEachName rest
    else A :: lastOfEachName rest

/-- The text that `makeUniformsUnique` writes for the entry of a name that is
declared with different data. -/
def differentDataMessage (A : EffectInputInformation) : String :=
  A.inputName ++ ": uniform with same name but different data type declared in multiple stages"

/-- The attribute with its data type replaced by the buffer type that
corresponds to it; an attribute of a data type that has none is left as it is. -/
def EffectInputInformation.asBuffer (input : EffectInputInformation) : EffectInputInformation :=
  { input with
    dataType := (GlslToEffectConverter.bufferVariant input.dataType).getD input.dataType }

/-- What stays of an attribute when its data type is rewritten: name, element
count, semantics and texture type. -/
def EffectInputInformation.besidesDataType (input : EffectInputInformation) :
    String × Nat × EFixedSemantics × EEffectInputTextureType :=
  (input.inputName, input.elementCount, input.semantics, input.textureType)

/-- The text that `replaceVertexAttributeWithBufferVariant` writes for an
attribute whose data type has no buffer type. -/
def unknownBaseTypeMessage (d : Declarations) (input : EffectInputInformation) : String :=
  input.inputName ++ ": unknown base type for attribute buffer type "
    ++ d.EnumToStringDataType input.dataType

/-- The types that C27 lists, with the data type and, for samplers, the texture
type that it names for each: samplers of dimension 2D, 3D or Cube; float and
double vectors of size 2 to 4; int vectors of size 2 to 4; square matrices of
size 2 to 4; float, double, int and uint scalars.  A sampler counts as a
sampler, whatever else it is, and a vector as a vector. -/
def expectedInputType (type : TTypeGetters) :
    Option (EDataType × Option EEffectInputTextureType) :=
  if type.getBasicType = .EbtSampler then
    match type.getSampler.dim with
    | .Esd2D => some (.EDataType_TextureSampler, some .EEffectInputTextureType_Texture2D)
    | .Esd3D => some (.EDataType_TextureSampler, some .EEffectInputTextureType_Texture3D)
    | .EsdCube => some (.EDataType_TextureSampler, some .EEffectInputTextureType_TextureCube)
    | .other _ => none
  else if type.isVector then
    if type.getBasicType = .EbtFloat ∨ type.getBasicType = .EbtDouble then
      if type.getVectorSize = 2 then some (.EDataType_Vector2F, none)
      else if type.getVectorSize = 3 then some (.EDataType_Vector3F, none)
      else if type.getVectorSize = 4 then some (.EDataType_Vector4F, none)
      else none
    else if type.getBasicType = .EbtInt then
      if type.getVectorSize = 2 then some (.EDataType_Vector2I, none)
      else if type.getVectorSize = 3 then some (.EDataType_Vector3I, none)
      else if type.getVectorSize = 4 then some (.EDataType_Vector4I, none)
      else none
    else none
  else if type.isMatrix then
    if type.getMatrixRows = type.getMatrixCols then
      if type.getMatrixRows = 2 then some (.EDataType_Matrix22F, none)
      else if type.getMatrixRows = 3 then some (.EDataType_Matrix33F, none)
      else if type.getMatrixRows = 4 then some (.EDataType_Matrix44F, none)
      else none
    else none
  else
    match type.getBasicType with
    | .EbtFloat => some (.EDataType_Float, none)
    | .EbtDouble => some (.EDataType_Float, none)
    | .EbtInt => some (.EDataType_Int32, none)
    | .EbtUint => some (.EDataType_UInt32, none)
    | _ => none

/-- What a call has reported when it returned `ok`: on success the stream of the
status message is as it was, on failure at least three characters were written
to it. -/
def Reported (before after : String) (ok : Bool) : Prop :=
  if ok = true then after = before else before.length + 3 ≤ after.length

/-- A property of what a call returned; an assertion fails only in a build
without `NDEBUG`. -/
def Outcome.Holds {α : Type} (o : Outcome α) (NDEBUG : Bool) (P : α → Prop) : Prop :=
  match o with
  | .returned value => P value
  | .assertionFailed _ => NDEBUG = false

end Ramses

/-! ## Sample values -/

namespace Ramses

/-- A started worker with index 3 on queue 0. -/
def sampleWorker : TaskExecutingThread :=
  { m_pBlockingTaskQueue := some 0
    m_workerIndex := 3
    m_bThreadStarted := true
    cancelRequested := false }

/-- A task whose `execute()` returns. -/
def taskA : ITask := { id := 1, executeRaises := false }

/-- Another task whose `execute()` returns. -/
def taskB : ITask := { id := 2, executeRaises := false }

/-- A task whose `execute()` raises. -/
def failingTask : ITask := { id := 9, executeRaises := true }

/-- A process in which worker 3 was started on queue 0, which holds `taskA`. -/
def startedWorld : World :=
  { worker := sampleWorker
    queues := fun q => if q = 0 then [some taskA] else []
    calls := [.resetCancel, .threadStart] }

/-- A configuration that selects the given protocol. -/
def sampleConfig (p : EConnectionProtocol) : RamsesFrameworkConfigImpl :=
  { getUsedProtocol := p
    getProtocolVersion := 1
    m_tcpConfig :=
      { getIPAddress := "127.0.0.1"
        getPort := fun isDaemon => if isDaemon then 5999 else 6000
        getDaemonIPAddress := "127.0.0.1"
        getDaemonPort := 5999
        getAliveInterval := 300
        getAliveTimeout := 900 } }

/-- A build with TCP support and with assertions enabled. -/
def debugBuild : Build := { HAS_TCP_COMM := true, NDEBUG := false, daemonId := 0 }

/-- A participant identifier. -/
def sampleParticipant : ParticipantIdentifier :=
  { getParticipantId := 42, getParticipantName := "renderer" }

/-- A round in which `popTask` returns `nullptr` and nobody cancels. -/
def nullRound : Round :=
  { cancelBeforeCheck := false, timeout := 5, popped := none, cancelWhileHeld := false }

/-- A round in which `popTask` returns the task and nobody cancels. -/
def taskRound (t : ITask) : Round :=
  { cancelBeforeCheck := false, timeout := 5, popped := some t, cancelWhileHeld := false }

/-- A round in which `popTask` returns the task and cancellation is requested
while the worker holds it. -/
def cancelledTaskRound (t : ITask) : Round :=
  { cancelBeforeCheck := false, timeout := 5, popped := some t, cancelWhileHeld := true }

/-- An expiration state of scene 7: expired, the latest flush had the deadline 100. -/
def expiredState : ExpirationState :=
  { sceneId := 7, deadline := some 100, phase := .Expired }

/-- A subscribed scene 7 that is expired: its latest flush had the deadline 50. -/
def expiredScene : SceneMonitor :=
  { visibility := .Subscribed
    state := { sceneId := 7, deadline := some 50, phase := .Expired }
    presentedDeadline := some 50 }

/-- A shown scene 7 whose last rendered flush has the deadline 300. -/
def shownScene : SceneMonitor :=
  { visibility := .Shown
    state := { sceneId := 7, deadline := some 300, phase := .OnTime }
    presentedDeadline := some 300 }

/-- The shown scene 7 once it has expired past the deadline 300 of its last
rendered flush. -/
def shownExpiredScene : SceneMonitor :=
  { visibility := .Shown
    state := { sceneId := 7, deadline := some 300, phase := .Expired }
    presentedDeadline := some 300 }

/-- Three rounds of the update loop of the tests, as the clock reading when the
deadline is set and the time of the loop: 300 ms apart. -/
def sampleRounds : List (Time × Time) := [(48, 64), (348, 364), (648, 664)]

/-- A consumer of scene 7, subscribed at sequence number 0, to which the flushes
3 and 1 were delivered in this order: 1 is applied, 3 is held. -/
def sampleSequencer : FlushSequencer :=
  (FlushSequencer.new 7 0).deliverAll [testFlush 7 3 none, testFlush 7 1 none]

/-- A build without TCP support and with assertions enabled. -/
def debugBuildWithoutTcp : Build := { HAS_TCP_COMM := false, NDEBUG := false, daemonId := 0 }

/-- Times for the calls of a worker: an `execute()` takes 11, a `popTask` that
returns no task takes the whole of its timeout, and everything else takes no
time. -/
def slowTaskCost : Call → Nat
  | .execute _ => 11
  | .popTask timeout none => timeout
  | _ => 0

/-- A third task whose `execute()` returns. -/
def taskC : ITask := { id := 3, executeRaises := false }

/-- A history of the queue of a pool of two workers: `taskA` is added and popped
by worker 0, then `taskB` and `taskC` are added and worker 1 pops. -/
def sampleHistory : List QueueEvent :=
  [ .addTask (some taskA), .popTask 0 5, .addTask (some taskB), .addTask (some taskC)
  , .popTask 1 5 ]

/-- Declarations for a build with assertions enabled: a default-constructed
input without name, data type and semantics, every semantic compatible with
every data type. -/
def sampleDeclarations : Declarations :=
  { NDEBUG := false
    defaultInput :=
      { inputName := "", elementCount := 1, dataType := .other 0, semantics := 0
        textureType := .other 0 }
    EnumToStringDataType := fun _ => "EDataType"
    EnumToStringSemantics := fun _ => "EFixedSemantics"
    IsSemanticCompatibleWithDataType := fun _ _ => true }

/-- The getters of the type `float`, with no storage qualifier. -/
def floatType : TTypeGetters :=
  { getBasicType := .EbtFloat
    getBasicTypeString := "float"
    getSampler := { dim := .other 0, getString := "" }
    isVector := false
    getVectorSize := 1
    isMatrix := false
    getMatrixRows := 0
    getMatrixCols := 0
    isArray := false
    isArrayOfArrays := false
    getOuterArraySize := 0
    isStruct := false
    getFieldName := ""
    storage := .other 0 }

/-- The type `vec3`. -/
def vec3Type : TType :=
  .mk { floatType with isVector := true, getVectorSize := 3 } []

/-- The vertex attribute `a_position` of type `vec3`. -/
def positionAttribute : TIntermNode :=
  .symbol "a_position"
    (.mk { floatType with isVector := true, getVectorSize := 3, storage := .EvqVaryingIn } [])

/-- The uniform `u_mvp` of type `mat4`. -/
def mvpUniform : TIntermNode :=
  .symbol "u_mvp"
    (.mk { floatType with
            isMatrix := true, getMatrixRows := 4, getMatrixCols := 4, storage := .EvqUniform } [])

/-- The uniform `u_flag` of type `bool`, which is no type of an effect input. -/
def flagUniform : TIntermNode :=
  .symbol "u_flag"
    (.mk { floatType with
            getBasicType := .other 0, getBasicTypeString := "bool", storage := .EvqUniform } [])

/-- The tree of a stage with the given linker objects. -/
def stageTree (linkerObjects : List TIntermNode) : TIntermNode :=
  .aggregate [.other, .aggregate linkerObjects]

/-- A program whose stages both declare the uniform `u_mvp`. -/
def sampleProgram : TProgram :=
  { vertexTreeRoot := stageTree [positionAttribute, mvpUniform]
    fragmentTreeRoot := stageTree [mvpUniform] }

/-- A program whose fragment stage declares a uniform of type `bool`. -/
def rejectedProgram : TProgram :=
  { vertexTreeRoot := stageTree [positionAttribute, mvpUniform]
    fragmentTreeRoot := stageTree [flagUniform] }

/-- An effect input with the given name and data type. -/
def sampleInput (inputName : String) (dataType : EDataType) : EffectInputInformation :=
  { sampleDeclarations.defaultInput with inputName := inputName, dataType := dataType }

/-- A converter that has collected the uniform `u_color` in both stages and the
uniform `u_mvp` between them. -/
def sampleConverter : GlslToEffectConverter :=
  { m_semanticInputs := fun _ => none
    m_message := ""
    m_uniformInputs :=
      [ sampleInput "u_color" .EDataType_Vector4F, sampleInput "u_mvp" .EDataType_Matrix44F
      , sampleInput "u_color" .EDataType_Vector4F ]
    m_attributeInputs := [sampleInput "a_position" .EDataType_Vector3F] }

end Ramses

/-! # Theorems -/

namespace Ramses

/-! ## Helper lemmas on traces -/

theorem poppedTasks_append (a b : List Call) :
    poppedTasks (a ++ b) = poppedTasks a ++ poppedTasks b := by
  induction a with
  | nil => rfl
  | cons c cs ih =>
    cases c with
    | popTask n r => cases r <;> simp [poppedTasks, ih]
    | _ => simp [poppedTasks, ih]

theorem taskCalls_append (a b : List Call) :
    taskCalls (a ++ b) = taskCalls a ++ taskCalls b := by
  induction a with
  | nil => rfl
  | cons c cs ih => cases c <;> simp [taskCalls, ih]

theorem count_execute_taskCalls (t : ITask) (l : List Call) :
    (taskCalls l).count (.execute t) = l.count (.execute t) := by
  induction l with
  | nil => rfl
  | cons c cs ih => cases c <;> simp [taskCalls, List.count_cons, ih]

theorem count_release_taskCalls (t : ITask) (l : List Call) :
    (taskCalls l).count (.release t) = l.count (.release t) := by
  induction l with
  | nil => rfl
  | cons c cs ih => cases c <;> simp [taskCalls, List.count_cons, ih]

theorem count_execute_executeAndRelease (t : ITask) (ts : List ITask) :
    (executeAndRelease ts).count (.execute t) = ts.count t := by
  induction ts with
  | nil => rfl
  | cons u us ih => simp [executeAndRelease, List.count_cons, ih]

theorem count_release_executeAndRelease (t : ITask) (ts : List ITask) :
    (executeAndRelease ts).count (.release t) = ts.count t := by
  induction ts with
  | nil => rfl
  | cons u us ih => simp [executeAndRelease, List.count_cons, ih]

theorem runLoop_cancelled (idx : Nat) (cancel : Bool) (r : Round) (rest : List Round)
    (h : (cancel || r.cancelBeforeCheck) = true) :
    runLoop idx cancel (r :: rest)
      = { trace := [.isCancelRequested true], status := .finished } := by
  simp [runLoop, h]

theorem runLoop_null (idx : Nat) (cancel : Bool) (r : Round) (rest : List Round)
    (h : (cancel || r.cancelBeforeCheck) = false) (hp : r.popped = none) :
    runLoop idx cancel (r :: rest)
      = { trace := roundHead idx r ++ (runLoop idx r.cancelWhileHeld rest).trace
          status := (runLoop idx r.cancelWhileHeld rest).status } := by
  simp [runLoop, h, hp]

theorem runLoop_returns (idx : Nat) (cancel : Bool) (r : Round) (rest : List Round) (t : ITask)
    (h : (cancel || r.cancelBeforeCheck) = false) (hp : r.popped = some t)
    (hr : t.executeRaises = false) :
    runLoop idx cancel (r :: rest)
      = { trace := roundHead idx r ++ [.execute t, .release t]
            ++ (runLoop idx r.cancelWhileHeld rest).trace
          status := (runLoop idx r.cancelWhileHeld rest).status } := by
  simp [runLoop, h, hp, hr]

theorem runLoop_raises (idx : Nat) (cancel : Bool) (r : Round) (rest : List Round) (t : ITask)
    (h : (cancel || r.cancelBeforeCheck) = false) (hp : r.popped = some t)
    (hr : t.executeRaises = true) :
    runLoop idx cancel (r :: rest)
      = { trace := roundHead idx r ++ [.execute t], status := .aborted } := by
  simp [runLoop, h, hp, hr]

theorem executedTasks_append (a b : List Call) :
    executedTasks (a ++ b) = executedTasks a ++ executedTasks b := by
  induction a with
  | nil => rfl
  | cons c cs ih => cases c <;> simp [executedTasks, ih]

theorem count_execute_eq_count_executedTasks (t : ITask) (l : List Call) :
    l.count (.execute t) = (executedTasks l).count t := by
  induction l with
  | nil => rfl
  | cons c cs ih => cases c <;> simp [executedTasks, List.count_cons, ih]

theorem executedTasks_roundHead (idx : Nat) (r : Round) :
    executedTasks (roundHead idx r) = [] := by
  simp [roundHead, executedTasks]

theorem taskCalls_roundHead (idx : Nat) (r : Round) : taskCalls (roundHead idx r) = [] := by
  simp [roundHead, taskCalls]

theorem poppedTasks_roundHead (idx : Nat) (r : Round) :
    poppedTasks (roundHead idx r) = r.popped.toList := by
  cases hp : r.popped <;> simp [roundHead, poppedTasks, hp]

/-- In a loop that is not ended by an exception the `execute` and `release`
calls are those of the popped tasks, task by task. -/
theorem runLoop_taskCalls (idx : Nat) (rounds : List Round) :
    ∀ cancel : Bool, (runLoop idx cancel rounds).status ≠ .aborted →
      taskCalls (runLoop idx cancel rounds).trace
        = executeAndRelease (poppedTasks (runLoop idx cancel rounds).trace) := by
  induction rounds with
  | nil =>
    intro cancel _
    cases cancel <;> simp [runLoop, taskCalls, poppedTasks, executeAndRelease]
  | cons r rest ih =>
    intro cancel h
    cases hflag : (cancel || r.cancelBeforeCheck) with
    | true =>
      rw [runLoop_cancelled idx cancel r rest hflag]
      simp [taskCalls, poppedTasks, executeAndRelease]
    | false =>
      cases hp : r.popped with
      | none =>
        rw [runLoop_null idx cancel r rest hflag hp] at h ⊢
        simp only [taskCalls_append, poppedTasks_append, taskCalls_roundHead,
          poppedTasks_roundHead, hp]
        simpa using ih _ h
      | some t =>
        cases hr : t.executeRaises with
        | true =>
          rw [runLoop_raises idx cancel r rest t hflag hp hr] at h
          exact absurd rfl h
        | false =>
          rw [runLoop_returns idx cancel r rest t hflag hp hr] at h ⊢
          simp only [taskCalls_append, poppedTasks_append, taskCalls_roundHead,
            poppedTasks_roundHead, hp]
          simpa [taskCalls, poppedTasks, executeAndRelease] using ih _ h

/-- In every loop the tasks executed are the tasks popped, in the same order. -/
theorem runLoop_executedTasks (idx : Nat) (rounds : List Round) :
    ∀ cancel : Bool,
      executedTasks (runLoop idx cancel rounds).trace
        = poppedTasks (runLoop idx cancel rounds).trace := by
  induction rounds with
  | nil =>
    intro cancel
    cases cancel <;> simp [runLoop, executedTasks, poppedTasks]
  | cons r rest ih =>
    intro cancel
    cases hflag : (cancel || r.cancelBeforeCheck) with
    | true =>
      rw [runLoop_cancelled idx cancel r rest hflag]
      simp [executedTasks, poppedTasks]
    | false =>
      cases hp : r.popped with
      | none =>
        rw [runLoop_null idx cancel r rest hflag hp]
        simp only [executedTasks_append, poppedTasks_append, executedTasks_roundHead,
          poppedTasks_roundHead, hp]
        simpa using ih _
      | some t =>
        cases hr : t.executeRaises with
        | true =>
          rw [runLoop_raises idx cancel r rest t hflag hp hr]
          simp [executedTasks_append, poppedTasks_append, executedTasks_roundHead,
            poppedTasks_roundHead, hp, executedTasks, poppedTasks]
        | false =>
          rw [runLoop_returns idx cancel r rest t hflag hp hr]
          simp only [executedTasks_append, poppedTasks_append, executedTasks_roundHead,
            poppedTasks_roundHead, hp]
          simpa [executedTasks, poppedTasks] using ih _

/-- The trace of `run` for a worker that has a queue. -/
theorem run_trace_of_queue (self : TaskExecutingThread) (q : QueueId) (rounds : List Round)
    (hq : self.m_pBlockingTaskQueue = some q) :
    (self.run rounds).status = (runLoop self.m_workerIndex self.cancelRequested rounds).status ∧
    ∃ tail : List Call, (tail = [] ∨ tail = [.logTrace]) ∧
      ((runLoop self.m_workerIndex self.cancelRequested rounds).status = .aborted →
        tail = []) ∧
      (self.run rounds).trace
        = .notifyAlive self.m_workerIndex ::
            (runLoop self.m_workerIndex self.cancelRequested rounds).trace ++ tail := by
  unfold TaskExecutingThread.run
  simp only [hq]
  cases hs : (runLoop self.m_workerIndex self.cancelRequested rounds).status
  · exact ⟨rfl, [], Or.inl rfl, fun _ => rfl, by simp⟩
  · exact ⟨rfl, [.logTrace], Or.inr rfl, (fun h => by cases h), by simp⟩
  · exact ⟨rfl, [], Or.inl rfl, fun _ => rfl, by simp⟩

/-! ## Claims on the worker loop -/

/-- C1. In every run of the worker loop the tasks executed are exactly the
non-null tasks popped, each as often as it was popped and in the order of the
pops; a null pop executes nothing.  In every run that no exception ends, the
`execute` and `release` calls are, pop by pop, one `execute` followed by one
`release` of the popped task, so each popped task is also released exactly as
often as it was popped, after its `execute`. -/
theorem run_executes_and_releases_each_popped_task
    (self : TaskExecutingThread) (rounds : List Round) :
    executedTasks (self.run rounds).trace = poppedTasks (self.run rounds).trace ∧
    (∀ t : ITask,
      (self.run rounds).trace.count (.execute t)
        = (poppedTasks (self.run rounds).trace).count t) ∧
    ((self.run rounds).status ≠ .aborted →
      taskCalls (self.run rounds).trace
          = executeAndRelease (poppedTasks (self.run rounds).trace) ∧
      ∀ t : ITask,
        (self.run rounds).trace.count (.release t)
          = (poppedTasks (self.run rounds).trace).count t) := by
  have hexec : executedTasks (self.run rounds).trace = poppedTasks (self.run rounds).trace := by
    cases hq : self.m_pBlockingTaskQueue with
    | none => simp [TaskExecutingThread.run, hq, executedTasks, poppedTasks]
    | some q =>
      obtain ⟨_, tail, htail, _, htr⟩ := run_trace_of_queue self q rounds hq
      rw [htr]
      rcases htail with rfl | rfl <;>
        simp [executedTasks, poppedTasks, executedTasks_append, poppedTasks_append,
          runLoop_executedTasks]
  refine ⟨hexec, fun t => ?_, fun h => ?_⟩
  · rw [count_execute_eq_count_executedTasks, hexec]
  · have key : taskCalls (self.run rounds).trace
        = executeAndRelease (poppedTasks (self.run rounds).trace) := by
      cases hq : self.m_pBlockingTaskQueue with
      | none => simp [TaskExecutingThread.run, hq, taskCalls, poppedTasks, executeAndRelease]
      | some q =>
        obtain ⟨hst, tail, htail, _, htr⟩ := run_trace_of_queue self q rounds hq
        rw [hst] at h
        rw [htr]
        rcases htail with rfl | rfl <;>
          simp [taskCalls, poppedTasks, taskCalls_append, poppedTasks_append,
            runLoop_taskCalls _ _ _ h]
    refine ⟨key, fun t => ?_⟩
    rw [← count_release_taskCalls, key, count_release_executeAndRelease]

theorem run_executes_and_releases_each_popped_task_witness :
    (sampleWorker.run [nullRound, taskRound taskA, cancelledTaskRound taskB]).status ≠ .aborted ∧
    executedTasks (sampleWorker.run [nullRound, taskRound taskA, cancelledTaskRound taskB]).trace
      = [taskA, taskB] ∧
    taskCalls (sampleWorker.run [nullRound, taskRound taskA, cancelledTaskRound taskB]).trace
      = executeAndRelease
          (poppedTasks (sampleWorker.run [nullRound, taskRound taskA, cancelledTaskRound taskB]).trace) ∧
    ∀ t : ITask,
      (sampleWorker.run [nullRound, taskRound taskA, cancelledTaskRound taskB]).trace.count (.release t)
        = (poppedTasks
            (sampleWorker.run [nullRound, taskRound taskA, cancelledTaskRound taskB]).trace).count t :=
  ⟨by decide, by decide,
   (run_executes_and_releases_each_popped_task sampleWorker
     [nullRound, taskRound taskA, cancelledTaskRound taskB]).2.2 (by decide)⟩

/-! ## When the loop ends -/

theorem runLoop_flag_set (idx : Nat) (rounds : List Round) :
    runLoop idx true rounds = { trace := [.isCancelRequested true], status := .finished } := by
  cases rounds <;> simp [runLoop]

theorem cancel_not_mem_roundHead (idx : Nat) (r : Round) :
    Call.isCancelRequested true ∉ roundHead idx r := by
  simp [roundHead]

/-- The loop is left exactly when the loop condition found the flag set. -/
theorem runLoop_finished_iff (idx : Nat) (rounds : List Round) :
    ∀ cancel : Bool, (runLoop idx cancel rounds).status = .finished ↔
      Call.isCancelRequested true ∈ (runLoop idx cancel rounds).trace := by
  induction rounds with
  | nil => intro cancel; cases cancel <;> simp [runLoop]
  | cons r rest ih =>
    intro cancel
    cases hflag : (cancel || r.cancelBeforeCheck) with
    | true => simp [runLoop_cancelled idx cancel r rest hflag]
    | false =>
      cases hp : r.popped with
      | none =>
        rw [runLoop_null idx cancel r rest hflag hp]
        simp [cancel_not_mem_roundHead, ih]
      | some t =>
        cases hr : t.executeRaises with
        | true =>
          rw [runLoop_raises idx cancel r rest t hflag hp hr]
          simp [cancel_not_mem_roundHead]
        | false =>
          rw [runLoop_returns idx cancel r rest t hflag hp hr]
          simp [cancel_not_mem_roundHead, ih]

/-- C2, as stated, fails: `popTask` returns the null pointer in the first round
and the loop does not end; the worker evaluates the loop condition again, pops
and executes a task, and is still in the loop afterwards. -/
theorem null_pop_does_not_end_the_loop :
    sampleWorker.run [nullRound, taskRound taskA]
      = { trace :=
            [ .notifyAlive 3
            , .isCancelRequested false, .calculateTimeout 5, .popTask 5 none, .notifyAlive 3
            , .isCancelRequested false, .calculateTimeout 5, .popTask 5 (some taskA)
            , .notifyAlive 3, .execute taskA, .release taskA ]
          status := .running } := by
  decide

/-- C2, amended. The loop of `run` ends exactly when the loop condition finds
the cancellation flag set: the run has finished if and only if its trace has a
call of `isCancelRequested` that returned true, and a loop condition that is
evaluated with the flag set ends the loop there.  A null pop does not end the
loop: after it the worker reports liveness and goes on with the next evaluation
of the loop condition, as in any other round. -/
theorem run_ends_exactly_on_cancellation
    (self : TaskExecutingThread) (q : QueueId) (rounds : List Round)
    (r : Round) (rest : List Round)
    (hq : self.m_pBlockingTaskQueue = some q)
    (hc : (self.cancelRequested || r.cancelBeforeCheck) = false)
    (hp : r.popped = none) :
    ((self.run rounds).status = .finished ↔
        Call.isCancelRequested true ∈ (self.run rounds).trace) ∧
    runLoop self.m_workerIndex true rounds
      = { trace := [.isCancelRequested true], status := .finished } ∧
    (self.run (r :: rest)).status
        = (runLoop self.m_workerIndex r.cancelWhileHeld rest).status ∧
    ∃ tail : List Call, (tail = [] ∨ tail = [.logTrace]) ∧
      (self.run (r :: rest)).trace
        = .notifyAlive self.m_workerIndex :: roundHead self.m_workerIndex r
            ++ (runLoop self.m_workerIndex r.cancelWhileHeld rest).trace ++ tail := by
  refine ⟨?_, runLoop_flag_set _ _, ?_, ?_⟩
  · obtain ⟨hst, tail, htail, _, htr⟩ := run_trace_of_queue self q rounds hq
    rw [hst, htr, runLoop_finished_iff]
    rcases htail with h | h <;> simp [h]
  · obtain ⟨hst, _⟩ := run_trace_of_queue self q (r :: rest) hq
    rw [hst, runLoop_null _ _ r rest hc hp]
  · obtain ⟨_, tail, htail, _, htr⟩ := run_trace_of_queue self q (r :: rest) hq
    refine ⟨tail, htail, ?_⟩
    rw [htr, runLoop_null _ _ r rest hc hp]
    simp

theorem run_ends_exactly_on_cancellation_witness :
    sampleWorker.m_pBlockingTaskQueue = some 0 ∧
    (sampleWorker.cancelRequested || nullRound.cancelBeforeCheck) = false ∧
    nullRound.popped = none ∧
    (((sampleWorker.run [taskRound taskA]).status = .finished ↔
        Call.isCancelRequested true ∈ (sampleWorker.run [taskRound taskA]).trace) ∧
      runLoop sampleWorker.m_workerIndex true [taskRound taskA]
        = { trace := [.isCancelRequested true], status := .finished } ∧
      (sampleWorker.run (nullRound :: [taskRound taskA])).status
        = (runLoop sampleWorker.m_workerIndex nullRound.cancelWhileHeld [taskRound taskA]).status ∧
      ∃ tail : List Call, (tail = [] ∨ tail = [.logTrace]) ∧
        (sampleWorker.run (nullRound :: [taskRound taskA])).trace
          = .notifyAlive sampleWorker.m_workerIndex :: roundHead sampleWorker.m_workerIndex nullRound
              ++ (runLoop sampleWorker.m_workerIndex nullRound.cancelWhileHeld
                    [taskRound taskA]).trace ++ tail) :=
  ⟨rfl, rfl, rfl,
   run_ends_exactly_on_cancellation sampleWorker 0 [taskRound taskA] nullRound
     [taskRound taskA] rfl rfl rfl⟩

/-! ## start and stop -/

theorem start_started_iff (q : QueueId) (w : World)
    (h : w.worker.m_bThreadStarted = true ↔ w.worker.m_pBlockingTaskQueue.isSome = true) :
    (TaskExecutingThread.start q w).worker.m_bThreadStarted = true ↔
      (TaskExecutingThread.start q w).worker.m_pBlockingTaskQueue.isSome = true := by
  cases hs : w.worker.m_bThreadStarted
  · simp [TaskExecutingThread.start, hs, World.resetCancel, World.threadStart]
  · simpa [TaskExecutingThread.start, hs] using h

theorem stop_started_iff (w w1 : World) (hw : TaskExecutingThread.stop w = some w1)
    (h : w.worker.m_bThreadStarted = true ↔ w.worker.m_pBlockingTaskQueue.isSome = true) :
    w1.worker.m_bThreadStarted = true ↔ w1.worker.m_pBlockingTaskQueue.isSome = true := by
  cases hs : w.worker.m_bThreadStarted
  · simp [TaskExecutingThread.stop, hs] at hw
    subst hw
    exact h
  · cases hq : w.worker.m_pBlockingTaskQueue with
    | none => simp [TaskExecutingThread.stop, hs, hq, World.threadCancel] at hw
    | some q =>
      simp [TaskExecutingThread.stop, hs, hq, World.threadCancel, World.addTask,
        World.threadJoin] at hw
      subst hw
      simp

/-- A worker that is reached from its constructor by calls of its public
methods is started exactly when it holds a queue pointer. -/
theorem started_iff_holds_queue (ms : List Method) :
    ∀ w w1 : World, callAll ms w = some w1 →
      (w.worker.m_bThreadStarted = true ↔ w.worker.m_pBlockingTaskQueue.isSome = true) →
      (w1.worker.m_bThreadStarted = true ↔ w1.worker.m_pBlockingTaskQueue.isSome = true) := by
  induction ms with
  | nil =>
    intro w w1 hw h
    simp [callAll] at hw
    subst hw
    exact h
  | cons m ms ih =>
    intro w w1 hw h
    simp only [callAll] at hw
    cases hm : m.call w with
    | none => simp [hm] at hw
    | some w2 =>
      rw [hm] at hw
      refine ih w2 w1 (by simpa using hw) ?_
      cases m with
      | start q =>
        simp only [Method.call, Option.some.injEq] at hm
        subst hm
        exact start_started_iff q w h
      | stop => exact stop_started_iff w w2 hm h
      | cancelThread =>
        simp only [Method.call, Option.some.injEq] at hm
        subst hm
        cases hs : w.worker.m_bThreadStarted
        · simpa [TaskExecutingThread.cancelThread, hs] using h
        · simpa [TaskExecutingThread.cancelThread, hs, World.threadCancel] using h
      | unlockThread =>
        cases hq : w.worker.m_pBlockingTaskQueue with
        | none => simp [Method.call, TaskExecutingThread.unlockThread, hq] at hm
        | some q =>
          simp [Method.call, TaskExecutingThread.unlockThread, hq] at hm
          subst hm
          simpa [World.addTask] using h
      | joinThread =>
        simp only [Method.call, Option.some.injEq] at hm
        subst hm
        cases h1 : w.worker.m_bThreadStarted <;> cases h2 : w.worker.cancelRequested <;>
          simp_all [TaskExecutingThread.joinThread, World.threadJoin]

/-- C3. `stop()` on a started worker requests cancellation, puts exactly one
null task at the back of the worker's queue and touches no other queue, joins
the thread (after the cancel request and the null task, before it returns), and
leaves the worker not started and without a queue reference. -/
theorem stop_of_started_worker (w : World) (q : QueueId)
    (hs : w.worker.m_bThreadStarted = true)
    (hq : w.worker.m_pBlockingTaskQueue = some q) :
    ∃ w1 : World, TaskExecutingThread.stop w = some w1 ∧
      w1.worker.cancelRequested = true ∧
      w1.queues q = w.queues q ++ [none] ∧
      (∀ q1 : QueueId, q1 ≠ q → w1.queues q1 = w.queues q1) ∧
      w1.calls = w.calls ++ [.threadCancel, .addTask q none, .threadJoin] ∧
      w1.worker.m_bThreadStarted = false ∧
      w1.worker.m_pBlockingTaskQueue = none ∧
      w1.worker.m_workerIndex = w.worker.m_workerIndex := by
  refine ⟨{ worker :=
              { m_pBlockingTaskQueue := none
                m_workerIndex := w.worker.m_workerIndex
                m_bThreadStarted := false
                cancelRequested := true }
            queues := Function.update w.queues q (w.queues q ++ [none])
            calls := w.calls ++ [.threadCancel, .addTask q none, .threadJoin] }, ?_, ?_⟩
  · simp [TaskExecutingThread.stop, hs, World.threadCancel, hq, World.addTask,
      World.threadJoin]
  · refine ⟨rfl, ?_, ?_, rfl, rfl, rfl, rfl⟩
    · simp
    · intro q1 h1
      simp [Function.update_noteq h1]

theorem stop_of_started_worker_witness :
    startedWorld.worker.m_bThreadStarted = true ∧
    startedWorld.worker.m_pBlockingTaskQueue = some 0 ∧
    ∃ w1 : World, TaskExecutingThread.stop startedWorld = some w1 ∧
      w1.worker.cancelRequested = true ∧
      w1.queues 0 = startedWorld.queues 0 ++ [none] ∧
      (∀ q1 : QueueId, q1 ≠ 0 → w1.queues q1 = startedWorld.queues q1) ∧
      w1.calls = startedWorld.calls ++ [.threadCancel, .addTask 0 none, .threadJoin] ∧
      w1.worker.m_bThreadStarted = false ∧
      w1.worker.m_pBlockingTaskQueue = none ∧
      w1.worker.m_workerIndex = startedWorld.worker.m_workerIndex :=
  ⟨rfl, rfl, stop_of_started_worker startedWorld 0 rfl rfl⟩

/-- C6. `start()` on a started worker changes nothing, whatever queue is
passed: flags, queue reference, queue contents and the record of calls are as
before, so no second thread is started; and `start(q1); start(q2)` leaves the
state that `start(q1)` leaves. -/
theorem start_of_started_worker (w w0 : World) (q q1 q2 : QueueId)
    (hs : w.worker.m_bThreadStarted = true) :
    TaskExecutingThread.start q w = w ∧
    TaskExecutingThread.start q2 (TaskExecutingThread.start q1 w0)
      = TaskExecutingThread.start q1 w0 := by
  constructor
  · simp [TaskExecutingThread.start, hs]
  · cases h0 : w0.worker.m_bThreadStarted <;>
      simp [TaskExecutingThread.start, h0, World.resetCancel, World.threadStart]

theorem start_of_started_worker_witness :
    startedWorld.worker.m_bThreadStarted = true ∧
    (TaskExecutingThread.start 7 startedWorld = startedWorld ∧
      TaskExecutingThread.start 2 (TaskExecutingThread.start 1 (World.fresh 3))
        = TaskExecutingThread.start 1 (World.fresh 3)) :=
  ⟨rfl, start_of_started_worker startedWorld (World.fresh 3) 7 1 2 rfl⟩

/-- C7. `stop()` on a worker that is not started changes nothing: no cancel
request, nothing added to a queue, no join, same state; the destructor, which
calls `stop()`, behaves the same; and `stop(); stop()` ends as a single
`stop()` does, for every worker. -/
theorem stop_of_stopped_worker (w w0 : World)
    (hs : w.worker.m_bThreadStarted = false) :
    TaskExecutingThread.stop w = some w ∧
    TaskExecutingThread.destructor w = some w ∧
    (TaskExecutingThread.stop w0).bind TaskExecutingThread.stop
      = TaskExecutingThread.stop w0 := by
  refine ⟨?_, ?_, ?_⟩
  · simp [TaskExecutingThread.stop, hs]
  · simp [TaskExecutingThread.destructor, TaskExecutingThread.stop, hs]
  · cases h0 : w0.worker.m_bThreadStarted
    · simp [TaskExecutingThread.stop, h0]
    · cases hq : w0.worker.m_pBlockingTaskQueue <;>
        simp [TaskExecutingThread.stop, h0, hq, World.threadCancel, World.addTask,
          World.threadJoin]

theorem stop_of_stopped_worker_witness :
    (World.fresh 3).worker.m_bThreadStarted = false ∧
    (TaskExecutingThread.stop (World.fresh 3) = some (World.fresh 3) ∧
      TaskExecutingThread.destructor (World.fresh 3) = some (World.fresh 3) ∧
      (TaskExecutingThread.stop startedWorld).bind TaskExecutingThread.stop
        = TaskExecutingThread.stop startedWorld) :=
  ⟨rfl, stop_of_stopped_worker (World.fresh 3) startedWorld rfl⟩


theorem getElem?_append_of_some {α : Type} {l t : List α} {k : Nat} {x : α}
    (h : l[k]? = some x) : (l ++ t)[k]? = some x := by
  have hk : k < l.length := by
    by_contra hlt
    rw [List.getElem?_eq_none (Nat.le_of_not_lt hlt)] at h
    cases h
  rw [List.getElem?_append_left hk]
  exact h

theorem getElem?_of_append_tail {l tail : List Call} {k : Nat} {x : Call}
    (h : (l ++ tail)[k]? = some x) (ht : tail = [] ∨ tail = [.logTrace])
    (hx : x ≠ .logTrace) : l[k]? = some x := by
  rcases ht with rfl | rfl
  · simpa using h
  · by_cases hk : k < l.length
    · rwa [List.getElem?_append_left hk] at h
    · rw [List.getElem?_append_right (Nat.le_of_not_lt hk)] at h
      cases hkl : k - l.length with
      | zero => rw [hkl] at h; simp at h; exact absurd h.symm hx
      | succ m => rw [hkl] at h; simp at h

theorem runLoop_after_execute (idx : Nat) (rounds : List Round) :
    ∀ (cancel : Bool) (i : Nat) (t : ITask),
      (runLoop idx cancel rounds).trace[i]? = some (.execute t) →
      (t.executeRaises = false →
        (runLoop idx cancel rounds).trace[i + 1]? = some (.release t)) ∧
      (t.executeRaises = true →
        (runLoop idx cancel rounds).trace[i + 1]? = none ∧
        (runLoop idx cancel rounds).status = .aborted) := by
  induction rounds with
  | nil =>
    intro cancel i t h
    cases cancel <;> cases i <;> simp [runLoop] at h
  | cons r rest ih =>
    intro cancel i t h
    cases hflag : (cancel || r.cancelBeforeCheck) with
    | true =>
      rw [runLoop_cancelled idx cancel r rest hflag] at h
      cases i <;> simp at h
    | false =>
      cases hp : r.popped with
      | none =>
        rw [runLoop_null idx cancel r rest hflag hp] at h ⊢
        rcases i with _ | _ | _ | _ | i <;> simp [roundHead, hp] at h ⊢
        simpa using ih _ i t h
      | some u =>
        cases hr : u.executeRaises with
        | true =>
          rw [runLoop_raises idx cancel r rest u hflag hp hr] at h ⊢
          rcases i with _ | _ | _ | _ | _ | i <;> simp [roundHead, hp] at h ⊢
          rw [← h]
          simp [hr]
        | false =>
          rw [runLoop_returns idx cancel r rest u hflag hp hr] at h ⊢
          rcases i with _ | _ | _ | _ | _ | _ | i <;> simp [roundHead, hp] at h ⊢
          · rw [← h]
            simp [hr]
          · simpa using ih _ i t h

theorem runLoop_after_pop (idx : Nat) (rounds : List Round) :
    ∀ (cancel : Bool) (i n : Nat) (t : ITask),
      (runLoop idx cancel rounds).trace[i]? = some (.popTask n (some t)) →
      (runLoop idx cancel rounds).trace[i + 1]? = some (.notifyAlive idx) ∧
      (runLoop idx cancel rounds).trace[i + 2]? = some (.execute t) := by
  induction rounds with
  | nil =>
    intro cancel i n t h
    cases cancel <;> cases i <;> simp [runLoop] at h
  | cons r rest ih =>
    intro cancel i n t h
    cases hflag : (cancel || r.cancelBeforeCheck) with
    | true =>
      rw [runLoop_cancelled idx cancel r rest hflag] at h
      cases i <;> simp at h
    | false =>
      cases hp : r.popped with
      | none =>
        rw [runLoop_null idx cancel r rest hflag hp] at h ⊢
        rcases i with _ | _ | _ | _ | i <;> simp [roundHead, hp] at h ⊢
        exact ih _ i n t h
      | some u =>
        cases hr : u.executeRaises with
        | true =>
          rw [runLoop_raises idx cancel r rest u hflag hp hr] at h ⊢
          rcases i with _ | _ | _ | _ | _ | i <;> simp [roundHead, hp] at h ⊢
          exact h.2
        | false =>
          rw [runLoop_returns idx cancel r rest u hflag hp hr] at h ⊢
          rcases i with _ | _ | _ | _ | _ | _ | i <;> simp [roundHead, hp] at h ⊢
          · exact h.2
          · exact ih _ i n t h

/-- In every run, the call after an `execute` is the `release` of the same
task, or there is none when `execute` raised. -/
theorem run_after_execute (self : TaskExecutingThread) (rounds : List Round) (j : Nat)
    (v : ITask) (hexec : (self.run rounds).trace[j]? = some (.execute v)) :
    (self.run rounds).trace[j + 1]?
      = (if v.executeRaises then none else some (.release v)) := by
  cases hq : self.m_pBlockingTaskQueue with
  | none =>
    simp only [TaskExecutingThread.run, hq] at hexec
    rcases j with _ | _ | j <;> simp at hexec
  | some q =>
    obtain ⟨_, tail, htail, hab, htr⟩ := run_trace_of_queue self q rounds hq
    rw [htr] at hexec ⊢
    cases j with
    | zero => simp at hexec
    | succ k =>
      simp only [List.cons_append, List.getElem?_cons_succ] at hexec ⊢
      have hb := getElem?_of_append_tail hexec htail (by simp)
      obtain ⟨h1, h2⟩ := runLoop_after_execute _ rounds _ k v hb
      cases hv : v.executeRaises with
      | false => simpa using getElem?_append_of_some (h1 hv)
      | true =>
        obtain ⟨hnone, hstat⟩ := h2 hv
        rw [hab hstat]
        simpa using hnone

/-- In every run, the calls after `popTask` returned a task are the liveness
report and the `execute` of that task. -/
theorem run_after_pop (self : TaskExecutingThread) (rounds : List Round) (i n : Nat)
    (u : ITask) (hpop : (self.run rounds).trace[i]? = some (.popTask n (some u))) :
    (self.run rounds).trace[i + 1]? = some (.notifyAlive self.m_workerIndex) ∧
    (self.run rounds).trace[i + 2]? = some (.execute u) := by
  cases hq : self.m_pBlockingTaskQueue with
  | none =>
    simp only [TaskExecutingThread.run, hq] at hpop
    rcases i with _ | _ | i <;> simp at hpop
  | some q =>
    obtain ⟨_, tail, htail, _, htr⟩ := run_trace_of_queue self q rounds hq
    rw [htr] at hpop ⊢
    cases i with
    | zero => simp at hpop
    | succ k =>
      simp only [List.cons_append, List.getElem?_cons_succ] at hpop ⊢
      have hb := getElem?_of_append_tail hpop htail (by simp)
      obtain ⟨h1, h2⟩ := runLoop_after_pop _ rounds _ k n u hb
      exact ⟨getElem?_append_of_some h1, getElem?_append_of_some h2⟩

/-! ## Failing tasks -/

/-- C4, as stated, fails: the first task popped raises in `execute()`; control
leaves `run` there, the task is not released and the task waiting behind it is
neither popped nor executed. -/
theorem failing_task_ends_run :
    sampleWorker.run [taskRound failingTask, taskRound taskA]
      = { trace :=
            [ .notifyAlive 3
            , .isCancelRequested false, .calculateTimeout 5, .popTask 5 (some failingTask)
            , .notifyAlive 3, .execute failingTask ]
          status := .aborted } := by
  decide

/-- C4, amended. The worker loop has no catch boundary.  A popped task whose
`execute()` returns is released and the loop goes on with the next evaluation
of the loop condition; when `execute()` raises, control leaves `run` at that
call: the trace ends with the `execute`, the task is not released and nothing
later happens in this run. -/
theorem execute_failure_leaves_run
    (self : TaskExecutingThread) (q : QueueId) (r : Round) (rest : List Round) (t : ITask)
    (hq : self.m_pBlockingTaskQueue = some q)
    (hc : (self.cancelRequested || r.cancelBeforeCheck) = false)
    (hp : r.popped = some t) :
    runLoop self.m_workerIndex self.cancelRequested (r :: rest)
      = (if t.executeRaises then
          { trace := roundHead self.m_workerIndex r ++ [.execute t], status := .aborted }
         else
          { trace := roundHead self.m_workerIndex r ++ [.execute t, .release t]
              ++ (runLoop self.m_workerIndex r.cancelWhileHeld rest).trace
            status := (runLoop self.m_workerIndex r.cancelWhileHeld rest).status }) ∧
    (if t.executeRaises then
        self.run (r :: rest)
          = { trace := .notifyAlive self.m_workerIndex :: roundHead self.m_workerIndex r
                ++ [.execute t]
              status := .aborted }
     else
        (self.run (r :: rest)).status
          = (runLoop self.m_workerIndex r.cancelWhileHeld rest).status) := by
  cases hr : t.executeRaises with
  | true =>
    have hl := runLoop_raises self.m_workerIndex self.cancelRequested r rest t hc hp hr
    refine ⟨by simpa using hl, ?_⟩
    simp [TaskExecutingThread.run, hq, hl]
  | false =>
    have hl := runLoop_returns self.m_workerIndex self.cancelRequested r rest t hc hp hr
    refine ⟨by simpa using hl, ?_⟩
    obtain ⟨hst, _⟩ := run_trace_of_queue self q (r :: rest) hq
    simp [hst, hl]

theorem execute_failure_leaves_run_witness :
    sampleWorker.m_pBlockingTaskQueue = some 0 ∧
    (sampleWorker.cancelRequested || (taskRound failingTask).cancelBeforeCheck) = false ∧
    (taskRound failingTask).popped = some failingTask ∧
    (runLoop sampleWorker.m_workerIndex sampleWorker.cancelRequested
        (taskRound failingTask :: [taskRound taskA])
      = (if failingTask.executeRaises then
          { trace := roundHead sampleWorker.m_workerIndex (taskRound failingTask)
              ++ [.execute failingTask]
            status := .aborted }
         else
          { trace := roundHead sampleWorker.m_workerIndex (taskRound failingTask)
              ++ [.execute failingTask, .release failingTask]
              ++ (runLoop sampleWorker.m_workerIndex (taskRound failingTask).cancelWhileHeld
                    [taskRound taskA]).trace
            status := (runLoop sampleWorker.m_workerIndex (taskRound failingTask).cancelWhileHeld
                    [taskRound taskA]).status }) ∧
      (if failingTask.executeRaises then
          sampleWorker.run (taskRound failingTask :: [taskRound taskA])
            = { trace := .notifyAlive sampleWorker.m_workerIndex
                  :: roundHead sampleWorker.m_workerIndex (taskRound failingTask)
                  ++ [.execute failingTask]
                status := .aborted }
       else
          (sampleWorker.run (taskRound failingTask :: [taskRound taskA])).status
            = (runLoop sampleWorker.m_workerIndex (taskRound failingTask).cancelWhileHeld
                [taskRound taskA]).status)) :=
  ⟨rfl, rfl, rfl,
   execute_failure_leaves_run sampleWorker 0 (taskRound failingTask) [taskRound taskA]
     failingTask rfl rfl rfl⟩

/-! ## Cancellation while a task is held -/

/-- C5. A task that was popped is finished before cancellation is observed.
If cancellation is requested while the worker holds a task, the round still
executes the task and releases it, and only then the loop condition finds the
flag set and the loop ends (a raising `execute()` ends the run at once, as in
C4).  In every run, the calls that follow the return of `popTask` with a task
are the liveness report, then `execute` of that task, then its `release`; the
call right after an `execute` is never `isCancelRequested`. -/
theorem popped_task_finished_before_cancellation
    (self : TaskExecutingThread) (rounds : List Round)
    (r : Round) (rest : List Round) (t u : ITask) (i n : Nat) (cancel : Bool)
    (hc : (cancel || r.cancelBeforeCheck) = false)
    (hp : r.popped = some t)
    (hheld : r.cancelWhileHeld = true)
    (hpop : (self.run rounds).trace[i]? = some (.popTask n (some u))) :
    runLoop self.m_workerIndex cancel (r :: rest)
      = (if t.executeRaises then
          { trace := roundHead self.m_workerIndex r ++ [.execute t], status := .aborted }
         else
          { trace := roundHead self.m_workerIndex r
              ++ [.execute t, .release t, .isCancelRequested true]
            status := .finished }) ∧
    (self.run rounds).trace[i + 1]? = some (.notifyAlive self.m_workerIndex) ∧
    (self.run rounds).trace[i + 2]? = some (.execute u) ∧
    (self.run rounds).trace[i + 3]?
      = (if u.executeRaises then none else some (.release u)) := by
  refine ⟨?_, ?_⟩
  · cases ht : t.executeRaises with
    | true => simpa using runLoop_raises _ cancel r rest t hc hp ht
    | false =>
      rw [runLoop_returns _ cancel r rest t hc hp ht, hheld, runLoop_flag_set]
      simp
  · obtain ⟨h1, h2⟩ := run_after_pop self rounds i n u hpop
    exact ⟨h1, h2, run_after_execute self rounds (i + 2) u h2⟩

theorem popped_task_finished_before_cancellation_witness :
    (false || (cancelledTaskRound taskA).cancelBeforeCheck) = false ∧
    (cancelledTaskRound taskA).popped = some taskA ∧
    (cancelledTaskRound taskA).cancelWhileHeld = true ∧
    (sampleWorker.run [taskRound taskB, cancelledTaskRound taskA]).trace[3]?
      = some (.popTask 5 (some taskB)) ∧
    (runLoop sampleWorker.m_workerIndex false (cancelledTaskRound taskA :: [nullRound])
      = (if taskA.executeRaises then
          { trace := roundHead sampleWorker.m_workerIndex (cancelledTaskRound taskA)
              ++ [.execute taskA]
            status := .aborted }
         else
          { trace := roundHead sampleWorker.m_workerIndex (cancelledTaskRound taskA)
              ++ [.execute taskA, .release taskA, .isCancelRequested true]
            status := .finished }) ∧
    (sampleWorker.run [taskRound taskB, cancelledTaskRound taskA]).trace[3 + 1]?
      = some (.notifyAlive sampleWorker.m_workerIndex) ∧
    (sampleWorker.run [taskRound taskB, cancelledTaskRound taskA]).trace[3 + 2]?
      = some (.execute taskB) ∧
    (sampleWorker.run [taskRound taskB, cancelledTaskRound taskA]).trace[3 + 3]?
      = (if taskB.executeRaises then none else some (.release taskB))) :=
  ⟨rfl, rfl, rfl, by decide,
   popped_task_finished_before_cancellation sampleWorker
     [taskRound taskB, cancelledTaskRound taskA] (cancelledTaskRound taskA) [nullRound]
     taskA taskB 3 5 false rfl rfl rfl (by decide)⟩

/-! ## The transport factory -/

/-- C8. The function `ConstructCommunicationSystem` selects the transport from
the configured protocol alone.  In every build, with or without TCP, two calls
whose configurations name the same protocol return the same class of system (or
fail alike), whatever participant identifier, framework lock, statistics and
other configuration values they get, and the fake protocol gives the
`FakeConnectionSystem`; when TCP is compiled in, TCP gives the
`TCPConnectionSystem` built by `ConstructTCPConnectionManager`. -/
theorem transport_selected_by_protocol_alone
    (b : Build) (c1 c2 cFake cTcp : RamsesFrameworkConfigImpl)
    (p1 p2 : ParticipantIdentifier) (l1 l2 : PlatformLock)
    (s1 s2 : StatisticCollectionFramework)
    (hsame : c1.getUsedProtocol = c2.getUsedProtocol)
    (hfake : cFake.getUsedProtocol = .EConnectionProtocol_Fake)
    (htcp : cTcp.getUsedProtocol = .EConnectionProtocol_TCP) :
    (ConstructCommunicationSystem b c1 p1 l1 s1).kindOf
      = (ConstructCommunicationSystem b c2 p2 l2 s2).kindOf ∧
    ConstructCommunicationSystem b cFake p1 l1 s1
      = .returned (some .FakeConnectionSystem) ∧
    (b.HAS_TCP_COMM = true →
      ConstructCommunicationSystem b cTcp p1 l1 s1
        = .returned (some (.TCPConnectionSystem
            (ConstructTCPConnectionManager b cTcp p1 l1 s1)))) := by
  refine ⟨?_, ?_, ?_⟩
  · unfold ConstructCommunicationSystem
    rw [hsame]
    cases c2.getUsedProtocol <;> cases hn : b.NDEBUG <;> cases hb : b.HAS_TCP_COMM <;>
      simp [FactoryResult.kindOf, ICommunicationSystem.kind]
  · simp [ConstructCommunicationSystem, hfake]
  · intro hb
    simp [ConstructCommunicationSystem, htcp, hb]

theorem transport_selected_by_protocol_alone_witness :
    (sampleConfig .EConnectionProtocol_TCP).getUsedProtocol
      = ({ sampleConfig .EConnectionProtocol_TCP with getProtocolVersion := 2 }).getUsedProtocol ∧
    (sampleConfig .EConnectionProtocol_Fake).getUsedProtocol = .EConnectionProtocol_Fake ∧
    (sampleConfig .EConnectionProtocol_TCP).getUsedProtocol = .EConnectionProtocol_TCP ∧
    debugBuildWithoutTcp.HAS_TCP_COMM = false ∧ debugBuild.HAS_TCP_COMM = true ∧
    ((ConstructCommunicationSystem debugBuildWithoutTcp (sampleConfig .EConnectionProtocol_TCP)
        sampleParticipant 1 1).kindOf
      = (ConstructCommunicationSystem debugBuildWithoutTcp
          { sampleConfig .EConnectionProtocol_TCP with getProtocolVersion := 2 }
          { sampleParticipant with getParticipantId := 43 } 2 2).kindOf ∧
    ConstructCommunicationSystem debugBuildWithoutTcp (sampleConfig .EConnectionProtocol_Fake)
        sampleParticipant 1 1
      = .returned (some .FakeConnectionSystem)) ∧
    ConstructCommunicationSystem debugBuild (sampleConfig .EConnectionProtocol_TCP)
        sampleParticipant 1 1
      = .returned (some (.TCPConnectionSystem
          (ConstructTCPConnectionManager debugBuild (sampleConfig .EConnectionProtocol_TCP)
            sampleParticipant 1 1))) :=
  ⟨rfl, rfl, rfl, rfl, rfl,
   ⟨(transport_selected_by_protocol_alone debugBuildWithoutTcp
      (sampleConfig .EConnectionProtocol_TCP)
      { sampleConfig .EConnectionProtocol_TCP with getProtocolVersion := 2 }
      (sampleConfig .EConnectionProtocol_Fake) (sampleConfig .EConnectionProtocol_TCP)
      sampleParticipant { sampleParticipant with getParticipantId := 43 } 1 2 1 2
      rfl rfl rfl).1,
    (transport_selected_by_protocol_alone debugBuildWithoutTcp
      (sampleConfig .EConnectionProtocol_TCP)
      { sampleConfig .EConnectionProtocol_TCP with getProtocolVersion := 2 }
      (sampleConfig .EConnectionProtocol_Fake) (sampleConfig .EConnectionProtocol_TCP)
      sampleParticipant { sampleParticipant with getParticipantId := 43 } 1 2 1 2
      rfl rfl rfl).2.1⟩,
   (transport_selected_by_protocol_alone debugBuild
      (sampleConfig .EConnectionProtocol_TCP)
      { sampleConfig .EConnectionProtocol_TCP with getProtocolVersion := 2 }
      (sampleConfig .EConnectionProtocol_Fake) (sampleConfig .EConnectionProtocol_TCP)
      sampleParticipant { sampleParticipant with getParticipantId := 43 } 1 2 1 2
      rfl rfl rfl).2.2 rfl⟩

/-- C9, as stated, fails: in a build with assertions enabled a protocol without
a backend does not make `ConstructCommunicationSystem` return `nullptr`; the
`assert(false && ...)` of the default case aborts before the `return`. -/
theorem missing_backend_asserts_in_debug_build :
    hasBackend debugBuild (.other 2) = false ∧
    ConstructCommunicationSystem debugBuild (sampleConfig (.other 2)) sampleParticipant 1 1
      ≠ .returned none ∧
    ConstructCommunicationSystem debugBuild (sampleConfig (.other 2)) sampleParticipant 1 1
      = .assertionFailed "Unable to construct connection system for given protocol" := by
  refine ⟨rfl, ?_, rfl⟩
  simp [ConstructCommunicationSystem, sampleConfig, debugBuild]

/-- C9, amended. For every configured protocol that has no compiled-in backend
(any value other than Fake, and TCP when TCP support is compiled out),
`ConstructCommunicationSystem` reaches the default case: a build with `NDEBUG`
returns `nullptr` to the caller, a build with assertions enabled fails the
assertion there.  In every other case it returns a non-null system. -/
theorem missing_backend_reported_by_null_or_assert
    (b : Build) (config : RamsesFrameworkConfigImpl)
    (participantIdentifier : ParticipantIdentifier) (frameworkLock : PlatformLock)
    (statisticCollection : StatisticCollectionFramework) :
    if hasBackend b config.getUsedProtocol then
      ∃ sys : ICommunicationSystem,
        ConstructCommunicationSystem b config participantIdentifier frameworkLock
          statisticCollection = .returned (some sys)
    else
      ConstructCommunicationSystem b config participantIdentifier frameworkLock
          statisticCollection
        = (if b.NDEBUG then .returned none
           else .assertionFailed "Unable to construct connection system for given protocol") := by
  unfold ConstructCommunicationSystem
  cases hp : config.getUsedProtocol with
  | EConnectionProtocol_TCP =>
    cases hb : b.HAS_TCP_COMM <;> simp [hasBackend, hb]
  | EConnectionProtocol_Fake => simp [hasBackend]
  | other v => simp [hasBackend]

/-! ## Helper lemmas on the expiration monitor -/

theorem applyFlush_phase_ne_expired (st : ExpirationState) (f : Flush)
    (h : st.phase ≠ .Expired) : (st.applyFlush f).phase ≠ .Expired := by
  unfold ExpirationState.applyFlush
  cases f.expirationDeadline with
  | none => simp
  | some d =>
    by_cases hp : st.phase = .NotMonitored
    · simp [hp]
    · simpa [hp] using h

theorem evaluate_expires (st : ExpirationState) (now d x : Time)
    (hd : st.deadline = some x) (hnow : now > d) (hph : st.phase ≠ .Expired) :
    st.evaluate now (some d) = ([.Expired st.sceneId], { st with phase := .Expired }) := by
  simp [ExpirationState.evaluate, hd, hnow, hph]

theorem evaluate_recovers (st : ExpirationState) (now d x : Time)
    (hd : st.deadline = some x) (hnow : now ≤ d) (hph : st.phase = .Expired) :
    st.evaluate now (some d) = ([.Recovered st.sceneId], { st with phase := .OnTime }) := by
  have hn : ¬ now > d := not_lt.mpr hnow
  simp [ExpirationState.evaluate, hd, hnow, hph]

theorem evaluate_stays_expired (st : ExpirationState) (now d : Time)
    (hnow : now > d) (hph : st.phase = .Expired) :
    st.evaluate now (some d) = ([], st) := by
  have hn : ¬ now ≤ d := not_le.mpr hnow
  cases hd : st.deadline <;> simp [ExpirationState.evaluate, hd, hph, hn]

theorem evaluate_stays_on_time (st : ExpirationState) (now d : Time)
    (hnow : now ≤ d) (hph : st.phase ≠ .Expired) :
    st.evaluate now (some d) = ([], st) := by
  have hn : ¬ now > d := not_lt.mpr hnow
  cases hd : st.deadline <;> simp [ExpirationState.evaluate, hd, hph, hn]

theorem evaluate_not_monitored (st : ExpirationState) (now : Time) (reference : Option Time)
    (hd : st.deadline = none) : st.evaluate now reference = ([], st) := by
  simp [ExpirationState.evaluate, hd]

theorem evaluate_no_reference (st : ExpirationState) (now : Time) :
    st.evaluate now none = ([], st) := by
  cases hd : st.deadline <;> simp [ExpirationState.evaluate, hd]

theorem evaluate_sceneId (st : ExpirationState) (now : Time) (reference : Option Time) :
    (st.evaluate now reference).2.sceneId = st.sceneId := by
  unfold ExpirationState.evaluate
  split
  · split_ifs <;> rfl
  · rfl

theorem evaluate_deadline (st : ExpirationState) (now : Time) (reference : Option Time) :
    (st.evaluate now reference).2.deadline = st.deadline := by
  unfold ExpirationState.evaluate
  split
  · split_ifs <;> rfl
  · rfl

theorem applyFlush_sceneId (st : ExpirationState) (f : Flush) :
    (st.applyFlush f).sceneId = st.sceneId := by
  unfold ExpirationState.applyFlush
  split <;> rfl

theorem applyFlush_deadline (st : ExpirationState) (f : Flush) :
    (st.applyFlush f).deadline = f.expirationDeadline := by
  unfold ExpirationState.applyFlush
  split <;> simp [*]

theorem foldl_applyFlush_sceneId (l : List Flush) :
    ∀ st : ExpirationState, (l.foldl ExpirationState.applyFlush st).sceneId = st.sceneId := by
  induction l with
  | nil => intro st; rfl
  | cons f fs ih => intro st; simp [List.foldl, ih, applyFlush_sceneId]

/-- After flushes that all carry a deadline not before `now`, the latest deadline
is not before `now`. -/
theorem foldl_applyFlush_within (now : Time) (l : List Flush) :
    ∀ st : ExpirationState, l ≠ [] → (∀ f ∈ l, f.withinDeadline now = true) →
      ∃ d, (l.foldl ExpirationState.applyFlush st).deadline = some d ∧ now ≤ d := by
  induction l with
  | nil => intro st h; exact absurd rfl h
  | cons f fs ih =>
    intro st _ hall
    cases fs with
    | nil =>
      have hf := hall f (by simp)
      simp only [List.foldl, applyFlush_deadline]
      unfold Flush.withinDeadline at hf
      cases hd : f.expirationDeadline with
      | none => simp [hd] at hf
      | some d => exact ⟨d, rfl, by simpa [hd] using hf⟩
    | cons g gs =>
      exact ih (st.applyFlush f) (by simp) (fun x hx => hall x (List.mem_cons_of_mem _ hx))

/-- Flushes that all carry a deadline leave an expired scene expired and do not
expire another one. -/
theorem foldl_applyFlush_expired_iff (l : List Flush) :
    ∀ st : ExpirationState, (∀ f ∈ l, f.expirationDeadline ≠ none) →
      ((l.foldl ExpirationState.applyFlush st).phase = .Expired ↔ st.phase = .Expired) := by
  induction l with
  | nil => intro st _; rfl
  | cons f fs ih =>
    intro st hall
    simp only [List.foldl]
    rw [ih _ (fun x hx => hall x (List.mem_cons_of_mem _ hx))]
    have hf := hall f (by simp)
    unfold ExpirationState.applyFlush
    cases hd : f.expirationDeadline with
    | none => exact absurd hd hf
    | some d =>
      by_cases hp : st.phase = .NotMonitored <;> simp [hp]

theorem withinDeadline_has_deadline (now : Time) (f : Flush)
    (h : f.withinDeadline now = true) : f.expirationDeadline ≠ none := by
  unfold Flush.withinDeadline at h
  cases hd : f.expirationDeadline with
  | none => simp [hd] at h
  | some d => simp

theorem foldl_applyFlush_monitored (l : List Flush) :
    ∀ st : ExpirationState, st.deadline ≠ none → (∀ f ∈ l, f.expirationDeadline ≠ none) →
      (l.foldl ExpirationState.applyFlush st).deadline ≠ none := by
  induction l with
  | nil => intro st h _; exact h
  | cons f fs ih =>
    intro st _ hall
    simp only [List.foldl]
    refine ih _ ?_ (fun x hx => hall x (List.mem_cons_of_mem _ hx))
    rw [applyFlush_deadline]
    exact hall f (by simp)

/-- The tick of a subscribed scene, spelled out. -/
theorem tick_eq (m : SceneMonitor) (now : Time) (flushes : List Flush) (rendered : Bool)
    (hv : m.visibility ≠ .Unsubscribed) :
    m.tick now flushes rendered
      = (((m.afterFlushes flushes).evaluate now (m.comparedWith flushes rendered)).1,
         { m with
           state := ((m.afterFlushes flushes).evaluate now (m.comparedWith flushes rendered)).2
           presentedDeadline := m.presentedAt flushes rendered }) := by
  simp [SceneMonitor.tick, hv]

/-- A scene that is not subscribed has no presentation instant. -/
theorem instant_subscribed (m : SceneMonitor) (flushApplied rendered : Bool)
    (h : isPresentationInstant m.visibility flushApplied rendered = true) :
    m.visibility ≠ .Unsubscribed := by
  intro hu
  rw [hu] at h
  simp [isPresentationInstant] at h

/-- At a presentation instant the latest applied flush is the presented one,
and the tick compares the scene with its deadline. -/
theorem presentedAt_of_instant (m : SceneMonitor) (flushes : List Flush) (rendered : Bool)
    (h : isPresentationInstant m.visibility
      (!(ownFlushes m.state.sceneId flushes).isEmpty) rendered = true) :
    m.presentedAt flushes rendered = (m.afterFlushes flushes).deadline ∧
    m.comparedWith flushes rendered = (m.afterFlushes flushes).deadline := by
  simp [SceneMonitor.comparedWith, SceneMonitor.presentedAt, h]

/-- A shown scene is compared in every tick, with the deadline of the last
rendered flush. -/
theorem comparedWith_shown (m : SceneMonitor) (flushes : List Flush) (rendered : Bool)
    (h : m.visibility = .Shown) :
    m.comparedWith flushes rendered = m.presentedAt flushes rendered := by
  simp [SceneMonitor.comparedWith, h]

/-- A tick that applies no flush of a scene that is not shown makes no
comparison and leaves the expiration state as it is. -/
theorem comparedWith_idle (m : SceneMonitor) (flushes : List Flush) (rendered : Bool)
    (hs : m.visibility ≠ .Shown) (hfl : ownFlushes m.state.sceneId flushes = []) :
    m.comparedWith flushes rendered = none ∧ m.afterFlushes flushes = m.state := by
  refine ⟨?_, by simp [SceneMonitor.afterFlushes, hfl]⟩
  unfold SceneMonitor.comparedWith
  rw [hfl]
  cases hvis : m.visibility <;> simp_all [isPresentationInstant]

theorem instant_of_flush (m : SceneMonitor) (flushes : List Flush) (rendered : Bool)
    (hv : m.visibility ≠ .Unsubscribed) (hr : m.visibility = .Shown → rendered = true)
    (hne : ownFlushes m.state.sceneId flushes ≠ []) :
    isPresentationInstant m.visibility
      (!(ownFlushes m.state.sceneId flushes).isEmpty) rendered = true := by
  have hne2 : (ownFlushes m.state.sceneId flushes).isEmpty = false := by
    cases h : ownFlushes m.state.sceneId flushes with
    | nil => exact absurd h hne
    | cons a l => rfl
  cases h : m.visibility <;> simp_all [isPresentationInstant]

theorem tick_visibility (m : SceneMonitor) (now : Time) (flushes : List Flush) (rendered : Bool) :
    (m.tick now flushes rendered).2.visibility = m.visibility := by
  unfold SceneMonitor.tick
  split <;> rfl

theorem afterFlushes_sceneId (m : SceneMonitor) (flushes : List Flush) :
    (m.afterFlushes flushes).sceneId = m.state.sceneId := by
  simp [SceneMonitor.afterFlushes, foldl_applyFlush_sceneId]

theorem tick_sceneId (m : SceneMonitor) (now : Time) (flushes : List Flush) (rendered : Bool) :
    (m.tick now flushes rendered).2.state.sceneId = m.state.sceneId := by
  unfold SceneMonitor.tick
  split
  · rfl
  · simp [evaluate_sceneId, afterFlushes_sceneId]

/-- With a flush of the scene applied, a tick is a presentation instant of every
subscribed scene that is not shown, and of a shown scene if it renders. -/
theorem presentedAt_of_flush (m : SceneMonitor) (flushes : List Flush) (rendered : Bool)
    (hv : m.visibility ≠ .Unsubscribed) (hr : m.visibility = .Shown → rendered = true)
    (hne : ownFlushes m.state.sceneId flushes ≠ []) :
    m.presentedAt flushes rendered = (m.afterFlushes flushes).deadline ∧
    m.comparedWith flushes rendered = (m.afterFlushes flushes).deadline :=
  presentedAt_of_instant m flushes rendered (instant_of_flush m flushes rendered hv hr hne)

/-- A tick that is a presentation instant and applies flushes of the scene that
all carry a deadline not before the tick: an expired scene recovers, any other
scene raises no event; afterwards the scene is not expired. -/
theorem tick_timely (m : SceneMonitor) (now : Time) (flushes : List Flush) (rendered : Bool)
    (hv : m.visibility ≠ .Unsubscribed) (hr : m.visibility = .Shown → rendered = true)
    (hne : ownFlushes m.state.sceneId flushes ≠ [])
    (hall : ∀ f ∈ ownFlushes m.state.sceneId flushes, f.withinDeadline now = true) :
    (m.tick now flushes rendered).1
      = (if m.state.phase = .Expired then [.Recovered m.state.sceneId] else []) ∧
    (m.tick now flushes rendered).2.state.phase ≠ .Expired ∧
    (m.state.phase = .Expired → (m.tick now flushes rendered).2.state.phase = .OnTime) := by
  obtain ⟨hpi, hcw⟩ := presentedAt_of_flush m flushes rendered hv hr hne
  obtain ⟨d, hd, hle⟩ := foldl_applyFlush_within now _ m.state hne hall
  have hph := foldl_applyFlush_expired_iff (ownFlushes m.state.sceneId flushes) m.state
    (fun f hf => withinDeadline_has_deadline now f (hall f hf))
  have hd2 : (m.afterFlushes flushes).deadline = some d := hd
  have hph2 : (m.afterFlushes flushes).phase = .Expired ↔ m.state.phase = .Expired := hph
  rw [tick_eq m now flushes rendered hv, hpi, hcw, hd2]
  by_cases hp : m.state.phase = .Expired
  · rw [evaluate_recovers _ now d d hd2 hle (hph2.mpr hp)]
    simp [hp, afterFlushes_sceneId]
  · rw [evaluate_stays_on_time _ now d hle (fun h => hp (hph2.mp h))]
    simp only [hp, if_false, true_and]
    exact ⟨fun h => hp (hph2.mp h), fun h => absurd h (by simp)⟩

/-! ## Claims on the expiration monitor -/

theorem run_append (a b : List SceneInput) :
    ∀ m : SceneMonitor,
      m.run (a ++ b) = ((m.run a).1 ++ ((m.run a).2.run b).1, ((m.run a).2.run b).2) := by
  induction a with
  | nil => intro m; simp [SceneMonitor.run]
  | cons i rest ih => intro m; simp [SceneMonitor.run, ih, List.append_assoc]

theorem foldl_applyFlush_unmonitored (l : List Flush) :
    ∀ st : ExpirationState, st.deadline = none →
      (∀ f ∈ l, f.expirationDeadline.isNone = true) →
      (l.foldl ExpirationState.applyFlush st).deadline = none := by
  induction l with
  | nil => intro st h _; exact h
  | cons f fs ih =>
    intro st _ hall
    simp only [List.foldl]
    refine ih _ ?_ (fun x hx => hall x (List.mem_cons_of_mem _ hx))
    rw [applyFlush_deadline]
    have hf := hall f (by simp)
    cases hd : f.expirationDeadline with
    | none => rfl
    | some d => simp [hd] at hf

theorem afterFlushes_last (m : SceneMonitor) (earlier : List Flush) (f : Flush)
    (hf : f.sceneId = m.state.sceneId) :
    (m.afterFlushes (earlier ++ [f])).deadline = f.expirationDeadline := by
  simp [SceneMonitor.afterFlushes, ownFlushes, List.filter_append, hf, List.foldl_append,
    applyFlush_deadline]

/-- A tick after whose flushes the scene has no deadline raises no event and
leaves the scene without a deadline. -/
theorem tick_not_monitored (m : SceneMonitor) (now : Time) (flushes : List Flush)
    (rendered : Bool) (h0 : m.visibility = .Unsubscribed → m.state.deadline = none)
    (h : (m.afterFlushes flushes).deadline = none) :
    (m.tick now flushes rendered).1 = [] ∧
    (m.tick now flushes rendered).2.state.deadline = none := by
  unfold SceneMonitor.tick
  split
  · rename_i hu
    exact ⟨rfl, h0 hu⟩
  · simp [evaluate_not_monitored _ now _ h, h]

theorem setVisibility_state (v : VisibilityState) (m : SceneMonitor) :
    (m.setVisibility v).state = m.state := by
  unfold SceneMonitor.setVisibility
  split <;> rfl

/-- Without a deadline, and as long as no flush of the scene brings one, no
input raises an event. -/
theorem run_not_monitored (inputs : List SceneInput) :
    ∀ m : SceneMonitor, m.state.deadline = none →
      (∀ i ∈ inputs, i.withoutDeadline m.state.sceneId = true) →
      (m.run inputs).1 = [] ∧ (m.run inputs).2.state.deadline = none := by
  induction inputs with
  | nil => intro m h _; exact ⟨rfl, h⟩
  | cons i rest ih =>
    intro m h hall
    have hi := hall i (by simp)
    cases i with
    | tick now flushes rendered =>
      have hfl : (m.afterFlushes flushes).deadline = none := by
        refine foldl_applyFlush_unmonitored _ _ h ?_
        intro f hf
        simp only [SceneInput.withoutDeadline, List.all_eq_true] at hi
        exact hi f hf
      obtain ⟨he, hd⟩ := tick_not_monitored m now flushes rendered (fun _ => h) hfl
      have hid := tick_sceneId m now flushes rendered
      obtain ⟨h1, h2⟩ := ih (m.tick now flushes rendered).2 hd
        (fun j hj => by rw [hid]; exact hall j (List.mem_cons_of_mem _ hj))
      simp only [SceneMonitor.run, SceneMonitor.step]
      exact ⟨by rw [he, h1]; rfl, h2⟩
    | setVisibility v =>
      have hs := setVisibility_state v m
      obtain ⟨h1, h2⟩ := ih (m.setVisibility v) (by rw [hs]; exact h)
        (fun j hj => by rw [hs]; exact hall j (List.mem_cons_of_mem _ hj))
      simp only [SceneMonitor.run, SceneMonitor.step]
      exact ⟨by rw [h1]; rfl, h2⟩

/-- C12. Once the latest applied flush of a scene has no deadline, no `Expired`
and no `Recovered` event is raised for it, whatever deadline earlier flushes
carried, whatever the phase was, however late the later ticks are and however
its visibility changes, until a flush of the scene with a deadline is applied:
neither the tick that applies the flush without deadline nor any later input
raises an event, and the scene stays without deadline. -/
theorem no_event_without_deadline
    (m : SceneMonitor) (now : Time) (earlier : List Flush) (f : Flush) (rendered : Bool)
    (later : List SceneInput)
    (hv : m.visibility ≠ .Unsubscribed)
    (hf : f.sceneId = m.state.sceneId) (hnone : f.expirationDeadline = none)
    (hlater : ∀ i ∈ later, i.withoutDeadline m.state.sceneId = true) :
    (m.run (.tick now (earlier ++ [f]) rendered :: later)).1 = [] ∧
    (m.run (.tick now (earlier ++ [f]) rendered :: later)).2.state.deadline = none ∧
    (m.tick now (earlier ++ [f]) rendered).2.state.phase = .NotMonitored := by
  have hfl : (m.afterFlushes (earlier ++ [f])).deadline = none := by
    rw [afterFlushes_last m earlier f hf, hnone]
  obtain ⟨he, hd⟩ := tick_not_monitored m now (earlier ++ [f]) rendered
    (fun h => absurd h hv) hfl
  have hid := tick_sceneId m now (earlier ++ [f]) rendered
  obtain ⟨h1, h2⟩ := run_not_monitored later (m.tick now (earlier ++ [f]) rendered).2 hd
    (fun j hj => by rw [hid]; exact hlater j hj)
  refine ⟨?_, ?_, ?_⟩
  · simp only [SceneMonitor.run, SceneMonitor.step]
    rw [he, h1]
    rfl
  · simpa only [SceneMonitor.run, SceneMonitor.step] using h2
  · rw [tick_eq m now (earlier ++ [f]) rendered hv]
    simp only [evaluate_not_monitored _ now _ hfl]
    simp [SceneMonitor.afterFlushes, ownFlushes, List.filter_append, hf, List.foldl_append,
      ExpirationState.applyFlush, hnone]

theorem no_event_without_deadline_witness :
    expiredScene.visibility ≠ .Unsubscribed ∧
    (testFlush 7 3 none).sceneId = expiredScene.state.sceneId ∧
    (testFlush 7 3 none).expirationDeadline = none ∧
    (∀ i ∈ [SceneInput.tick 500 [] false, .setVisibility .Mapped,
        .tick 900 [testFlush 7 4 none] true],
      i.withoutDeadline expiredScene.state.sceneId = true) ∧
    ((expiredScene.run (.tick 120 ([testFlush 7 2 (some 60)] ++ [testFlush 7 3 none]) false
        :: [SceneInput.tick 500 [] false, .setVisibility .Mapped,
            .tick 900 [testFlush 7 4 none] true])).1 = [] ∧
    (expiredScene.run (.tick 120 ([testFlush 7 2 (some 60)] ++ [testFlush 7 3 none]) false
        :: [SceneInput.tick 500 [] false, .setVisibility .Mapped,
            .tick 900 [testFlush 7 4 none] true])).2.state.deadline = none ∧
    (expiredScene.tick 120 ([testFlush 7 2 (some 60)] ++ [testFlush 7 3 none])
        false).2.state.phase = .NotMonitored) :=
  ⟨by decide, rfl, rfl, by decide,
   no_event_without_deadline expiredScene 120 [testFlush 7 2 (some 60)] (testFlush 7 3 none)
     false [SceneInput.tick 500 [] false, .setVisibility .Mapped,
       .tick 900 [testFlush 7 4 none] true]
     (by decide) rfl rfl (by decide)⟩

/-! ## Phase transitions -/

theorem applyFlush_wellFormed (st : ExpirationState) (f : Flush) (h : st.WellFormed) :
    ((st.applyFlush f).phase = st.phase ∨
      causedTransition f.cause st.phase (st.applyFlush f).phase = true) ∧
    (st.applyFlush f).WellFormed := by
  obtain ⟨h1, h2⟩ := h
  unfold ExpirationState.applyFlush ExpirationState.WellFormed Flush.cause
  cases hd : f.expirationDeadline with
  | none =>
    cases hp : st.phase <;> simp_all [causedTransition]
  | some d =>
    cases hp : st.phase <;> simp_all [causedTransition]

/-- The comparison raises at most one event, and raises one only together with
the phase change the event reports. -/
theorem evaluate_cases (st : ExpirationState) (now : Time) (reference : Option Time) :
    (st.evaluate now reference = ([], st)) ∨
    ((st.evaluate now reference).1 = [.Expired st.sceneId] ∧ st.phase ≠ .Expired ∧
      (st.evaluate now reference).2.phase = .Expired) ∨
    ((st.evaluate now reference).1 = [.Recovered st.sceneId] ∧ st.phase = .Expired ∧
      (st.evaluate now reference).2.phase = .OnTime) := by
  unfold ExpirationState.evaluate
  split
  · split_ifs with c1 c2
    · exact Or.inr (Or.inl ⟨rfl, c1.2, rfl⟩)
    · exact Or.inr (Or.inr ⟨rfl, c2.1, rfl⟩)
    · exact Or.inl rfl
  · exact Or.inl rfl

theorem evaluate_wellFormed (st : ExpirationState) (now : Time) (reference : Option Time)
    (h : st.WellFormed) :
    ((st.evaluate now reference = ([], st)) ∨
      ∃ e, (st.evaluate now reference).1 = [e] ∧ e.sceneId = st.sceneId ∧
        causedTransition e.cause st.phase (st.evaluate now reference).2.phase = true) ∧
    (st.evaluate now reference).2.WellFormed := by
  obtain ⟨h1, h2⟩ := h
  unfold ExpirationState.evaluate ExpirationState.WellFormed
  split
  · rename_i x d hx
    split_ifs with c1 c2
    · refine ⟨Or.inr ⟨.Expired st.sceneId, rfl, rfl, ?_⟩, ?_⟩
      · cases hp : st.phase <;> simp_all [causedTransition, MonitorEvent.cause]
      · simp [hx]
    · refine ⟨Or.inr ⟨.Recovered st.sceneId, rfl, rfl, ?_⟩, ?_⟩
      · simp [c2.1, causedTransition, MonitorEvent.cause]
      · simp [hx]
    · exact ⟨Or.inl rfl, h1, h2⟩
  · exact ⟨Or.inl rfl, h1, h2⟩

theorem foldl_applyFlush_wellFormed (l : List Flush) :
    ∀ st : ExpirationState, st.WellFormed →
      (l.foldl ExpirationState.applyFlush st).WellFormed := by
  induction l with
  | nil => intro st h; exact h
  | cons f fs ih => intro st h; exact ih _ (applyFlush_wellFormed st f h).2

theorem tick_wellFormed (m : SceneMonitor) (now : Time) (flushes : List Flush) (rendered : Bool)
    (h : m.state.WellFormed) : (m.tick now flushes rendered).2.state.WellFormed := by
  unfold SceneMonitor.tick
  split
  · exact h
  · exact (evaluate_wellFormed _ now _ (foldl_applyFlush_wellFormed _ _ h)).2

theorem run_wellFormed (inputs : List SceneInput) :
    ∀ m : SceneMonitor, m.state.WellFormed → (m.run inputs).2.state.WellFormed := by
  induction inputs with
  | nil => intro m h; exact h
  | cons i rest ih =>
    intro m h
    cases i with
    | tick now flushes rendered =>
      exact ih _ (tick_wellFormed m now flushes rendered h)
    | setVisibility v =>
      refine ih _ ?_
      show (m.setVisibility v).state.WellFormed
      rw [setVisibility_state]
      exact h

theorem foldl_applyFlush_not_expired (l : List Flush) :
    ∀ st : ExpirationState, st.phase ≠ .Expired →
      (l.foldl ExpirationState.applyFlush st).phase ≠ .Expired := by
  induction l with
  | nil => intro st h; exact h
  | cons f fs ih => intro st h; exact ih _ (applyFlush_phase_ne_expired st f h)

/-- A tick, seen from one tick boundary to the next: it raises nothing, or it
raises `Expired` and leaves the scene `Expired`, or it raises `Recovered` and
leaves the scene `OnTime`; and what it raised tells what the phase was once the
flushes of the tick were applied. -/
theorem tick_cases (m : SceneMonitor) (now : Time) (flushes : List Flush) (rendered : Bool) :
    ((m.tick now flushes rendered).1 = [] ∧
      ((m.tick now flushes rendered).2.state.phase = (m.afterFlushes flushes).phase ∨
        (m.tick now flushes rendered).2.state.phase = m.state.phase)) ∨
    ((m.tick now flushes rendered).1 = [.Expired m.state.sceneId] ∧
      (m.afterFlushes flushes).phase ≠ .Expired ∧
      (m.tick now flushes rendered).2.state.phase = .Expired) ∨
    ((m.tick now flushes rendered).1 = [.Recovered m.state.sceneId] ∧
      (m.afterFlushes flushes).phase = .Expired ∧
      (m.tick now flushes rendered).2.state.phase = .OnTime) := by
  by_cases hv : m.visibility = .Unsubscribed
  · left
    simp [SceneMonitor.tick, hv]
  · rw [tick_eq m now flushes rendered hv]
    have hid := afterFlushes_sceneId m flushes
    rcases evaluate_cases (m.afterFlushes flushes) now (m.comparedWith flushes rendered) with
      h | ⟨h1, h2, h3⟩ | ⟨h1, h2, h3⟩
    · left
      rw [h]
      exact ⟨rfl, Or.inl rfl⟩
    · right; left
      rw [hid] at h1
      exact ⟨h1, h2, h3⟩
    · right; right
      rw [hid] at h1
      exact ⟨h1, h2, h3⟩

/-- A tick of a scene that is not subscribed, or whose flushes all carry a
deadline, leaves an expired scene expired unless it raises `Recovered`, and
expires another one only by raising `Expired`. -/
theorem tick_keeps (m : SceneMonitor) (now : Time) (flushes : List Flush) (rendered : Bool)
    (hfl : ∀ f ∈ ownFlushes m.state.sceneId flushes, f.expirationDeadline ≠ none) :
    ((m.tick now flushes rendered).1 = [] ∧
      ((m.tick now flushes rendered).2.state.phase = .Expired ↔ m.state.phase = .Expired)) ∨
    ((m.tick now flushes rendered).1 = [.Expired m.state.sceneId] ∧
      m.state.phase ≠ .Expired ∧ (m.tick now flushes rendered).2.state.phase = .Expired) ∨
    ((m.tick now flushes rendered).1 = [.Recovered m.state.sceneId] ∧
      m.state.phase = .Expired ∧ (m.tick now flushes rendered).2.state.phase = .OnTime) := by
  have hph : (m.afterFlushes flushes).phase = .Expired ↔ m.state.phase = .Expired :=
    foldl_applyFlush_expired_iff _ _ hfl
  rcases tick_cases m now flushes rendered with ⟨h1, h2⟩ | ⟨h1, h2, h3⟩ | ⟨h1, h2, h3⟩
  · left
    refine ⟨h1, ?_⟩
    rcases h2 with h2 | h2
    · rw [h2]; exact hph
    · rw [h2]
  · right; left
    exact ⟨h1, fun h => h2 (hph.mpr h), h3⟩
  · right; right
    exact ⟨h1, hph.mp h2, h3⟩

/-- C13, as stated, fails.  A flush without deadline takes an expired scene from
`Expired` to `NotMonitored`, and the comparison that detects recovery takes it
from `Expired` straight to `OnTime`: neither step is among the transitions the
claim allows, and the phase `Recovered` is not entered.  Both are seen in ticks
of a subscribed scene that a flush with a past deadline has expired, each tick
applying one flush. -/
theorem expired_scene_leaves_claimed_transitions :
    (expiredState.phase = .Expired ∧
      (expiredState.applyFlush (testFlush 7 2 none)).phase = .NotMonitored ∧
      claimedTransition .Expired .NotMonitored = false) ∧
    (expiredState.evaluate 90 (some 100)
        = ([.Recovered 7], { sceneId := 7, deadline := some 100, phase := .OnTime }) ∧
      claimedTransition .Expired .OnTime = false) ∧
    ((SceneMonitor.subscribed 7).tick 100 [testFlush 7 1 (some 50)] false).2.state.phase
      = .Expired ∧
    (((SceneMonitor.subscribed 7).tick 100 [testFlush 7 1 (some 50)] false).2.tick 110
        [testFlush 7 2 none] false).2.state.phase = .NotMonitored ∧
    (((SceneMonitor.subscribed 7).tick 100 [testFlush 7 1 (some 50)] false).2.tick 120
        [testFlush 7 2 (some 200)] false)
      = ([.Recovered 7],
         { visibility := .Subscribed
           state := { sceneId := 7, deadline := some 200, phase := .OnTime }
           presentedDeadline := some 200 }) := by
  decide

/-- C13, amended. The phase of a scene changes only by these steps, each with
its cause.  Applying a flush with a deadline takes `NotMonitored` to `OnTime`
and leaves every other phase as it is; applying a flush without deadline takes
`OnTime` and `Expired` to `NotMonitored`.  The comparison of a tick changes the
phase only together with an event: from `OnTime` to `Expired` with `Expired`,
from `Expired` to `OnTime` with `Recovered`.  A change of visibility leaves the
state alone.  A tick of a subscribed scene applies the flushes of the scene in
order and then compares once, so between two tick boundaries the phase goes
through a sequence of these steps: it becomes `Expired` only in a tick that
raises `Expired`; an expired scene becomes `OnTime` only in a tick that raises
`Recovered` or applies a flush without deadline; and while every flush carries a
deadline an expired scene stays `Expired` without an event or becomes `OnTime`
with `Recovered`.  The phase `Recovered` is never entered: through every
sequence of inputs the phase is `NotMonitored` exactly while there is no
deadline and is never `Recovered`. -/
theorem phase_changes_only_along_caused_transitions
    (st : ExpirationState) (f : Flush) (now : Time) (reference : Option Time)
    (m : SceneMonitor) (v : VisibilityState) (flushes : List Flush) (rendered : Bool)
    (inputs : List SceneInput) (sceneId : SceneId)
    (hst : st.WellFormed) (hm : m.state.WellFormed) :
    ((st.applyFlush f).phase = st.phase ∨
      causedTransition f.cause st.phase (st.applyFlush f).phase = true) ∧
    (st.applyFlush f).WellFormed ∧
    ((st.evaluate now reference = ([], st)) ∨
      ∃ e, (st.evaluate now reference).1 = [e] ∧ e.sceneId = st.sceneId ∧
        causedTransition e.cause st.phase (st.evaluate now reference).2.phase = true) ∧
    (st.evaluate now reference).2.WellFormed ∧
    (m.setVisibility v).state = m.state ∧
    (m.visibility ≠ .Unsubscribed →
      (m.afterFlushes flushes).WellFormed ∧
      (m.tick now flushes rendered).1
        = ((m.afterFlushes flushes).evaluate now (m.comparedWith flushes rendered)).1 ∧
      (m.tick now flushes rendered).2.state
        = ((m.afterFlushes flushes).evaluate now (m.comparedWith flushes rendered)).2) ∧
    (m.visibility = .Unsubscribed → m.tick now flushes rendered = ([], m)) ∧
    ((m.tick now flushes rendered).2.state.phase = .Expired → m.state.phase ≠ .Expired →
      (m.tick now flushes rendered).1 = [.Expired m.state.sceneId]) ∧
    (m.state.phase = .Expired → (m.tick now flushes rendered).2.state.phase = .OnTime →
      (m.tick now flushes rendered).1 = [.Recovered m.state.sceneId] ∨
      ∃ g ∈ ownFlushes m.state.sceneId flushes, g.expirationDeadline = none) ∧
    (m.state.phase = .Expired →
      (∀ g ∈ ownFlushes m.state.sceneId flushes, g.expirationDeadline ≠ none) →
      ((m.tick now flushes rendered).1 = [] ∧
        (m.tick now flushes rendered).2.state.phase = .Expired) ∨
      ((m.tick now flushes rendered).1 = [.Recovered m.state.sceneId] ∧
        (m.tick now flushes rendered).2.state.phase = .OnTime)) ∧
    (m.run inputs).2.state.WellFormed ∧
    (SceneMonitor.subscribed sceneId).state.WellFormed ∧
    ((SceneMonitor.subscribed sceneId).run inputs).2.state.phase ≠ .Recovered := by
  have h0 : (SceneMonitor.subscribed sceneId).state.WellFormed := by
    simp [SceneMonitor.subscribed, ExpirationState.WellFormed]
  refine ⟨(applyFlush_wellFormed st f hst).1, (applyFlush_wellFormed st f hst).2,
    (evaluate_wellFormed st now reference hst).1, (evaluate_wellFormed st now reference hst).2,
    setVisibility_state v m, ?_, ?_, ?_, ?_, ?_, run_wellFormed inputs m hm, h0,
    (run_wellFormed inputs _ h0).2⟩
  · intro hv
    refine ⟨foldl_applyFlush_wellFormed _ _ hm, ?_, ?_⟩ <;>
      rw [tick_eq m now flushes rendered hv]
  · intro hv
    simp [SceneMonitor.tick, hv]
  · intro hafter hbefore
    rcases tick_cases m now flushes rendered with ⟨_, h2⟩ | ⟨h1, _, _⟩ | ⟨_, _, h3⟩
    · rcases h2 with h2 | h2
      · rw [hafter] at h2
        exact absurd h2.symm (foldl_applyFlush_not_expired _ _ hbefore)
      · rw [hafter] at h2
        exact absurd h2.symm hbefore
    · exact h1
    · rw [h3] at hafter
      cases hafter
  · intro hbefore hafter
    by_cases hex : ∃ g ∈ ownFlushes m.state.sceneId flushes, g.expirationDeadline = none
    · exact Or.inr hex
    · left
      have hfl : ∀ g ∈ ownFlushes m.state.sceneId flushes, g.expirationDeadline ≠ none :=
        fun g hg hn => hex ⟨g, hg, hn⟩
      rcases tick_keeps m now flushes rendered hfl with ⟨_, h2⟩ | ⟨_, h2, _⟩ | ⟨h1, _, _⟩
      · have := h2.mpr hbefore
        rw [hafter] at this
        cases this
      · exact absurd hbefore h2
      · exact h1
  · intro hbefore hfl
    rcases tick_keeps m now flushes rendered hfl with ⟨h1, h2⟩ | ⟨_, h2, _⟩ | ⟨h1, _, h3⟩
    · exact Or.inl ⟨h1, h2.mpr hbefore⟩
    · exact absurd hbefore h2
    · exact Or.inr ⟨h1, h3⟩

theorem phase_changes_only_along_caused_transitions_witness :
    expiredState.WellFormed ∧ expiredScene.state.WellFormed ∧
    ((expiredState.applyFlush (testFlush 7 3 (some 200))).phase = expiredState.phase ∨
      causedTransition (testFlush 7 3 (some 200)).cause expiredState.phase
        (expiredState.applyFlush (testFlush 7 3 (some 200))).phase = true) ∧
    (expiredScene.tick 120 [testFlush 7 3 (some 60), testFlush 7 4 (some 200)] false).1
      = [.Recovered 7] ∧
    ((expiredScene.tick 120 [testFlush 7 3 (some 60), testFlush 7 4 (some 200)] false).1 = [] ∧
        (expiredScene.tick 120 [testFlush 7 3 (some 60), testFlush 7 4 (some 200)]
          false).2.state.phase = .Expired ∨
      (expiredScene.tick 120 [testFlush 7 3 (some 60), testFlush 7 4 (some 200)] false).1
          = [.Recovered expiredScene.state.sceneId] ∧
        (expiredScene.tick 120 [testFlush 7 3 (some 60), testFlush 7 4 (some 200)]
          false).2.state.phase = .OnTime) ∧
    ((SceneMonitor.subscribed 7).run
      [.tick 100 [testFlush 7 1 (some 50)] false,
       .tick 120 [testFlush 7 2 (some 200)] false]).2.state.phase ≠ .Recovered :=
  ⟨by simp [ExpirationState.WellFormed, expiredState],
   by simp [ExpirationState.WellFormed, expiredScene],
   (phase_changes_only_along_caused_transitions expiredState (testFlush 7 3 (some 200)) 90
     (some 100) expiredScene .Mapped [testFlush 7 3 (some 60), testFlush 7 4 (some 200)] false
     [.tick 100 [testFlush 7 1 (some 50)] false, .tick 120 [testFlush 7 2 (some 200)] false] 7
     (by simp [ExpirationState.WellFormed, expiredState])
     (by simp [ExpirationState.WellFormed, expiredScene])).1,
   by decide,
   (phase_changes_only_along_caused_transitions expiredState (testFlush 7 3 (some 200)) 90
     (some 100) expiredScene .Mapped [testFlush 7 3 (some 60), testFlush 7 4 (some 200)] false
     [.tick 100 [testFlush 7 1 (some 50)] false, .tick 120 [testFlush 7 2 (some 200)] false] 7
     (by simp [ExpirationState.WellFormed, expiredState])
     (by simp [ExpirationState.WellFormed, expiredScene])).2.2.2.2.2.2.2.2.2.1 rfl (by decide),
   (phase_changes_only_along_caused_transitions expiredState (testFlush 7 3 (some 200)) 90
     (some 100) expiredScene .Mapped [testFlush 7 3 (some 60), testFlush 7 4 (some 200)] false
     [.tick 100 [testFlush 7 1 (some 50)] false, .tick 120 [testFlush 7 2 (some 200)] false] 7
     (by simp [ExpirationState.WellFormed, expiredState])
     (by simp [ExpirationState.WellFormed, expiredScene])).2.2.2.2.2.2.2.2.2.2.2.2⟩

/-! ## Stable phases -/

theorem keepsDeadline_tick (sceneId : SceneId) (now : Time) (flushes : List Flush)
    (rendered : Bool)
    (h : (SceneInput.tick now flushes rendered).keepsDeadline sceneId = true) :
    ∀ f ∈ ownFlushes sceneId flushes, f.expirationDeadline ≠ none := by
  simp only [SceneInput.keepsDeadline, List.all_eq_true] at h
  intro f hf
  have := h f hf
  cases hd : f.expirationDeadline with
  | none => simp [hd] at this
  | some d => simp

/-- A tick whose comparison finds the phase stable raises no event and leaves
the phase that the flushes of the tick gave. -/
theorem tick_stable (m : SceneMonitor) (now : Time) (flushes : List Flush) (rendered : Bool)
    (hstable :
      ((m.afterFlushes flushes).phase = .Expired ∧
        ∀ d, m.comparedWith flushes rendered = some d → d < now) ∨
      ((m.afterFlushes flushes).phase ≠ .Expired ∧
        ∀ d, m.comparedWith flushes rendered = some d → now ≤ d)) :
    (m.tick now flushes rendered).1 = [] ∧
    ((m.tick now flushes rendered).2.state.phase = (m.afterFlushes flushes).phase ∨
      (m.tick now flushes rendered).2.state.phase = m.state.phase) := by
  by_cases hv : m.visibility = .Unsubscribed
  · simp [SceneMonitor.tick, hv]
  · rw [tick_eq m now flushes rendered hv]
    have hev : (m.afterFlushes flushes).evaluate now (m.comparedWith flushes rendered)
        = ([], m.afterFlushes flushes) := by
      cases hc : m.comparedWith flushes rendered with
      | none => exact evaluate_no_reference _ now
      | some d =>
        rcases hstable with ⟨hp, hn⟩ | ⟨hp, hn⟩
        · exact evaluate_stays_expired _ now d (hn d hc) hp
        · exact evaluate_stays_on_time _ now d (hn d hc) hp
    rw [hev]
    exact ⟨rfl, Or.inl rfl⟩

/-- While every flush carries a deadline, the events of a run come one per
change between expired and not expired. -/
theorem run_alternates (inputs : List SceneInput) :
    ∀ m : SceneMonitor, (∀ i ∈ inputs, i.keepsDeadline m.state.sceneId = true) →
      eventsAlternate (decide (m.state.phase = .Expired)) (m.run inputs).1 = true := by
  induction inputs with
  | nil => intro m _; simp [SceneMonitor.run, eventsAlternate]
  | cons i rest ih =>
    intro m hall
    have hi := hall i (by simp)
    cases i with
    | setVisibility v =>
      have hs := setVisibility_state v m
      have hrest := ih (m.setVisibility v)
        (fun j hj => by rw [hs]; exact hall j (List.mem_cons_of_mem _ hj))
      rw [hs] at hrest
      simpa [SceneMonitor.run, SceneMonitor.step] using hrest
    | tick now flushes rendered =>
      have hfl := keepsDeadline_tick _ now flushes rendered hi
      have hid := tick_sceneId m now flushes rendered
      have hrest := ih (m.tick now flushes rendered).2
        (fun j hj => by rw [hid]; exact hall j (List.mem_cons_of_mem _ hj))
      simp only [SceneMonitor.run, SceneMonitor.step]
      rcases tick_keeps m now flushes rendered hfl with ⟨h1, h2⟩ | ⟨h1, h2, h3⟩ | ⟨h1, h2, h3⟩
      · rw [h1]
        have hdec : decide ((m.tick now flushes rendered).2.state.phase = .Expired)
            = decide (m.state.phase = .Expired) := by
          simp only [decide_eq_decide]
          exact h2
        rw [hdec] at hrest
        simpa using hrest
      · rw [h1]
        rw [h3] at hrest
        simpa [eventsAlternate, h2] using hrest
      · rw [h1]
        rw [h3] at hrest
        simpa [eventsAlternate, h2] using hrest

/-- C14, as stated, fails.  The subscribed scene 7 is `Expired`, its deadline 50
long past.  The tick at time 120 applies a flush without deadline and then a
flush with the deadline 60: the scene is already `Expired` when the tick begins
and is past its deadline before and after, and the tick raises `Expired` a
second time. -/
theorem stable_expired_scene_expires_again :
    expiredScene.state.phase = .Expired ∧ expiredScene.state.deadline = some 50 ∧
    (50 : Time) < 120 ∧ (60 : Time) < 120 ∧
    expiredScene.tick 120 [testFlush 7 2 none, testFlush 7 3 (some 60)] false
      = ([.Expired 7],
         { visibility := .Subscribed
           state := { sceneId := 7, deadline := some 60, phase := .Expired }
           presentedDeadline := some 60 }) := by
  decide

/-- C14, amended. Apart from flushes without deadline, ticks are idempotent on a
stable phase.  A tick that applies no flush without deadline to a scene that is
`Expired` and past the deadline the tick compares it with, or `OnTime` and
within it, raises no event and leaves the phase unchanged, whatever flushes with
deadlines it applies, whether or not it renders, and also when it makes no
comparison.  In general what counts is the phase once the flushes of the tick
are applied: a tick that finds that phase stable raises nothing.  Every tick
raises at most one event, `Expired` only on becoming `Expired` from another
phase and `Recovered` only on leaving `Expired` for `OnTime`; so, while no
flush without deadline is applied, the events of every run alternate: no second
`Expired` without a `Recovered` between, and no `Recovered` without an `Expired`
before. -/
theorem stable_phase_tick_is_silent
    (m : SceneMonitor) (now : Time) (flushes : List Flush) (rendered : Bool)
    (inputs : List SceneInput)
    (hfl : ∀ f ∈ ownFlushes m.state.sceneId flushes, f.expirationDeadline ≠ none)
    (hstable :
      (m.state.phase = .Expired ∧ ∀ d, m.comparedWith flushes rendered = some d → d < now) ∨
      (m.state.phase = .OnTime ∧ ∀ d, m.comparedWith flushes rendered = some d → now ≤ d))
    (hall : ∀ i ∈ inputs, i.keepsDeadline m.state.sceneId = true) :
    (m.tick now flushes rendered).1 = [] ∧
    (m.tick now flushes rendered).2.state.phase = m.state.phase ∧
    (∀ (m2 : SceneMonitor) (t : Time) (fs : List Flush) (r : Bool),
      (((m2.afterFlushes fs).phase = .Expired ∧
          ∀ d, m2.comparedWith fs r = some d → d < t) ∨
        ((m2.afterFlushes fs).phase ≠ .Expired ∧
          ∀ d, m2.comparedWith fs r = some d → t ≤ d)) →
      (m2.tick t fs r).1 = [] ∧
      ((m2.tick t fs r).2.state.phase = (m2.afterFlushes fs).phase ∨
        (m2.tick t fs r).2.state.phase = m2.state.phase)) ∧
    (∀ (m2 : SceneMonitor) (t : Time) (fs : List Flush) (r : Bool),
      ((m2.tick t fs r).1 = [] ∧
        ((m2.tick t fs r).2.state.phase = (m2.afterFlushes fs).phase ∨
          (m2.tick t fs r).2.state.phase = m2.state.phase)) ∨
      ((m2.tick t fs r).1 = [.Expired m2.state.sceneId] ∧
        (m2.afterFlushes fs).phase ≠ .Expired ∧ (m2.tick t fs r).2.state.phase = .Expired) ∨
      ((m2.tick t fs r).1 = [.Recovered m2.state.sceneId] ∧
        (m2.afterFlushes fs).phase = .Expired ∧ (m2.tick t fs r).2.state.phase = .OnTime)) ∧
    eventsAlternate (decide (m.state.phase = .Expired)) (m.run inputs).1 = true := by
  have hph : (m.afterFlushes flushes).phase = .Expired ↔ m.state.phase = .Expired :=
    foldl_applyFlush_expired_iff _ _ hfl
  have hst : ((m.afterFlushes flushes).phase = .Expired ∧
        ∀ d, m.comparedWith flushes rendered = some d → d < now) ∨
      ((m.afterFlushes flushes).phase ≠ .Expired ∧
        ∀ d, m.comparedWith flushes rendered = some d → now ≤ d) := by
    rcases hstable with ⟨hp, hn⟩ | ⟨hp, hn⟩
    · exact Or.inl ⟨hph.mpr hp, hn⟩
    · refine Or.inr ⟨fun h => ?_, hn⟩
      rw [hph.mp h] at hp
      cases hp
  obtain ⟨he, hp2⟩ := tick_stable m now flushes rendered hst
  refine ⟨he, ?_, fun m2 t fs r h => tick_stable m2 t fs r h,
    fun m2 t fs r => tick_cases m2 t fs r, run_alternates inputs m hall⟩
  rcases hp2 with hp2 | hp2
  · rw [hp2]
    rcases hstable with ⟨hp, _⟩ | ⟨hp, _⟩
    · rw [hp]; exact hph.mpr hp
    · have hkeep : ∀ (l : List Flush) (st : ExpirationState),
          (∀ f ∈ l, f.expirationDeadline ≠ none) → st.phase = .OnTime →
          (l.foldl ExpirationState.applyFlush st).phase = .OnTime := by
        intro l
        induction l with
        | nil => intro st _ h; exact h
        | cons f fs ih =>
          intro st hall0 h
          refine ih _ (fun x hx => hall0 x (List.mem_cons_of_mem _ hx)) ?_
          have hf := hall0 f (by simp)
          unfold ExpirationState.applyFlush
          cases hd : f.expirationDeadline with
          | none => exact absurd hd hf
          | some d => simp [h]
      rw [hp]
      exact hkeep _ _ hfl hp
  · exact hp2

theorem stable_phase_tick_is_silent_witness :
    (∀ f ∈ ownFlushes expiredScene.state.sceneId
        [testFlush 7 2 (some 60), testFlush 8 1 none, testFlush 7 3 (some 70)],
      f.expirationDeadline ≠ none) ∧
    ((expiredScene.state.phase = .Expired ∧
        ∀ d, expiredScene.comparedWith
          [testFlush 7 2 (some 60), testFlush 8 1 none, testFlush 7 3 (some 70)] false = some d →
          d < 120) ∨
      (expiredScene.state.phase = .OnTime ∧
        ∀ d, expiredScene.comparedWith
          [testFlush 7 2 (some 60), testFlush 8 1 none, testFlush 7 3 (some 70)] false = some d →
          120 ≤ d)) ∧
    (∀ i ∈ [SceneInput.tick 130 [testFlush 7 4 (some 80)] false, .tick 140 [] true],
      i.keepsDeadline expiredScene.state.sceneId = true) ∧
    ((expiredScene.tick 120
        [testFlush 7 2 (some 60), testFlush 8 1 none, testFlush 7 3 (some 70)] false).1 = [] ∧
    (expiredScene.tick 120
        [testFlush 7 2 (some 60), testFlush 8 1 none, testFlush 7 3 (some 70)]
        false).2.state.phase = expiredScene.state.phase) :=
  ⟨by decide, Or.inl ⟨rfl, by decide⟩, by decide,
   (stable_phase_tick_is_silent expiredScene 120
     [testFlush 7 2 (some 60), testFlush 8 1 none, testFlush 7 3 (some 70)] false
     [SceneInput.tick 130 [testFlush 7 4 (some 80)] false, .tick 140 [] true]
     (by decide) (Or.inl ⟨rfl, by decide⟩) (by decide)).1,
   (stable_phase_tick_is_silent expiredScene 120
     [testFlush 7 2 (some 60), testFlush 8 1 none, testFlush 7 3 (some 70)] false
     [SceneInput.tick 130 [testFlush 7 4 (some 80)] false, .tick 140 [] true]
     (by decide) (Or.inl ⟨rfl, by decide⟩) (by decide)).2.1⟩

/-! ## Flushes that are in time -/

theorem timelyFlushTick_tick (sceneId : SceneId) (mustRender : Bool) (now : Time)
    (flushes : List Flush) (rendered : Bool)
    (h : (SceneInput.tick now flushes rendered).timelyFlushTick sceneId mustRender = true) :
    (mustRender = true → rendered = true) ∧ ownFlushes sceneId flushes ≠ [] ∧
    ∀ f ∈ ownFlushes sceneId flushes, f.withinDeadline now = true := by
  simp only [SceneInput.timelyFlushTick, Bool.and_eq_true, Bool.or_eq_true,
    Bool.not_eq_true', List.all_eq_true] at h
  obtain ⟨⟨h1, h2⟩, h3⟩ := h
  refine ⟨?_, ?_, h3⟩
  · intro hm
    rcases h1 with h1 | h1
    · rw [hm] at h1; cases h1
    · exact h1
  · intro he
    rw [he] at h2
    simp at h2

/-- In a run of ticks that are presentation instants and apply flushes of the
scene with deadlines not before the tick, an expired scene recovers in the first
tick and nothing else is raised. -/
theorem run_timely (inputs : List SceneInput) :
    ∀ m : SceneMonitor, m.visibility ≠ .Unsubscribed →
      (∀ i ∈ inputs, i.timelyFlushTick m.state.sceneId (m.visibility == .Shown) = true) →
      (m.run inputs).1
        = (if m.state.phase = .Expired ∧ inputs ≠ [] then [.Recovered m.state.sceneId]
           else []) := by
  induction inputs with
  | nil => intro m _ _; simp [SceneMonitor.run]
  | cons i rest ih =>
    intro m hv hall
    have hi := hall i (by simp)
    cases i with
    | setVisibility v => simp [SceneInput.timelyFlushTick] at hi
    | tick now flushes rendered =>
      obtain ⟨hr, hne, hin⟩ := timelyFlushTick_tick _ _ now flushes rendered hi
      obtain ⟨he, hp, _⟩ := tick_timely m now flushes rendered hv
        (fun h => hr (by simp [h])) hne hin
      have hvis := tick_visibility m now flushes rendered
      have hid := tick_sceneId m now flushes rendered
      have hrest := ih (m.tick now flushes rendered).2 (by rw [hvis]; exact hv)
        (fun j hj => by rw [hid, hvis]; exact hall j (List.mem_cons_of_mem _ hj))
      simp only [SceneMonitor.run, SceneMonitor.step]
      rw [he, hrest]
      simp [hp]

theorem updateRounds_timely (sceneId : SceneId) (rendered : Bool) (rounds : List (Time × Time)) :
    ∀ n : Nat, (∀ r ∈ rounds, r.2 ≤ r.1 + hour) →
      ∀ i ∈ updateRounds sceneId hour rendered n rounds,
        i.timelyFlushTick sceneId rendered = true := by
  induction rounds with
  | nil => intro n _ i hi; simp [updateRounds] at hi
  | cons r rest ih =>
    intro n hall i hi
    obtain ⟨clock, loop⟩ := r
    simp only [updateRounds, List.mem_cons] at hi
    rcases hi with rfl | hi
    · have h := hall (clock, loop) (by simp)
      simp only at h
      simp [SceneInput.timelyFlushTick, ownFlushes, testFlush, Flush.withinDeadline, h]
    · exact ih (n + 1) (fun x hx => hall x (List.mem_cons_of_mem _ hx)) i hi

/-- A tick of a scene that is not shown, in which every flush of the scene that
is applied carries a deadline not before the tick: it raises nothing, or it
raises `Recovered` for an expired scene; afterwards the scene is not expired
unless it was and no flush of it was applied. -/
theorem tick_hidden_in_time (m : SceneMonitor) (now : Time) (flushes : List Flush)
    (rendered : Bool) (hs : m.visibility ≠ .Shown)
    (hall : ∀ f ∈ ownFlushes m.state.sceneId flushes, f.withinDeadline now = true) :
    ((m.tick now flushes rendered).1 = [] ∧
      (m.state.phase ≠ .Expired → (m.tick now flushes rendered).2.state.phase ≠ .Expired)) ∨
    ((m.tick now flushes rendered).1 = [.Recovered m.state.sceneId] ∧
      m.state.phase = .Expired ∧ (m.tick now flushes rendered).2.state.phase ≠ .Expired) := by
  by_cases hv : m.visibility = .Unsubscribed
  · left
    simp [SceneMonitor.tick, hv]
  · by_cases hne : ownFlushes m.state.sceneId flushes = []
    · left
      obtain ⟨hc, haf⟩ := comparedWith_idle m flushes rendered hs hne
      rw [tick_eq m now flushes rendered hv, hc, evaluate_no_reference, haf]
      exact ⟨rfl, fun h => h⟩
    · obtain ⟨he, hp, _⟩ := tick_timely m now flushes rendered hv (fun h => absurd h hs) hne hall
      by_cases hph : m.state.phase = .Expired
      · right
        rw [he]
        exact ⟨by simp [hph], hph, hp⟩
      · left
        rw [he]
        exact ⟨by simp [hph], fun _ => hp⟩

theorem inTimeNotShown_tick (sceneId : SceneId) (now : Time) (flushes : List Flush)
    (rendered : Bool)
    (h : (SceneInput.tick now flushes rendered).inTimeNotShown sceneId = true) :
    ∀ f ∈ ownFlushes sceneId flushes, f.withinDeadline now = true := by
  simpa only [SceneInput.inTimeNotShown, List.all_eq_true] using h

/-- While a scene is not shown and every flush of it carries a deadline not
before the tick that applies it, nothing is raised, except `Recovered`, once,
for a scene that was expired. -/
theorem run_hidden_in_time (inputs : List SceneInput) :
    ∀ m : SceneMonitor, m.visibility ≠ .Shown →
      (∀ i ∈ inputs, i.inTimeNotShown m.state.sceneId = true) →
      (m.run inputs).1 = [] ∨
      (m.state.phase = .Expired ∧ (m.run inputs).1 = [.Recovered m.state.sceneId]) := by
  induction inputs with
  | nil => intro m _ _; exact Or.inl rfl
  | cons i rest ih =>
    intro m hs hall
    have hi := hall i (by simp)
    cases i with
    | setVisibility v =>
      have hst := setVisibility_state v m
      have hvis : (m.setVisibility v).visibility ≠ .Shown := by
        have hv : v ≠ .Shown := by simpa [SceneInput.inTimeNotShown] using hi
        unfold SceneMonitor.setVisibility
        split <;> exact hv
      have hrest := ih (m.setVisibility v) hvis
        (fun j hj => by rw [hst]; exact hall j (List.mem_cons_of_mem _ hj))
      rw [hst] at hrest
      simpa [SceneMonitor.run, SceneMonitor.step] using hrest
    | tick now flushes rendered =>
      have hin := inTimeNotShown_tick _ now flushes rendered hi
      have hvis := tick_visibility m now flushes rendered
      have hid := tick_sceneId m now flushes rendered
      have hrest := ih (m.tick now flushes rendered).2 (by rw [hvis]; exact hs)
        (fun j hj => by rw [hid]; exact hall j (List.mem_cons_of_mem _ hj))
      rw [hid] at hrest
      simp only [SceneMonitor.run, SceneMonitor.step]
      rcases tick_hidden_in_time m now flushes rendered hs hin with ⟨h1, h2⟩ | ⟨h1, h2, h3⟩
      · rw [h1]
        rcases hrest with hr | ⟨hr1, hr2⟩
        · left
          rw [hr]
          rfl
        · right
          refine ⟨?_, by rw [hr2]; rfl⟩
          by_contra hne
          exact h2 hne hr1
      · right
        rw [h1]
        rcases hrest with hr | ⟨hr1, _⟩
        · exact ⟨h2, by rw [hr]; rfl⟩
        · exact absurd hr1 h3

/-- C15, as stated, fails for a shown scene.  Scene 7 is shown and every tick
renders it.  Its only flush, with the deadline 10, is applied and rendered in
the tick at time 0, before its deadline; the tick at time 20 renders again,
applies nothing, and raises `Expired`.  The test `ScenesExpireOneAfterAnother`
shows the same of its first scene: shown, rendered in every loop, its one flush
with a deadline applied 484ms before that deadline, it is reported expired
while only the second scene is flushed. -/
theorem shown_scene_expires_between_flushes :
    (testFlush 7 1 (some 10)).withinDeadline 0 = true ∧
    ((SceneMonitor.subscribed 7).run
      [ .setVisibility .Mapped, .setVisibility .Shown
      , .tick 0 [testFlush 7 1 (some 10)] true, .tick 20 [] true ]).1 = [.Expired 7] ∧
    (testFlush 1 2 (some (16 + 500))).withinDeadline 32 = true ∧
    ScenesExpireOneAfterAnother 1 2 0 16 16 32
      [(332, 348), (648, 664), (964, 980), (1280, 1296)] = [.Expired 1] := by
  decide

/-- C15, amended. For a scene that is subscribed or mapped but not shown, if
every flush of the scene carries a deadline not before the tick at which it is
applied, no `Expired` event is raised, whatever ticks without a flush of the
scene lie between, whatever is rendered, and however the visibility changes
short of showing the scene; nothing at all is raised unless the scene was
expired before, and then only `Recovered`, once.  For a shown scene the same
holds if every tick renders and applies at least one such flush, whatever the
flushes carry besides the deadline.  So the runs of the tests
`SceneNotExpiredWhenUpdatedAndSubscribed` and `SceneNotExpiredWhenUpdatedAndRendered`
raise no event, for any number of rounds. -/
theorem no_expiry_while_flushes_are_in_time
    (m : SceneMonitor) (inputs : List SceneInput)
    (hs : m.visibility ≠ .Shown)
    (hall : ∀ i ∈ inputs, i.inTimeNotShown m.state.sceneId = true) :
    MonitorEvent.Expired m.state.sceneId ∉ (m.run inputs).1 ∧
    ((m.run inputs).1 = [] ∨
      (m.state.phase = .Expired ∧ (m.run inputs).1 = [.Recovered m.state.sceneId])) ∧
    (∀ (m2 : SceneMonitor) (inputs2 : List SceneInput), m2.visibility = .Shown →
      (∀ i ∈ inputs2, i.timelyFlushTick m2.state.sceneId true = true) →
      MonitorEvent.Expired m2.state.sceneId ∉ (m2.run inputs2).1 ∧
      (m2.run inputs2).1
        = (if m2.state.phase = .Expired ∧ inputs2 ≠ [] then [.Recovered m2.state.sceneId]
           else [])) ∧
    (∀ (sceneId : SceneId) (firstLoop : Time) (rounds : List (Time × Time)),
      (∀ r ∈ rounds, r.2 ≤ r.1 + hour) →
      SceneNotExpiredWhenUpdatedAndSubscribed sceneId rounds = [] ∧
      SceneNotExpiredWhenUpdatedAndRendered sceneId firstLoop rounds = []) := by
  have hrun := run_hidden_in_time inputs m hs hall
  refine ⟨?_, hrun, ?_, ?_⟩
  · rcases hrun with h | ⟨_, h⟩ <;> rw [h] <;> simp
  · intro m2 inputs2 hv2 hall2
    have h2 := run_timely inputs2 m2 (by rw [hv2]; simp) (by rw [hv2]; exact hall2)
    refine ⟨?_, h2⟩
    rw [h2]
    split_ifs <;> simp
  · intro sceneId firstLoop rounds hrounds
    constructor
    · unfold SceneNotExpiredWhenUpdatedAndSubscribed
      rw [run_timely _ (SceneMonitor.subscribed sceneId) (by simp [SceneMonitor.subscribed])
        (by
          intro i hi
          exact updateRounds_timely sceneId false rounds 2 hrounds i hi)]
      simp [SceneMonitor.subscribed]
    · unfold SceneNotExpiredWhenUpdatedAndRendered
      simp only [SceneMonitor.run, SceneMonitor.step]
      have h0 : (((SceneMonitor.subscribed sceneId).setVisibility .Mapped).setVisibility
          .Shown).tick firstLoop [] true
          = ([], ((SceneMonitor.subscribed sceneId).setVisibility .Mapped).setVisibility
              .Shown) := by
        simp [SceneMonitor.tick, SceneMonitor.setVisibility, SceneMonitor.subscribed,
          SceneMonitor.afterFlushes, SceneMonitor.presentedAt, SceneMonitor.comparedWith,
          ownFlushes, isPresentationInstant, ExpirationState.evaluate]
      rw [h0]
      rw [run_timely _ _ (by simp [SceneMonitor.setVisibility, SceneMonitor.subscribed])
        (by
          intro i hi
          exact updateRounds_timely sceneId true rounds 2 hrounds i hi)]
      simp [SceneMonitor.setVisibility, SceneMonitor.subscribed]

theorem no_expiry_while_flushes_are_in_time_witness :
    (SceneMonitor.subscribed 7).visibility ≠ .Shown ∧
    (∀ i ∈ [SceneInput.tick 0 [testFlush 7 1 (some 10)] false, .tick 20 [] true,
        .setVisibility .Mapped, .tick 30 [testFlush 7 2 (some 40), testFlush 8 1 (some 5)] false,
        .tick 900 [] false],
      i.inTimeNotShown (SceneMonitor.subscribed 7).state.sceneId = true) ∧
    ((SceneMonitor.subscribed 7).run
      [SceneInput.tick 0 [testFlush 7 1 (some 10)] false, .tick 20 [] true,
        .setVisibility .Mapped, .tick 30 [testFlush 7 2 (some 40), testFlush 8 1 (some 5)] false,
        .tick 900 [] false]).1 = [] ∧
    MonitorEvent.Expired 7 ∉ ((SceneMonitor.subscribed 7).run
      [SceneInput.tick 0 [testFlush 7 1 (some 10)] false, .tick 20 [] true,
        .setVisibility .Mapped, .tick 30 [testFlush 7 2 (some 40), testFlush 8 1 (some 5)] false,
        .tick 900 [] false]).1 ∧
    SceneNotExpiredWhenUpdatedAndSubscribed 7 sampleRounds = [] ∧
    SceneNotExpiredWhenUpdatedAndRendered 7 32 sampleRounds = [] :=
  ⟨by decide, by decide, by decide,
   (no_expiry_while_flushes_are_in_time (SceneMonitor.subscribed 7)
     [SceneInput.tick 0 [testFlush 7 1 (some 10)] false, .tick 20 [] true,
       .setVisibility .Mapped, .tick 30 [testFlush 7 2 (some 40), testFlush 8 1 (some 5)] false,
       .tick 900 [] false] (by decide) (by decide)).1,
   ((no_expiry_while_flushes_are_in_time (SceneMonitor.subscribed 7)
     [SceneInput.tick 0 [testFlush 7 1 (some 10)] false, .tick 20 [] true,
       .setVisibility .Mapped, .tick 30 [testFlush 7 2 (some 40), testFlush 8 1 (some 5)] false,
       .tick 900 [] false] (by decide) (by decide)).2.2.2 7 32 sampleRounds (by decide)).1,
   ((no_expiry_while_flushes_are_in_time (SceneMonitor.subscribed 7)
     [SceneInput.tick 0 [testFlush 7 1 (some 10)] false, .tick 20 [] true,
       .setVisibility .Mapped, .tick 30 [testFlush 7 2 (some 40), testFlush 8 1 (some 5)] false,
       .tick 900 [] false] (by decide) (by decide)).2.2.2 7 32 sampleRounds (by decide)).2⟩

/-! ## Shown scenes that are not rendered -/

theorem unrenderedTick_tick (sceneId : SceneId) (now : Time) (flushes : List Flush)
    (rendered : Bool)
    (h : (SceneInput.tick now flushes rendered).unrenderedTick sceneId = true) :
    rendered = false ∧ ∀ f ∈ ownFlushes sceneId flushes, f.expirationDeadline ≠ none := by
  simp only [SceneInput.unrenderedTick, Bool.and_eq_true, Bool.not_eq_true',
    List.all_eq_true] at h
  refine ⟨h.1, fun f hf => ?_⟩
  have := h.2 f hf
  cases hd : f.expirationDeadline with
  | none => simp [hd] at this
  | some d => simp

/-- A tick that does not render a shown scene keeps comparing with the deadline
of the last rendered flush, whatever flushes with deadlines it applies. -/
theorem tick_unrendered (m : SceneMonitor) (d now : Time) (flushes : List Flush)
    (hm : m.ShowsDeadline d)
    (hfl : ∀ f ∈ ownFlushes m.state.sceneId flushes, f.expirationDeadline ≠ none) :
    (m.tick now flushes false).2.ShowsDeadline d ∧
    (d < now → m.state.phase ≠ .Expired →
      (m.tick now flushes false).1 = [.Expired m.state.sceneId] ∧
      (m.tick now flushes false).2.state.phase = .Expired) ∧
    (d < now → m.state.phase = .Expired →
      (m.tick now flushes false).1 = [] ∧
      (m.tick now flushes false).2.state.phase = .Expired) ∧
    (now ≤ d → m.state.phase ≠ .Expired →
      (m.tick now flushes false).1 = [] ∧
      (m.tick now flushes false).2.state.phase ≠ .Expired) := by
  obtain ⟨hs, hp, hd⟩ := hm
  have hv : m.visibility ≠ .Unsubscribed := by rw [hs]; simp
  have hpa : m.presentedAt flushes false = some d := by
    simp [SceneMonitor.presentedAt, hs, isPresentationInstant, hp]
  have hcw : m.comparedWith flushes false = some d := by
    rw [comparedWith_shown m flushes false hs, hpa]
  have hmon : (m.afterFlushes flushes).deadline ≠ none :=
    foldl_applyFlush_monitored _ _ hd hfl
  have hph : (m.afterFlushes flushes).phase = .Expired ↔ m.state.phase = .Expired :=
    foldl_applyFlush_expired_iff _ _ hfl
  obtain ⟨x, hx⟩ := Option.ne_none_iff_exists'.mp hmon
  rw [tick_eq m now flushes false hv, hpa, hcw]
  refine ⟨⟨hs, rfl, ?_⟩, ?_, ?_, ?_⟩
  · simp only [evaluate_deadline]
    exact hmon
  · intro hn hne
    rw [evaluate_expires _ now d x hx hn (fun h => hne (hph.mp h))]
    simp [afterFlushes_sceneId]
  · intro hn he
    rw [evaluate_stays_expired _ now d hn (hph.mpr he)]
    exact ⟨rfl, hph.mpr he⟩
  · intro hn hne
    rw [evaluate_stays_on_time _ now d hn (fun h => hne (hph.mp h))]
    exact ⟨rfl, fun h => hne (hph.mp h)⟩

/-- A shown scene that is expired stays expired, without further events, while
it is not rendered and time is past the deadline of the last rendered flush. -/
theorem run_stays_expired (d : Time) (inputs : List SceneInput) :
    ∀ m : SceneMonitor, m.ShowsDeadline d → m.state.phase = .Expired →
      (∀ i ∈ inputs, i.unrenderedTick m.state.sceneId = true ∧ d < i.time) →
      (m.run inputs).1 = [] ∧ (m.run inputs).2.ShowsDeadline d ∧
      (m.run inputs).2.state.phase = .Expired ∧
      (m.run inputs).2.state.sceneId = m.state.sceneId := by
  induction inputs with
  | nil => intro m hm hp _; exact ⟨rfl, hm, hp, rfl⟩
  | cons i rest ih =>
    intro m hm hp hall
    have hi := hall i (by simp)
    cases i with
    | setVisibility v => simp [SceneInput.unrenderedTick] at hi
    | tick now flushes rendered =>
      obtain ⟨hr, hfl⟩ := unrenderedTick_tick _ now flushes rendered hi.1
      subst hr
      obtain ⟨hs, _, h2, _⟩ := tick_unrendered m d now flushes hm hfl
      obtain ⟨he, hp2⟩ := h2 hi.2 hp
      have hid := tick_sceneId m now flushes false
      obtain ⟨r1, r2, r3, r4⟩ := ih (m.tick now flushes false).2 hs hp2
        (fun j hj => by rw [hid]; exact hall j (List.mem_cons_of_mem _ hj))
      simp only [SceneMonitor.run, SceneMonitor.step]
      exact ⟨by rw [he, r1]; rfl, r2, r3, by rw [r4, hid]⟩

/-- A shown scene that is not rendered while flushes with deadlines are applied
is reported expired once, in the first tick after the deadline of the last
rendered flush (the ticks being in the order of time). -/
theorem run_unrendered (d : Time) (inputs : List SceneInput) :
    ∀ m : SceneMonitor, m.ShowsDeadline d → m.state.phase ≠ .Expired →
      (∀ i ∈ inputs, i.unrenderedTick m.state.sceneId = true) →
      inputs.Pairwise (fun a b => a.time ≤ b.time) →
      (m.run inputs).1
          = (if ∃ i ∈ inputs, d < i.time then [.Expired m.state.sceneId] else []) ∧
      (m.run inputs).2.ShowsDeadline d ∧
      ((m.run inputs).2.state.phase = .Expired ↔ ∃ i ∈ inputs, d < i.time) ∧
      (m.run inputs).2.state.sceneId = m.state.sceneId := by
  induction inputs with
  | nil => intro m hm hp _ _; exact ⟨by simp [SceneMonitor.run], hm, by simpa [SceneMonitor.run] using hp, rfl⟩
  | cons i rest ih =>
    intro m hm hp hall hsorted
    have hi := hall i (by simp)
    rw [List.pairwise_cons] at hsorted
    cases i with
    | setVisibility v => simp [SceneInput.unrenderedTick] at hi
    | tick now flushes rendered =>
      obtain ⟨hr, hfl⟩ := unrenderedTick_tick _ now flushes rendered hi
      subst hr
      obtain ⟨hs, h1, _, h3⟩ := tick_unrendered m d now flushes hm hfl
      have hid := tick_sceneId m now flushes false
      simp only [SceneMonitor.run, SceneMonitor.step]
      by_cases hn : d < now
      · obtain ⟨he, hp2⟩ := h1 hn hp
        obtain ⟨r1, r2, r3, r4⟩ := run_stays_expired d rest (m.tick now flushes false).2 hs hp2
          (fun j hj => ⟨by rw [hid]; exact hall j (List.mem_cons_of_mem _ hj),
            lt_of_lt_of_le hn (hsorted.1 j hj)⟩)
        have hex : ∃ i ∈ SceneInput.tick now flushes false :: rest, d < i.time :=
          ⟨SceneInput.tick now flushes false, List.mem_cons_self _ _, hn⟩
        refine ⟨?_, r2, ?_, by rw [r4, hid]⟩
        · rw [he, r1, if_pos hex]; rfl
        · exact ⟨fun _ => hex, fun _ => r3⟩
      · obtain ⟨he, hp2⟩ := h3 (not_lt.mp hn) hp
        obtain ⟨r1, r2, r3, r4⟩ := ih (m.tick now flushes false).2 hs hp2
          (fun j hj => by rw [hid]; exact hall j (List.mem_cons_of_mem _ hj)) hsorted.2
        have hiff : (∃ i ∈ SceneInput.tick now flushes false :: rest, d < i.time) ↔
            ∃ i ∈ rest, d < i.time := by
          constructor
          · rintro ⟨j, hj, hlt⟩
            rcases List.mem_cons.mp hj with rfl | hj
            · exact absurd hlt hn
            · exact ⟨j, hj, hlt⟩
          · rintro ⟨j, hj, hlt⟩
            exact ⟨j, List.mem_cons_of_mem _ hj, hlt⟩
        refine ⟨?_, r2, ?_, by rw [r4, hid]⟩
        · rw [he, r1, hid]
          simp only [List.nil_append]
          by_cases hex : ∃ i ∈ rest, d < i.time
          · rw [if_pos hex, if_pos (hiff.mpr hex)]
          · rw [if_neg hex, if_neg (fun h => hex (hiff.mp h))]
        · rw [r3, hiff]

theorem updateRounds_timely500 (sceneId : SceneId) (rendered : Bool)
    (rounds : List (Time × Time)) :
    ∀ n : Nat, (∀ r ∈ rounds, r.2 ≤ r.1 + 500) →
      ∀ i ∈ updateRounds sceneId 500 rendered n rounds,
        i.timelyFlushTick sceneId rendered = true := by
  induction rounds with
  | nil => intro n _ i hi; simp [updateRounds] at hi
  | cons r rest ih =>
    intro n hall i hi
    obtain ⟨clock, loop⟩ := r
    simp only [updateRounds, List.mem_cons] at hi
    rcases hi with rfl | hi
    · have h := hall (clock, loop) (by simp)
      simp only at h
      simp [SceneInput.timelyFlushTick, ownFlushes, testFlush, Flush.withinDeadline, h]
    · exact ih (n + 1) (fun x hx => hall x (List.mem_cons_of_mem _ hx)) i hi

theorem updateRounds_unrendered (sceneId : SceneId) (ahead : Time)
    (rounds : List (Time × Time)) :
    ∀ n : Nat, ∀ i ∈ updateRounds sceneId ahead false n rounds,
      i.unrenderedTick sceneId = true := by
  induction rounds with
  | nil => intro n i hi; simp [updateRounds] at hi
  | cons r rest ih =>
    intro n i hi
    obtain ⟨clock, loop⟩ := r
    simp only [updateRounds, List.mem_cons] at hi
    rcases hi with rfl | hi
    · simp [SceneInput.unrenderedTick, ownFlushes, testFlush]
    · exact ih (n + 1) i hi

theorem updateRounds_time (sceneId : SceneId) (ahead : Time) (rendered : Bool)
    (rounds : List (Time × Time)) :
    ∀ n : Nat, (updateRounds sceneId ahead rendered n rounds).map SceneInput.time
      = rounds.map (fun r => r.2) := by
  induction rounds with
  | nil => intro n; rfl
  | cons r rest ih =>
    intro n
    obtain ⟨clock, loop⟩ := r
    simp [updateRounds, SceneInput.time, ih]

theorem updateRounds_sorted (sceneId : SceneId) (ahead : Time) (rendered : Bool)
    (rounds : List (Time × Time)) (n : Nat)
    (h : rounds.Pairwise (fun a b => a.2 ≤ b.2)) :
    (updateRounds sceneId ahead rendered n rounds).Pairwise (fun a b => a.time ≤ b.time) := by
  have h1 : (rounds.map (fun r => r.2)).Pairwise (fun a b => a ≤ b) :=
    List.pairwise_map.mpr h
  rw [← updateRounds_time sceneId ahead rendered rounds n] at h1
  exact List.pairwise_map.mp h1

theorem updateRounds_late (sceneId : SceneId) (ahead : Time) (rendered : Bool)
    (rounds : List (Time × Time)) (n : Nat) (d : Time)
    (h : ∃ r ∈ rounds, d < r.2) :
    ∃ i ∈ updateRounds sceneId ahead rendered n rounds, d < i.time := by
  obtain ⟨r, hr, hlt⟩ := h
  have hmem : r.2 ∈ (updateRounds sceneId ahead rendered n rounds).map SceneInput.time := by
    rw [updateRounds_time]
    exact List.mem_map.mpr ⟨r, hr, rfl⟩
  obtain ⟨i, hi, hti⟩ := List.mem_map.mp hmem
  exact ⟨i, hi, by rw [hti]; exact hlt⟩

/-- The scene of the tests after it was shown and a flush with the deadline `d`
was rendered in time. -/
theorem shown_and_rendered (sceneId : SceneId) (firstLoop secondLoop d : Time)
    (h : secondLoop ≤ d) :
    (SceneMonitor.subscribed sceneId).run
        [ .setVisibility .Mapped, .setVisibility .Shown, .tick firstLoop [] true
        , .tick secondLoop [testFlush sceneId 2 (some d)] true ]
      = ([], { visibility := .Shown
               state := { sceneId := sceneId, deadline := some d, phase := .OnTime }
               presentedDeadline := some d }) := by
  have hn : ¬ d < secondLoop := not_lt.mpr h
  simp [SceneMonitor.run, SceneMonitor.step, SceneMonitor.tick, SceneMonitor.setVisibility,
    SceneMonitor.subscribed, SceneMonitor.afterFlushes, SceneMonitor.presentedAt,
    SceneMonitor.comparedWith, ownFlushes,
    isPresentationInstant, ExpirationState.evaluate, ExpirationState.applyFlush, testFlush, hn]

/-- C16. For a shown scene what counts is the deadline of the last rendered
flush.  While no frame is rendered, flushes with deadlines, however far in the
future, do not replace it: the first tick after the deadline of the last
rendered flush reports the scene expired, once, and the scene stays expired.  So
the run of the test `SceneExpiredWhenRendered` raises exactly one event,
`Expired` for its scene. -/
theorem shown_scene_expires_without_render
    (m : SceneMonitor) (d : Time) (inputs : List SceneInput)
    (sceneId : SceneId) (firstLoop c0 secondLoop : Time) (rounds : List (Time × Time))
    (hm : m.ShowsDeadline d) (hp : m.state.phase ≠ .Expired)
    (hall : ∀ i ∈ inputs, i.unrenderedTick m.state.sceneId = true)
    (hsorted : inputs.Pairwise (fun a b => a.time ≤ b.time))
    (hlate : ∃ i ∈ inputs, d < i.time)
    (h2 : secondLoop ≤ c0 + 300)
    (hrsorted : rounds.Pairwise (fun a b => a.2 ≤ b.2))
    (hrlate : ∃ r ∈ rounds, c0 + 300 < r.2) :
    (m.run inputs).1 = [.Expired m.state.sceneId] ∧
    (m.run inputs).2.state.phase = .Expired ∧
    SceneExpiredWhenRendered sceneId firstLoop c0 secondLoop rounds = [.Expired sceneId] := by
  obtain ⟨r1, _, r3, _⟩ := run_unrendered d inputs m hm hp hall hsorted
  refine ⟨by rw [r1, if_pos hlate], r3.mpr hlate, ?_⟩
  unfold SceneExpiredWhenRendered
  have hsplit : (SceneInput.setVisibility .Mapped :: .setVisibility .Shown
      :: .tick firstLoop [] true
      :: .tick secondLoop [testFlush sceneId 2 (some (c0 + 300))] true
      :: updateRounds sceneId 500 false 3 rounds)
      = [ SceneInput.setVisibility .Mapped, .setVisibility .Shown, .tick firstLoop [] true
        , .tick secondLoop [testFlush sceneId 2 (some (c0 + 300))] true ]
        ++ updateRounds sceneId 500 false 3 rounds := rfl
  rw [hsplit, run_append, shown_and_rendered sceneId firstLoop secondLoop (c0 + 300) h2]
  obtain ⟨q1, _⟩ := run_unrendered (c0 + 300) (updateRounds sceneId 500 false 3 rounds)
    { visibility := .Shown
      state := { sceneId := sceneId, deadline := some (c0 + 300), phase := .OnTime }
      presentedDeadline := some (c0 + 300) }
    ⟨rfl, rfl, by simp⟩ (by simp)
    (updateRounds_unrendered sceneId 500 rounds 3)
    (updateRounds_sorted sceneId 500 false rounds 3 hrsorted)
  simp only [List.nil_append]
  rw [q1, if_pos (updateRounds_late sceneId 500 false rounds 3 (c0 + 300) hrlate)]

theorem shown_scene_expires_without_render_witness :
    shownScene.ShowsDeadline 300 ∧ shownScene.state.phase ≠ .Expired ∧
    (∀ i ∈ [SceneInput.tick 100 [testFlush 7 3 (some 600)] false,
        .tick 400 [testFlush 7 4 (some 900)] false, .tick 700 [] false],
      i.unrenderedTick shownScene.state.sceneId = true) ∧
    (∃ i ∈ [SceneInput.tick 100 [testFlush 7 3 (some 600)] false,
        .tick 400 [testFlush 7 4 (some 900)] false, .tick 700 [] false], 300 < i.time) ∧
    (32 : Time) ≤ 16 + 300 ∧
    (∃ r ∈ sampleRounds, (16 : Time) + 300 < r.2) ∧
    ((shownScene.run [SceneInput.tick 100 [testFlush 7 3 (some 600)] false,
        .tick 400 [testFlush 7 4 (some 900)] false, .tick 700 [] false]).1 = [.Expired 7] ∧
    (shownScene.run [SceneInput.tick 100 [testFlush 7 3 (some 600)] false,
        .tick 400 [testFlush 7 4 (some 900)] false, .tick 700 [] false]).2.state.phase
      = .Expired ∧
    SceneExpiredWhenRendered 7 0 16 32 sampleRounds = [.Expired 7]) :=
  ⟨⟨rfl, rfl, by decide⟩, by decide, by decide, by decide, by decide, by decide,
   shown_scene_expires_without_render shownScene 300
     [SceneInput.tick 100 [testFlush 7 3 (some 600)] false,
       .tick 400 [testFlush 7 4 (some 900)] false, .tick 700 [] false]
     7 0 16 32 sampleRounds ⟨rfl, rfl, by decide⟩ (by decide) (by decide)
     (by simp [SceneInput.time]) (by decide) (by decide)
     (by simp [sampleRounds]) (by decide)⟩

/-- C17. A shown scene that is expired under the render-based rule stays
expired, without further events, while it is not rendered, whatever flushes
with deadlines are applied.  After `hideScene` the flush-application rule
holds: ticks that apply flushes of the scene with deadlines not before the tick
raise exactly one event, `Recovered` for that scene, with no rendering.  So the
run of the test `SceneExpiredWhenRenderedAndRecoveredAfterHidden` raises
`Expired` and then `Recovered` for its scene, nothing else. -/
theorem hidden_scene_recovers_by_flush
    (m : SceneMonitor) (d : Time) (before after : List SceneInput)
    (sceneId : SceneId) (firstLoop c0 secondLoop : Time) (rounds : List (Time × Time))
    (cPast pastLoop : Time) (hidden : List (Time × Time))
    (hm : m.ShowsDeadline d) (hp : m.state.phase = .Expired)
    (hbefore : ∀ i ∈ before, i.unrenderedTick m.state.sceneId = true ∧ d < i.time)
    (hne : after ≠ [])
    (hafter : ∀ i ∈ after, i.timelyFlushTick m.state.sceneId false = true)
    (h2 : secondLoop ≤ c0 + 300)
    (hrsorted : rounds.Pairwise (fun a b => a.2 ≤ b.2))
    (hrlate : ∃ r ∈ rounds, c0 + 300 < r.2)
    (hpast : c0 + 300 < pastLoop)
    (hhne : hidden ≠ [])
    (hhidden : ∀ r ∈ hidden, r.2 ≤ r.1 + 500) :
    (m.run before).1 = [] ∧
    (m.run before).2.state.phase = .Expired ∧
    (m.run (before ++ .setVisibility .Mapped :: after)).1 = [.Recovered m.state.sceneId] ∧
    SceneExpiredWhenRenderedAndRecoveredAfterHidden sceneId firstLoop c0 secondLoop rounds
        cPast pastLoop hidden
      = [.Expired sceneId, .Recovered sceneId] := by
  obtain ⟨b1, b2, b3, b4⟩ := run_stays_expired d before m hm hp hbefore
  have hide : ∀ (m1 : SceneMonitor) (l : List SceneInput), m1.visibility = .Shown →
      m1.state.phase = .Expired → l ≠ [] →
      (∀ i ∈ l, i.timelyFlushTick m1.state.sceneId false = true) →
      (m1.run (.setVisibility .Mapped :: l)).1 = [.Recovered m1.state.sceneId] := by
    intro m1 l hs1 hp1 hl hall
    simp only [SceneMonitor.run, SceneMonitor.step]
    have hvis : (m1.setVisibility .Mapped).visibility = .Mapped := by
      simp [SceneMonitor.setVisibility, hs1]
    have hst := setVisibility_state .Mapped m1
    rw [run_timely l (m1.setVisibility .Mapped) (by rw [hvis]; simp)
      (by rw [hvis, hst]; exact hall)]
    simp [hst, hp1, hl]
  refine ⟨b1, b3, ?_, ?_⟩
  · rw [run_append, b1, hide _ after b2.1 b3 hne (by rw [b4]; exact hafter), b4]
    rfl
  · unfold SceneExpiredWhenRenderedAndRecoveredAfterHidden
    have hin : ((SceneInput.setVisibility .Mapped :: .setVisibility .Shown
        :: .tick firstLoop [] true
        :: .tick secondLoop [testFlush sceneId 2 (some (c0 + 300))] true
        :: updateRounds sceneId 500 false 3 rounds)
        ++ [ .tick pastLoop [testFlush sceneId (3 + rounds.length) (some (cPast - hour))] false
           , .setVisibility .Mapped ]
        ++ updateRounds sceneId 500 false (4 + rounds.length) hidden)
        = [ SceneInput.setVisibility .Mapped, .setVisibility .Shown, .tick firstLoop [] true
          , .tick secondLoop [testFlush sceneId 2 (some (c0 + 300))] true ]
          ++ (updateRounds sceneId 500 false 3 rounds
          ++ ([SceneInput.tick pastLoop
                [testFlush sceneId (3 + rounds.length) (some (cPast - hour))] false]
          ++ (.setVisibility .Mapped
                :: updateRounds sceneId 500 false (4 + rounds.length) hidden))) := by
      simp
    rw [hin]
    obtain ⟨q1, q2, q3, q4⟩ := run_unrendered (c0 + 300)
      (updateRounds sceneId 500 false 3 rounds)
      { visibility := .Shown
        state := { sceneId := sceneId, deadline := some (c0 + 300), phase := .OnTime }
        presentedDeadline := some (c0 + 300) }
      ⟨rfl, rfl, by simp⟩ (by simp)
      (updateRounds_unrendered sceneId 500 rounds 3)
      (updateRounds_sorted sceneId 500 false rounds 3 hrsorted)
    have hlate := updateRounds_late sceneId 500 false rounds 3 (c0 + 300) hrlate
    rw [if_pos hlate] at q1
    have q3' := q3.mpr hlate
    simp only at q4 q1
    obtain ⟨p1, p2, p3, p4⟩ := run_stays_expired (c0 + 300)
      [SceneInput.tick pastLoop
        [testFlush sceneId (3 + rounds.length) (some (cPast - hour))] false] _ q2 q3'
      (by
        intro i hi
        rw [List.mem_singleton] at hi
        subst hi
        exact ⟨by simp [SceneInput.unrenderedTick, ownFlushes, testFlush], hpast⟩)
    have hrec := hide _ (updateRounds sceneId 500 false (4 + rounds.length) hidden) p2.1 p3
      (by
        cases hidden with
        | nil => exact absurd rfl hhne
        | cons r rest =>
          obtain ⟨a, b⟩ := r
          simp [updateRounds])
      (by
        rw [p4, q4]
        exact updateRounds_timely500 sceneId false hidden (4 + rounds.length) hhidden)
    rw [p4, q4] at hrec
    rw [run_append, shown_and_rendered sceneId firstLoop secondLoop (c0 + 300) h2]
    simp only [List.nil_append]
    rw [run_append]
    simp only
    rw [run_append]
    simp only
    rw [q1, p1, hrec]
    rfl

theorem hidden_scene_recovers_by_flush_witness :
    shownExpiredScene.ShowsDeadline 300 ∧ shownExpiredScene.state.phase = .Expired ∧
    (∀ i ∈ [SceneInput.tick 400 [testFlush 7 4 (some 900)] false],
      i.unrenderedTick shownExpiredScene.state.sceneId = true ∧ 300 < i.time) ∧
    (∀ i ∈ [SceneInput.tick 500 [testFlush 7 5 (some 1000)] false],
      i.timelyFlushTick shownExpiredScene.state.sceneId false = true) ∧
    (∀ r ∈ [((1032 : Time), (1048 : Time))], r.2 ≤ r.1 + 500) ∧
    ((shownExpiredScene.run [SceneInput.tick 400 [testFlush 7 4 (some 900)] false]).1 = [] ∧
    (shownExpiredScene.run
        [SceneInput.tick 400 [testFlush 7 4 (some 900)] false]).2.state.phase = .Expired ∧
    (shownExpiredScene.run ([SceneInput.tick 400 [testFlush 7 4 (some 900)] false]
        ++ .setVisibility .Mapped
          :: [SceneInput.tick 500 [testFlush 7 5 (some 1000)] false])).1 = [.Recovered 7] ∧
    SceneExpiredWhenRenderedAndRecoveredAfterHidden 7 0 16 32 sampleRounds 1000 1016
        [(1032, 1048)]
      = [.Expired 7, .Recovered 7]) :=
  ⟨⟨rfl, rfl, by decide⟩, rfl, by decide, by decide, by decide,
   hidden_scene_recovers_by_flush shownExpiredScene 300
     [SceneInput.tick 400 [testFlush 7 4 (some 900)] false]
     [SceneInput.tick 500 [testFlush 7 5 (some 1000)] false]
     7 0 16 32 sampleRounds 1000 1016 [(1032, 1048)]
     ⟨rfl, rfl, by decide⟩ rfl (by decide) (List.cons_ne_nil _ _) (by decide) (by decide)
     (by simp [sampleRounds]) (by decide) (by decide) (List.cons_ne_nil _ _) (by decide)⟩

/-! ## Expiry and recovery at a presentation instant -/

theorem ownFlushes_append_own (sceneId : SceneId) (earlier : List Flush) (f : Flush)
    (hf : f.sceneId = sceneId) :
    ownFlushes sceneId (earlier ++ [f]) = ownFlushes sceneId earlier ++ [f] := by
  simp [ownFlushes, List.filter_append, hf]

/-- A tick that applies a flush of the scene last is a presentation instant of
the scene if it is one of a scene with a flush applied. -/
theorem instant_of_last (m : SceneMonitor) (earlier : List Flush) (f : Flush) (rendered : Bool)
    (hf : f.sceneId = m.state.sceneId)
    (h : isPresentationInstant m.visibility true rendered = true) :
    isPresentationInstant m.visibility
      (!(ownFlushes m.state.sceneId (earlier ++ [f])).isEmpty) rendered = true := by
  rw [ownFlushes_append_own _ earlier f hf]
  have hne : (ownFlushes m.state.sceneId earlier ++ [f]).isEmpty = false := by
    cases ownFlushes m.state.sceneId earlier <;> rfl
  rw [hne]
  exact h

/-- A tick at a presentation instant after the deadline of the latest applied
flush, with a phase other than `Expired`. -/
theorem tick_expires (m : SceneMonitor) (now deadline : Time) (flushes : List Flush)
    (rendered : Bool)
    (hinst : isPresentationInstant m.visibility
      (!(ownFlushes m.state.sceneId flushes).isEmpty) rendered = true)
    (hd : (m.afterFlushes flushes).deadline = some deadline) (hnow : now > deadline)
    (hph : (m.afterFlushes flushes).phase ≠ .Expired) :
    m.tick now flushes rendered
      = ([.Expired m.state.sceneId],
         { visibility := m.visibility
           state := { sceneId := m.state.sceneId, deadline := some deadline, phase := .Expired }
           presentedDeadline := some deadline }) := by
  have hv := instant_subscribed m _ _ hinst
  obtain ⟨hpa, hcw⟩ := presentedAt_of_instant m flushes rendered hinst
  have hid := afterFlushes_sceneId m flushes
  rw [tick_eq m now flushes rendered hv, hpa, hcw, hd,
    evaluate_expires _ now deadline deadline hd hnow hph]
  simp only [hid, hd]

/-- C10. A tick that is a presentation instant of a scene (for a shown scene a
tick that renders, for a scene that is subscribed or mapped a tick that applies
a flush of it), at a time after the deadline of the latest applied flush and
with a phase other than `Expired` once the flushes of the tick are applied,
raises exactly one event, `Expired` for that scene, and leaves the scene
`Expired`.  The phase is other than `Expired` at that instant whenever it was
before the tick.  So a scene that is not expired, and subscribed or mapped, or
shown and rendered, is reported expired by the tick that applies, after
whatever other flushes, a flush of the scene whose deadline is before the tick;
and the run of the test `SceneExpiredWhenSubscribed`, whose second flush carries
a deadline one hour before the time it is made, raises exactly one event,
`Expired` for its scene. -/
theorem expired_event_when_deadline_passed
    (m : SceneMonitor) (now deadline : Time) (flushes : List Flush) (rendered : Bool)
    (hinst : isPresentationInstant m.visibility
      (!(ownFlushes m.state.sceneId flushes).isEmpty) rendered = true)
    (hd : (m.afterFlushes flushes).deadline = some deadline) (hnow : now > deadline)
    (hph : (m.afterFlushes flushes).phase ≠ .Expired) :
    m.tick now flushes rendered
      = ([.Expired m.state.sceneId],
         { visibility := m.visibility
           state := { sceneId := m.state.sceneId, deadline := some deadline, phase := .Expired }
           presentedDeadline := some deadline }) ∧
    (m.state.phase ≠ .Expired → (m.afterFlushes flushes).phase ≠ .Expired) ∧
    (∀ (m2 : SceneMonitor) (earlier : List Flush) (f : Flush) (t d : Time) (r : Bool),
      m2.state.phase ≠ .Expired →
      isPresentationInstant m2.visibility true r = true →
      f.sceneId = m2.state.sceneId → f.expirationDeadline = some d → t > d →
      (m2.tick t (earlier ++ [f]) r).1 = [.Expired m2.state.sceneId] ∧
      (m2.tick t (earlier ++ [f]) r).2.state.phase = .Expired) ∧
    (∀ (sceneId : SceneId) (firstLoop clockNow secondLoop : Time), clockNow ≤ secondLoop →
      SceneExpiredWhenSubscribed sceneId firstLoop clockNow secondLoop = [.Expired sceneId]) := by
  refine ⟨tick_expires m now deadline flushes rendered hinst hd hnow hph,
    fun h => foldl_applyFlush_not_expired _ _ h, ?_, ?_⟩
  · intro m2 earlier f t d r hp2 hi2 hf hfd htd
    have ht := tick_expires m2 t d (earlier ++ [f]) r (instant_of_last m2 earlier f r hf hi2)
      (by rw [afterFlushes_last m2 earlier f hf, hfd]) htd
      (foldl_applyFlush_not_expired _ _ hp2)
    rw [ht]
    exact ⟨rfl, rfl⟩
  · intro sceneId firstLoop clockNow secondLoop hle
    have hlt : clockNow - hour < secondLoop := by
      have key : ∀ a b : Int, a ≤ b → a - 3600000 < b := by
        intro a b h
        omega
      exact key clockNow secondLoop hle
    simp [SceneExpiredWhenSubscribed, SceneMonitor.tick, SceneMonitor.afterFlushes,
      SceneMonitor.presentedAt, SceneMonitor.comparedWith, ownFlushes, SceneMonitor.subscribed,
      testFlush, isPresentationInstant, ExpirationState.applyFlush,
      ExpirationState.evaluate, hlt]

theorem expired_event_when_deadline_passed_witness :
    isPresentationInstant shownScene.visibility
      (!(ownFlushes shownScene.state.sceneId
        [testFlush 7 3 none, testFlush 7 4 (some 100)]).isEmpty) true = true ∧
    (shownScene.afterFlushes [testFlush 7 3 none, testFlush 7 4 (some 100)]).deadline
      = some 100 ∧
    (101 : Time) > 100 ∧
    (shownScene.afterFlushes [testFlush 7 3 none, testFlush 7 4 (some 100)]).phase
      ≠ .Expired ∧
    shownScene.tick 101 [testFlush 7 3 none, testFlush 7 4 (some 100)] true
      = ([.Expired 7],
         { visibility := .Shown
           state := { sceneId := 7, deadline := some 100, phase := .Expired }
           presentedDeadline := some 100 }) ∧
    SceneExpiredWhenSubscribed 7 4999984 5000000 5000016 = [.Expired 7] :=
  ⟨by decide, by decide, by decide, by decide,
   (expired_event_when_deadline_passed shownScene 101 100
     [testFlush 7 3 none, testFlush 7 4 (some 100)] true
     (by decide) (by decide) (by decide) (by decide)).1,
   (expired_event_when_deadline_passed shownScene 101 100
     [testFlush 7 3 none, testFlush 7 4 (some 100)] true
     (by decide) (by decide) (by decide) (by decide)).2.2.2 7 4999984 5000000 5000016
     (by decide)⟩

theorem eventsOf_append (sceneId : SceneId) (a b : List MonitorEvent) :
    eventsOf sceneId (a ++ b) = eventsOf sceneId a ++ eventsOf sceneId b := by
  simp [eventsOf, List.filter_append]

/-- Every event of the tick of a scene is about that scene. -/
theorem tick_events_sceneId (m : SceneMonitor) (now : Time) (flushes : List Flush)
    (rendered : Bool) : ∀ e ∈ (m.tick now flushes rendered).1, e.sceneId = m.state.sceneId := by
  intro e he
  unfold SceneMonitor.tick at he
  split at he
  · simp at he
  · simp only at he
    rcases evaluate_cases (m.afterFlushes flushes) now (m.comparedWith flushes rendered) with
      h | ⟨h, _, _⟩ | ⟨h, _, _⟩
    · rw [h] at he
      simp at he
    · rw [h] at he
      simp only [List.mem_singleton] at he
      rw [he]
      simp [MonitorEvent.sceneId, afterFlushes_sceneId]
    · rw [h] at he
      simp only [List.mem_singleton] at he
      rw [he]
      simp [MonitorEvent.sceneId, afterFlushes_sceneId]

theorem eventsOf_self (sceneId : SceneId) (events : List MonitorEvent)
    (h : ∀ e ∈ events, e.sceneId = sceneId) : eventsOf sceneId events = events := by
  simp only [eventsOf, List.filter_eq_self]
  intro e he
  simp [h e he]

theorem eventsOf_other (sceneId : SceneId) (events : List MonitorEvent)
    (h : ∀ e ∈ events, e.sceneId ≠ sceneId) : eventsOf sceneId events = [] := by
  simp only [eventsOf, List.filter_eq_nil_iff]
  intro e he
  simp [h e he]

theorem ownFlushes_idem (sceneId : SceneId) (flushes : List Flush) :
    ownFlushes sceneId (ownFlushes sceneId flushes) = ownFlushes sceneId flushes := by
  simp [ownFlushes, List.filter_filter]

/-- The tick of a scene looks at the flushes of that scene only. -/
theorem tick_ownFlushes (m : SceneMonitor) (now : Time) (flushes : List Flush)
    (rendered : Bool) :
    m.tick now (ownFlushes m.state.sceneId flushes) rendered = m.tick now flushes rendered := by
  simp [SceneMonitor.tick, SceneMonitor.afterFlushes, SceneMonitor.presentedAt,
    SceneMonitor.comparedWith, ownFlushes_idem]

theorem monitor_tick_sceneIds (now : Time) (flushes : List Flush) (rendered : List SceneId)
    (ms : ExpirationMonitor) :
    ExpirationMonitor.sceneIds (ExpirationMonitor.tick now flushes rendered ms).2
      = ExpirationMonitor.sceneIds ms := by
  induction ms with
  | nil => rfl
  | cons x xs ih =>
    simp only [ExpirationMonitor.tick, ExpirationMonitor.sceneIds, List.map_cons,
      tick_sceneId]
    exact congrArg _ ih

theorem monitor_tick_events_ids (now : Time) (flushes : List Flush) (rendered : List SceneId)
    (ms : ExpirationMonitor) :
    ∀ e ∈ (ExpirationMonitor.tick now flushes rendered ms).1,
      e.sceneId ∈ ExpirationMonitor.sceneIds ms := by
  induction ms with
  | nil => intro e he; simp [ExpirationMonitor.tick] at he
  | cons x xs ih =>
    intro e he
    simp only [ExpirationMonitor.tick, List.mem_append] at he
    simp only [ExpirationMonitor.sceneIds, List.map_cons, List.mem_cons]
    rcases he with he | he
    · exact Or.inl (tick_events_sceneId x now flushes _ e he)
    · exact Or.inr (ih e he)

/-- In a tick of the monitor, the events about a scene are those of the tick of
that scene's record, and that record is replaced by its successor. -/
theorem monitor_tick_scene (now : Time) (flushes : List Flush) (rendered : List SceneId)
    (ms : ExpirationMonitor) (m : SceneMonitor)
    (hnodup : (ExpirationMonitor.sceneIds ms).Nodup) (hmem : m ∈ ms) :
    eventsOf m.state.sceneId (ExpirationMonitor.tick now flushes rendered ms).1
      = (m.tick now flushes (rendered.contains m.state.sceneId)).1 ∧
    (m.tick now flushes (rendered.contains m.state.sceneId)).2
      ∈ (ExpirationMonitor.tick now flushes rendered ms).2 := by
  induction ms with
  | nil => simp at hmem
  | cons x xs ih =>
    simp only [ExpirationMonitor.sceneIds, List.map_cons, List.nodup_cons] at hnodup
    obtain ⟨hx, hxs⟩ := hnodup
    simp only [ExpirationMonitor.tick, eventsOf_append]
    rcases List.mem_cons.mp hmem with rfl | hin
    · refine ⟨?_, List.mem_cons_self _ _⟩
      have hother : ∀ e ∈ (ExpirationMonitor.tick now flushes rendered xs).1,
          e.sceneId ≠ m.state.sceneId := by
        intro e he h
        have hin := monitor_tick_events_ids now flushes rendered xs e he
        rw [h] at hin
        exact hx hin
      rw [eventsOf_self _ _ (tick_events_sceneId m now flushes _),
        eventsOf_other _ _ hother]
      simp
    · obtain ⟨h1, h2⟩ := ih hxs hin
      have hne : x.state.sceneId ≠ m.state.sceneId := by
        intro h
        rw [h] at hx
        exact hx (List.mem_map.mpr ⟨m, hin, rfl⟩)
      refine ⟨?_, List.mem_cons_of_mem _ h2⟩
      rw [eventsOf_other _ _ (fun e he h =>
        hne ((tick_events_sceneId x now flushes _ e he).symm.trans h)), h1]
      simp

theorem setVisibility_sceneId (v : VisibilityState) (m : SceneMonitor) :
    (m.setVisibility v).state.sceneId = m.state.sceneId := by
  rw [setVisibility_state]

theorem monitor_setVisibility_sceneIds (sceneId : SceneId) (v : VisibilityState)
    (ms : ExpirationMonitor) :
    ExpirationMonitor.sceneIds (ExpirationMonitor.setVisibility sceneId v ms)
      = ExpirationMonitor.sceneIds ms := by
  induction ms with
  | nil => rfl
  | cons x xs ih =>
    simp only [ExpirationMonitor.setVisibility, ExpirationMonitor.sceneIds, List.map_cons]
    have hx : (if x.state.sceneId = sceneId then x.setVisibility v else x).state.sceneId
        = x.state.sceneId := by
      split
      · exact setVisibility_sceneId v x
      · rfl
    rw [hx]
    exact congrArg _ ih

theorem monitor_setVisibility_mem (sceneId : SceneId) (v : VisibilityState)
    (ms : ExpirationMonitor) (m : SceneMonitor) (hmem : m ∈ ms) :
    (if m.state.sceneId = sceneId then m.setVisibility v else m)
      ∈ ExpirationMonitor.setVisibility sceneId v ms := by
  induction ms with
  | nil => simp at hmem
  | cons x xs ih =>
    simp only [ExpirationMonitor.setVisibility]
    rcases List.mem_cons.mp hmem with rfl | hin
    · exact List.mem_cons_self _ _
    · exact List.mem_cons_of_mem _ (ih hin)

/-- The events about one scene in a run of the monitor are the events of the
run of that scene's record on what the inputs are for that scene. -/
theorem monitor_run_scene (inputs : List MonitorInput) :
    ∀ (ms : ExpirationMonitor) (m : SceneMonitor),
      (ExpirationMonitor.sceneIds ms).Nodup → m ∈ ms →
      eventsOf m.state.sceneId (ExpirationMonitor.run inputs ms).1
        = (m.run (inputs.filterMap (MonitorInput.forScene m.state.sceneId))).1 := by
  induction inputs with
  | nil => intro ms m _ _; simp [ExpirationMonitor.run, SceneMonitor.run, eventsOf]
  | cons i rest ih =>
    intro ms m hnodup hmem
    cases i with
    | tick now flushes rendered =>
      obtain ⟨h1, h2⟩ := monitor_tick_scene now flushes rendered ms m hnodup hmem
      have hids := monitor_tick_sceneIds now flushes rendered ms
      have hrest := ih (ExpirationMonitor.tick now flushes rendered ms).2 _
        (by rw [hids]; exact hnodup) h2
      rw [tick_sceneId] at hrest
      simp only [ExpirationMonitor.run, ExpirationMonitor.step, eventsOf_append,
        List.filterMap_cons, MonitorInput.forScene, SceneMonitor.run, SceneMonitor.step]
      have hown : m.tick now (List.filter (fun f => f.sceneId == m.state.sceneId) flushes)
          (rendered.contains m.state.sceneId)
          = m.tick now flushes (rendered.contains m.state.sceneId) :=
        tick_ownFlushes m now flushes _
      rw [hown, h1, hrest]
    | setVisibility sceneId v =>
      have h2 := monitor_setVisibility_mem sceneId v ms m hmem
      have hids := monitor_setVisibility_sceneIds sceneId v ms
      have hrest := ih (ExpirationMonitor.setVisibility sceneId v ms) _
        (by rw [hids]; exact hnodup) h2
      simp only [ExpirationMonitor.run, ExpirationMonitor.step, eventsOf_append,
        List.filterMap_cons, MonitorInput.forScene]
      by_cases hs : sceneId = m.state.sceneId
      · subst hs
        simp only [if_true] at hrest ⊢
        rw [setVisibility_sceneId] at hrest
        simp only [SceneMonitor.run, SceneMonitor.step]
        rw [hrest]
        simp [eventsOf]
      · have hs' : ¬ m.state.sceneId = sceneId := fun h => hs h.symm
        simp only [hs, hs', if_false] at hrest ⊢
        rw [hrest]
        simp [eventsOf]

theorem monitor_run_events_ids (inputs : List MonitorInput) :
    ∀ ms : ExpirationMonitor, ∀ e ∈ (ExpirationMonitor.run inputs ms).1,
      e.sceneId ∈ ExpirationMonitor.sceneIds ms := by
  induction inputs with
  | nil => intro ms e he; simp [ExpirationMonitor.run] at he
  | cons i rest ih =>
    intro ms e he
    cases i with
    | tick now flushes rendered =>
      simp only [ExpirationMonitor.run, ExpirationMonitor.step, List.mem_append] at he
      rcases he with he | he
      · exact monitor_tick_events_ids now flushes rendered ms e he
      · have := ih _ e he
        rwa [monitor_tick_sceneIds] at this
    | setVisibility sceneId v =>
      simp only [ExpirationMonitor.run, ExpirationMonitor.step, List.nil_append] at he
      have := ih _ e he
      rwa [monitor_setVisibility_sceneIds] at this

/-- C18. Expiration is per scene.  The `Expired` and `Recovered` events about a
scene in a run of the monitor are exactly the events of that scene's own record
run on the scene's own flushes, rendering, visibility changes and ticks.  So two
runs that agree on these for a scene raise the same events for it, whatever
else they do to other scenes and whatever other scenes are monitored; and every
event of the tick of a scene carries the id of that scene, every event of a run
the id of a monitored scene. -/
theorem events_of_a_scene_depend_on_that_scene_only
    (ms1 ms2 : ExpirationMonitor) (m : SceneMonitor) (inputs1 inputs2 : List MonitorInput)
    (now : Time) (flushes : List Flush) (rendered : Bool)
    (h1 : (ExpirationMonitor.sceneIds ms1).Nodup) (h2 : (ExpirationMonitor.sceneIds ms2).Nodup)
    (hm1 : m ∈ ms1) (hm2 : m ∈ ms2)
    (hagree : inputs1.filterMap (MonitorInput.forScene m.state.sceneId)
      = inputs2.filterMap (MonitorInput.forScene m.state.sceneId)) :
    eventsOf m.state.sceneId (ExpirationMonitor.run inputs1 ms1).1
      = eventsOf m.state.sceneId (ExpirationMonitor.run inputs2 ms2).1 ∧
    eventsOf m.state.sceneId (ExpirationMonitor.run inputs1 ms1).1
      = (m.run (inputs1.filterMap (MonitorInput.forScene m.state.sceneId))).1 ∧
    (∀ e ∈ (m.tick now flushes rendered).1, e.sceneId = m.state.sceneId) ∧
    (∀ e ∈ (ExpirationMonitor.run inputs1 ms1).1,
      e.sceneId ∈ ExpirationMonitor.sceneIds ms1) := by
  refine ⟨?_, monitor_run_scene inputs1 ms1 m h1 hm1,
    tick_events_sceneId m now flushes rendered, monitor_run_events_ids inputs1 ms1⟩
  rw [monitor_run_scene inputs1 ms1 m h1 hm1, monitor_run_scene inputs2 ms2 m h2 hm2, hagree]

theorem events_of_a_scene_depend_on_that_scene_only_witness :
    (ExpirationMonitor.sceneIds [SceneMonitor.subscribed 7, SceneMonitor.subscribed 8]).Nodup ∧
    (ExpirationMonitor.sceneIds [SceneMonitor.subscribed 7]).Nodup ∧
    SceneMonitor.subscribed 7 ∈ [SceneMonitor.subscribed 7, SceneMonitor.subscribed 8] ∧
    SceneMonitor.subscribed 7 ∈ [SceneMonitor.subscribed 7] ∧
    [MonitorInput.tick 100 [testFlush 7 1 (some 50), testFlush 8 1 (some 40)] [8],
        .setVisibility 8 .Mapped].filterMap
        (MonitorInput.forScene (SceneMonitor.subscribed 7).state.sceneId)
      = [MonitorInput.tick 100 [testFlush 7 1 (some 50)] []].filterMap
        (MonitorInput.forScene (SceneMonitor.subscribed 7).state.sceneId) ∧
    (eventsOf 7 (ExpirationMonitor.run
        [MonitorInput.tick 100 [testFlush 7 1 (some 50), testFlush 8 1 (some 40)] [8],
          .setVisibility 8 .Mapped]
        [SceneMonitor.subscribed 7, SceneMonitor.subscribed 8]).1
      = eventsOf 7 (ExpirationMonitor.run
        [MonitorInput.tick 100 [testFlush 7 1 (some 50)] []]
        [SceneMonitor.subscribed 7]).1) :=
  ⟨by decide, by decide, by decide, by decide, rfl,
   (events_of_a_scene_depend_on_that_scene_only
     [SceneMonitor.subscribed 7, SceneMonitor.subscribed 8] [SceneMonitor.subscribed 7]
     (SceneMonitor.subscribed 7)
     [MonitorInput.tick 100 [testFlush 7 1 (some 50), testFlush 8 1 (some 40)] [8],
       .setVisibility 8 .Mapped]
     [MonitorInput.tick 100 [testFlush 7 1 (some 50)] []]
     100 [] false (by decide) (by decide) (by decide) (by decide) rfl).1⟩

/-! ## The flush sequencer -/

theorem applyHeld_sceneId (fuel : Nat) :
    ∀ s : FlushSequencer, (FlushSequencer.applyHeld fuel s).sceneId = s.sceneId := by
  induction fuel with
  | zero => intro s; rfl
  | succ n ih =>
    intro s
    unfold FlushSequencer.applyHeld
    split
    · rfl
    · rw [ih]

/-- What is applied from the held flushes continues the chain of sequence
numbers. -/
theorem applyHeld_chain (fuel : Nat) :
    ∀ s : FlushSequencer, ∃ k : Nat,
      (FlushSequencer.applyHeld fuel s).highestAppliedSequence = s.highestAppliedSequence + k ∧
      (FlushSequencer.applyHeld fuel s).appliedNumbers
        = s.appliedNumbers ++ List.range' (s.highestAppliedSequence + 1) k := by
  induction fuel with
  | zero => intro s; exact ⟨0, by simp [FlushSequencer.applyHeld]⟩
  | succ n ih =>
    intro s
    unfold FlushSequencer.applyHeld
    split
    · exact ⟨0, by simp⟩
    · rename_i g hg
      obtain ⟨k, h1, h2⟩ := ih
        { s with
          highestAppliedSequence := s.highestAppliedSequence + 1
          applied := s.applied ++ [g]
          held := s.held.filter (fun h => h.sequenceNumber > s.highestAppliedSequence + 1) }
      have hgn : g.sequenceNumber = s.highestAppliedSequence + 1 := by
        have := List.find?_some hg
        simpa using this
      refine ⟨k + 1, ?_, ?_⟩
      · rw [h1]
        simp only
        omega
      · rw [h2]
        simp only [FlushSequencer.appliedNumbers, List.map_append, List.map_cons, List.map_nil,
          hgn, List.append_assoc]
        simp [List.range'_succ]

theorem length_filter_lt_of_mem {α : Type} (p : α → Bool) (l : List α) (x : α)
    (hx : x ∈ l) (hp : p x = false) : (l.filter p).length < l.length := by
  induction l with
  | nil => simp at hx
  | cons a as ih =>
    rcases List.mem_cons.mp hx with rfl | hin
    · simp only [List.filter, hp, List.length_cons]
      exact Nat.lt_succ_of_le (List.length_filter_le p as)
    · have := ih hin
      simp only [List.filter, List.length_cons]
      split
      · simp only [List.length_cons]
        omega
      · omega

/-- With enough fuel, applying from the held flushes ends only when the flush
with the next number is not held. -/
theorem applyHeld_drained (fuel : Nat) :
    ∀ s : FlushSequencer, s.held.length ≤ fuel →
      (∀ g ∈ s.held, s.highestAppliedSequence < g.sequenceNumber) →
      ∀ g ∈ (FlushSequencer.applyHeld fuel s).held,
        (FlushSequencer.applyHeld fuel s).highestAppliedSequence + 1 < g.sequenceNumber := by
  induction fuel with
  | zero =>
    intro s hlen _ g hg
    have : s.held = [] := List.length_eq_zero.mp (Nat.le_zero.mp hlen)
    simp [FlushSequencer.applyHeld, this] at hg
  | succ n ih =>
    intro s hlen hall
    unfold FlushSequencer.applyHeld
    split
    · rename_i hnone
      intro g hg
      have h1 := hall g hg
      have h2 : g.sequenceNumber ≠ s.highestAppliedSequence + 1 := by
        have := List.find?_eq_none.mp hnone g hg
        simpa using this
      omega
    · rename_i x hx
      have hxmem : x ∈ s.held := List.mem_of_find?_eq_some hx
      have hxn : x.sequenceNumber = s.highestAppliedSequence + 1 := by
        have := List.find?_some hx
        simpa using this
      refine ih _ ?_ ?_
      · have := length_filter_lt_of_mem
          (fun h : Flush => decide (h.sequenceNumber > s.highestAppliedSequence + 1)) s.held x
          hxmem (by simp [hxn])
        simp only
        omega
      · intro g hg
        simp only [List.mem_filter, decide_eq_true_eq] at hg
        exact hg.2

/-- A held flush is either applied (or dropped as a duplicate) or still held. -/
theorem applyHeld_keeps (fuel : Nat) :
    ∀ s : FlushSequencer, ∀ g ∈ s.held,
      g.sequenceNumber ≤ (FlushSequencer.applyHeld fuel s).highestAppliedSequence ∨
      g ∈ (FlushSequencer.applyHeld fuel s).held := by
  induction fuel with
  | zero => intro s g hg; exact Or.inr hg
  | succ n ih =>
    intro s g hg
    unfold FlushSequencer.applyHeld
    split
    · exact Or.inr hg
    · rename_i x hx
      by_cases hgt : g.sequenceNumber > s.highestAppliedSequence + 1
      · exact ih _ g (by simp [List.mem_filter, hg, hgt])
      · left
        obtain ⟨k, h1, _⟩ := applyHeld_chain n
          { s with
            highestAppliedSequence := s.highestAppliedSequence + 1
            applied := s.applied ++ [x]
            held := s.held.filter (fun h => h.sequenceNumber > s.highestAppliedSequence + 1) }
        rw [h1]
        simp only
        omega

/-- What is applied from the held flushes was held. -/
theorem applyHeld_applied_from_held (fuel : Nat) :
    ∀ s : FlushSequencer, ∀ g ∈ (FlushSequencer.applyHeld fuel s).applied,
      g ∈ s.applied ∨ g ∈ s.held := by
  induction fuel with
  | zero => intro s g hg; exact Or.inl hg
  | succ n ih =>
    intro s g hg
    unfold FlushSequencer.applyHeld at hg
    split at hg
    · exact Or.inl hg
    · rename_i x hx
      rcases ih _ g hg with h | h
      · simp only [List.mem_append, List.mem_singleton] at h
        rcases h with h | h
        · exact Or.inl h
        · exact Or.inr (h ▸ List.mem_of_find?_eq_some hx)
      · simp only [List.mem_filter] at h
        exact Or.inr h.1

theorem applyHeld_held_sub (fuel : Nat) :
    ∀ s : FlushSequencer, ∀ g ∈ (FlushSequencer.applyHeld fuel s).held, g ∈ s.held := by
  induction fuel with
  | zero => intro s g hg; exact hg
  | succ n ih =>
    intro s g hg
    unfold FlushSequencer.applyHeld at hg
    split at hg
    · exact hg
    · have := ih _ g hg
      simp only [List.mem_filter] at this
      exact this.1

theorem deliver_sceneId (f : Flush) (s : FlushSequencer) :
    (s.deliver f).sceneId = s.sceneId := by
  unfold FlushSequencer.deliver
  split_ifs <;> simp [applyHeld_sceneId]

/-- Delivery keeps the sequencer in order. -/
theorem deliver_inOrder (base : Nat) (f : Flush) (s : FlushSequencer) (h : s.InOrder base) :
    (s.deliver f).InOrder base := by
  obtain ⟨h1, h2, h3⟩ := h
  unfold FlushSequencer.deliver
  split_ifs with c1 c2 c3
  · exact ⟨h1, h2, h3⟩
  · exact ⟨h1, h2, h3⟩
  · exact ⟨h1, h2, h3⟩
  · obtain ⟨k, hk1, hk2⟩ := applyHeld_chain (s.held.length + 1) { s with held := s.held ++ [f] }
    have hbeyond : ∀ g ∈ s.held ++ [f], s.highestAppliedSequence < g.sequenceNumber := by
      intro g hg
      rcases List.mem_append.mp hg with hg | hg
      · have := h3 g hg
        omega
      · rw [List.mem_singleton] at hg
        subst hg
        omega
    refine ⟨?_, ?_, ?_⟩
    · rw [hk1]
      simp only
      omega
    · rw [hk2, hk1]
      simp only
      have : FlushSequencer.appliedNumbers { s with held := s.held ++ [f] }
          = s.appliedNumbers := rfl
      rw [this, h2]
      have hsplit : s.highestAppliedSequence + k - base
          = k + (s.highestAppliedSequence - base) := by omega
      have hstart : s.highestAppliedSequence + 1
          = base + 1 + (s.highestAppliedSequence - base) := by omega
      rw [hsplit, hstart]
      exact List.range'_append_1 (base + 1) (s.highestAppliedSequence - base) k
    · exact applyHeld_drained (s.held.length + 1) { s with held := s.held ++ [f] }
        (by simp) hbeyond

theorem deliverAll_inOrder (base : Nat) (arrivals : List Flush) :
    ∀ s : FlushSequencer, s.InOrder base → (s.deliverAll arrivals).InOrder base := by
  induction arrivals with
  | nil => intro s h; exact h
  | cons f fs ih => intro s h; exact ih _ (deliver_inOrder base f s h)

theorem new_inOrder (sceneId : SceneId) (base : Nat) :
    (FlushSequencer.new sceneId base).InOrder base := by
  simp [FlushSequencer.InOrder, FlushSequencer.new, FlushSequencer.appliedNumbers]

theorem deliver_keeps_covered (f : Flush) (s : FlushSequencer) (n : Nat) (h : s.Covers n) :
    (s.deliver f).Covers n := by
  unfold FlushSequencer.deliver
  split_ifs with c1 c2 c3
  · exact h
  · exact h
  · exact h
  · obtain ⟨k, hk1, _⟩ := applyHeld_chain (s.held.length + 1) { s with held := s.held ++ [f] }
    rcases h with h | ⟨g, hg, hgn⟩
    · left
      rw [hk1]
      simp only
      omega
    · rcases applyHeld_keeps (s.held.length + 1) { s with held := s.held ++ [f] } g
        (by simp [hg]) with h | h
      · exact Or.inl (hgn ▸ h)
      · exact Or.inr ⟨g, h, hgn⟩

theorem deliver_covers (f : Flush) (s : FlushSequencer) (hf : f.sceneId = s.sceneId) :
    (s.deliver f).Covers f.sequenceNumber := by
  unfold FlushSequencer.deliver
  split_ifs with c1 c2 c3
  · exact absurd hf c1
  · exact Or.inl c2
  · right
    simp only [List.any_eq_true, beq_iff_eq] at c3
    exact c3
  · rcases applyHeld_keeps (s.held.length + 1) { s with held := s.held ++ [f] } f
      (by simp) with h | h
    · exact Or.inl h
    · exact Or.inr ⟨f, h, rfl⟩

theorem deliverAll_sceneId (arrivals : List Flush) :
    ∀ s : FlushSequencer, (s.deliverAll arrivals).sceneId = s.sceneId := by
  induction arrivals with
  | nil => intro s; rfl
  | cons f fs ih => intro s; simp [FlushSequencer.deliverAll, ih, deliver_sceneId]

theorem deliverAll_keeps_covered (arrivals : List Flush) :
    ∀ (s : FlushSequencer) (n : Nat), s.Covers n → (s.deliverAll arrivals).Covers n := by
  induction arrivals with
  | nil => intro s n h; exact h
  | cons f fs ih => intro s n h; exact ih _ n (deliver_keeps_covered f s n h)

/-- Every flush of the scene that arrived is taken note of. -/
theorem deliverAll_covers (arrivals : List Flush) :
    ∀ s : FlushSequencer, ∀ f ∈ arrivals, f.sceneId = s.sceneId →
      (s.deliverAll arrivals).Covers f.sequenceNumber := by
  induction arrivals with
  | nil => intro s f hf; simp at hf
  | cons a as ih =>
    intro s f hf hid
    rcases List.mem_cons.mp hf with rfl | hin
    · exact deliverAll_keeps_covered as _ _ (deliver_covers f s hid)
    · exact ih (s.deliver a) f hin (by rw [deliver_sceneId]; exact hid)

/-- A sequencer in order has applied every number up to which all numbers were
taken note of. -/
theorem inOrder_reaches (base n : Nat) (s : FlushSequencer) (h : s.InOrder base)
    (hall : ∀ k, base < k → k ≤ base + n → s.Covers k) :
    base + n ≤ s.highestAppliedSequence := by
  obtain ⟨h1, _, h3⟩ := h
  by_contra hlt
  have hk := hall (s.highestAppliedSequence + 1) (by omega) (by omega)
  rcases hk with hk | ⟨g, hg, hgn⟩
  · omega
  · have := h3 g hg
    omega

theorem deliver_applied_from (f : Flush) (s : FlushSequencer) :
    ∀ g ∈ (s.deliver f).applied,
      g ∈ s.applied ∨ g ∈ s.held ∨ (g = f ∧ f.sceneId = s.sceneId) := by
  intro g hg
  unfold FlushSequencer.deliver at hg
  split_ifs at hg with c1 c2 c3
  · exact Or.inl hg
  · exact Or.inl hg
  · exact Or.inl hg
  · rcases applyHeld_applied_from_held _ _ g hg with h | h
    · exact Or.inl h
    · simp only [List.mem_append, List.mem_singleton] at h
      rcases h with h | h
      · exact Or.inr (Or.inl h)
      · exact Or.inr (Or.inr ⟨h, not_not.mp c1⟩)

theorem deliver_held_from (f : Flush) (s : FlushSequencer) :
    ∀ g ∈ (s.deliver f).held, g ∈ s.held ∨ (g = f ∧ f.sceneId = s.sceneId) := by
  intro g hg
  unfold FlushSequencer.deliver at hg
  split_ifs at hg with c1 c2 c3
  · exact Or.inl hg
  · exact Or.inl hg
  · exact Or.inl hg
  · have h := applyHeld_held_sub _ _ g hg
    simp only [List.mem_append, List.mem_singleton] at h
    rcases h with h | h
    · exact Or.inl h
    · exact Or.inr ⟨h, not_not.mp c1⟩

/-- Whatever is applied or held arrived, as a flush of the scene. -/
theorem deliverAll_from_arrivals (arrivals : List Flush) :
    ∀ s : FlushSequencer,
      (∀ g ∈ (s.deliverAll arrivals).applied,
        g ∈ s.applied ∨ g ∈ s.held ∨ (g ∈ arrivals ∧ g.sceneId = s.sceneId)) ∧
      (∀ g ∈ (s.deliverAll arrivals).held,
        g ∈ s.held ∨ (g ∈ arrivals ∧ g.sceneId = s.sceneId)) := by
  induction arrivals with
  | nil => intro s; exact ⟨fun g hg => Or.inl hg, fun g hg => Or.inl hg⟩
  | cons f fs ih =>
    intro s
    obtain ⟨i1, i2⟩ := ih (s.deliver f)
    have hid := deliver_sceneId f s
    constructor
    · intro g hg
      rcases i1 g hg with h | h | ⟨h, hs⟩
      · rcases deliver_applied_from f s g h with h | h | ⟨h, hs⟩
        · exact Or.inl h
        · exact Or.inr (Or.inl h)
        · exact Or.inr (Or.inr ⟨by simp [h], h ▸ hs⟩)
      · rcases deliver_held_from f s g h with h | ⟨h, hs⟩
        · exact Or.inr (Or.inl h)
        · exact Or.inr (Or.inr ⟨by simp [h], h ▸ hs⟩)
      · exact Or.inr (Or.inr ⟨List.mem_cons_of_mem _ h, by rw [hs, hid]⟩)
    · intro g hg
      rcases i2 g hg with h | ⟨h, hs⟩
      · rcases deliver_held_from f s g h with h | ⟨h, hs⟩
        · exact Or.inl h
        · exact Or.inr ⟨by simp [h], h ▸ hs⟩
      · exact Or.inr ⟨List.mem_cons_of_mem _ h, by rw [hs, hid]⟩


theorem inOrder_applied_le (base : Nat) (s : FlushSequencer) (h : s.InOrder base) :
    ∀ g ∈ s.applied, base < g.sequenceNumber ∧ g.sequenceNumber ≤ s.highestAppliedSequence := by
  intro g hg
  obtain ⟨h1, h2, _⟩ := h
  have hmem : g.sequenceNumber ∈ s.appliedNumbers := List.mem_map_of_mem _ hg
  rw [h2, List.mem_range'_1] at hmem
  omega

theorem range_pairwise_lt (a n : Nat) : (List.range' a n).Pairwise (fun x y => x < y) := by
  induction n generalizing a with
  | zero => simp
  | succ n ih =>
    rw [List.range'_succ]
    refine List.Pairwise.cons ?_ (ih (a + 1))
    intro y hy
    rw [List.mem_range'_1] at hy
    omega

theorem deliver_highest_le (f : Flush) (s : FlushSequencer) :
    s.highestAppliedSequence ≤ (s.deliver f).highestAppliedSequence := by
  unfold FlushSequencer.deliver
  split_ifs with c1 c2 c3
  · exact le_refl _
  · exact le_refl _
  · exact le_refl _
  · obtain ⟨k, hk1, _⟩ := applyHeld_chain (s.held.length + 1) { s with held := s.held ++ [f] }
    rw [hk1]
    simp only
    omega

/-- An arrival whose number the sequencer has taken note of changes nothing. -/
theorem deliver_discard (f : Flush) (t : FlushSequencer) (h : t.Covers f.sequenceNumber) :
    t.deliver f = t := by
  unfold FlushSequencer.deliver
  split_ifs with c1 c2 c3
  · rfl
  · rfl
  · rfl
  · exfalso
    rcases h with h | ⟨g, hg, hgn⟩
    · exact c2 h
    · apply c3
      simp only [List.any_eq_true, beq_iff_eq]
      exact ⟨g, hg, hgn⟩

/-- The next flush in sequence is applied on arrival, once. -/
theorem deliver_next_applies (base : Nat) (s : FlushSequencer) (f : Flush) (h : s.InOrder base)
    (hid : f.sceneId = s.sceneId) (hn : f.sequenceNumber = s.highestAppliedSequence + 1) :
    f ∈ (s.deliver f).applied ∧ f.sequenceNumber ≤ (s.deliver f).highestAppliedSequence := by
  have hio := deliver_inOrder base f s h
  have hcov := deliver_covers f s hid
  have hle : f.sequenceNumber ≤ (s.deliver f).highestAppliedSequence := by
    rcases hcov with hc | ⟨g, hg, hgn⟩
    · exact hc
    · have := hio.2.2 g hg
      have hmono := deliver_highest_le f s
      omega
  refine ⟨?_, hle⟩
  have hmem : f.sequenceNumber ∈ (s.deliver f).appliedNumbers := by
    rw [hio.2.1, List.mem_range'_1]
    have := h.1
    omega
  obtain ⟨g, hg, hgn⟩ := List.mem_map.mp hmem
  rcases deliver_applied_from f s g hg with h1 | h1 | ⟨h1, _⟩
  · have := (inOrder_applied_le base s h g h1).2
    omega
  · have := h.2.2 g h1
    omega
  · exact h1 ▸ hg

/-- C19. For every scene, every consumer of it (subscribed when `base` was the
highest applied number) and every arrival order of flushes, of this scene and
of others, with gaps, duplicates and reorderings: the sequence numbers of the
`onFlushApplied` calls are `base + 1`, `base + 2`, ... up to the highest applied
number, so they increase strictly and no number is applied before its
predecessor; this holds after every arrival.  Every applied flush is one that
arrived for the scene, and once every number up to `base + n` has arrived, in
whatever order, all of them are applied. -/
theorem flushes_applied_in_sequence_order
    (sceneId : SceneId) (base : Nat) (arrivals : List Flush) :
    ((FlushSequencer.new sceneId base).deliverAll arrivals).appliedNumbers.Pairwise
      (fun a b => a < b) ∧
    (∀ n : Nat,
      ((FlushSequencer.new sceneId base).deliverAll (arrivals.take n)).appliedNumbers
        = List.range' (base + 1)
            (((FlushSequencer.new sceneId base).deliverAll
              (arrivals.take n)).highestAppliedSequence - base)) ∧
    (∀ g ∈ ((FlushSequencer.new sceneId base).deliverAll arrivals).applied,
      g ∈ arrivals ∧ g.sceneId = sceneId) ∧
    (∀ n : Nat,
      (∀ k, base < k → k ≤ base + n →
        ∃ f ∈ arrivals, f.sceneId = sceneId ∧ f.sequenceNumber = k) →
      base + n ≤ ((FlushSequencer.new sceneId base).deliverAll arrivals).highestAppliedSequence)
    := by
  have hio := deliverAll_inOrder base arrivals (FlushSequencer.new sceneId base)
    (new_inOrder sceneId base)
  refine ⟨?_, ?_, ?_, ?_⟩
  · rw [hio.2.1]
    exact range_pairwise_lt _ _
  · intro n
    exact (deliverAll_inOrder base (arrivals.take n) (FlushSequencer.new sceneId base)
      (new_inOrder sceneId base)).2.1
  · intro g hg
    rcases (deliverAll_from_arrivals arrivals (FlushSequencer.new sceneId base)).1 g hg
      with h | h | h
    · simp [FlushSequencer.new] at h
    · simp [FlushSequencer.new] at h
    · exact h
  · intro n hall
    refine inOrder_reaches base n _ hio ?_
    intro k hk1 hk2
    obtain ⟨f, hf, hfid, hfk⟩ := hall k hk1 hk2
    have := deliverAll_covers arrivals (FlushSequencer.new sceneId base) f hf hfid
    rw [hfk] at this
    exact this

/-- C20. Delivery is idempotent.  Delivering a flush a second time, right after
the first, leaves the consumer as the first delivery left it: the highest
applied number, the `onFlushApplied` calls and the held flushes are unchanged.
An arrival whose sequence number is not above the highest applied one is
discarded and changes nothing.  No sequence number is ever applied twice, and a
flush that arrives with the next number in sequence is applied exactly once,
whether it is delivered once or twice. -/
theorem duplicate_delivery_is_discarded
    (base : Nat) (s : FlushSequencer) (f : Flush) (h : s.InOrder base) :
    (s.deliver f).deliver f = s.deliver f ∧
    (f.sequenceNumber ≤ s.highestAppliedSequence → s.deliver f = s) ∧
    (∀ n : Nat, ((s.deliver f).deliver f).appliedNumbers.count n ≤ 1) ∧
    (f.sceneId = s.sceneId → f.sequenceNumber = s.highestAppliedSequence + 1 →
      ((s.deliver f).deliver f).applied.count f = 1 ∧
      ((s.deliver f).deliver f).appliedNumbers.count f.sequenceNumber = 1) := by
  have hio := deliver_inOrder base f s h
  have hidem : (s.deliver f).deliver f = s.deliver f := by
    by_cases hid : f.sceneId = s.sceneId
    · exact deliver_discard f (s.deliver f) (deliver_covers f s hid)
    · have : s.deliver f = s := by
        unfold FlushSequencer.deliver
        simp [hid]
      rw [this, this]
  have hnodup : (s.deliver f).appliedNumbers.Nodup := by
    rw [hio.2.1]
    exact List.nodup_range' _ _
  refine ⟨hidem, ?_, ?_, ?_⟩
  · intro hle
    unfold FlushSequencer.deliver
    simp [hle]
  · intro n
    rw [hidem]
    exact List.nodup_iff_count_le_one.mp hnodup n
  · intro hid hn
    rw [hidem]
    obtain ⟨hmem, hle⟩ := deliver_next_applies base s f h hid hn
    have hnum : (s.deliver f).appliedNumbers.count f.sequenceNumber = 1 := by
      refine List.count_eq_one_of_mem hnodup ?_
      exact List.mem_map_of_mem _ hmem
    refine ⟨?_, hnum⟩
    have hle1 : (s.deliver f).applied.count f ≤ 1 := by
      have := List.count_le_count_map (s.deliver f).applied (fun g => g.sequenceNumber) f
      unfold FlushSequencer.appliedNumbers at hnum
      omega
    have hpos : 0 < (s.deliver f).applied.count f := List.count_pos_iff.mpr hmem
    omega

theorem duplicate_delivery_is_discarded_witness :
    sampleSequencer.InOrder 0 ∧
    sampleSequencer.appliedNumbers = [1] ∧
    (((sampleSequencer.deliver (testFlush 7 2 none)).deliver (testFlush 7 2 none))
      = sampleSequencer.deliver (testFlush 7 2 none) ∧
    ((sampleSequencer.deliver (testFlush 7 2 none)).deliver
      (testFlush 7 2 none)).appliedNumbers.count 2 = 1) :=
  ⟨⟨by decide, by decide, by decide⟩, by decide,
   (duplicate_delivery_is_discarded 0 sampleSequencer (testFlush 7 2 none)
     ⟨by decide, by decide, by decide⟩).1,
   ((duplicate_delivery_is_discarded 0 sampleSequencer (testFlush 7 2 none)
     ⟨by decide, by decide, by decide⟩).2.2.2 rfl rfl).2⟩

/-! ## Liveness reports -/

/-- In the loop every `popTask` gets the timeout that the `calculateTimeout`
call right before it returned, and is followed by the liveness report; the
loop does not begin with a `popTask`. -/
theorem runLoop_around_pop (idx : Nat) (rounds : List Round) :
    ∀ (cancel : Bool),
      (∀ n r, (runLoop idx cancel rounds).trace[0]? ≠ some (.popTask n r)) ∧
      ∀ (i n : Nat) (r : Option ITask),
        (runLoop idx cancel rounds).trace[i + 1]? = some (.popTask n r) →
        (runLoop idx cancel rounds).trace[i]? = some (.calculateTimeout n) ∧
        (runLoop idx cancel rounds).trace[i + 2]? = some (.notifyAlive idx) := by
  induction rounds with
  | nil =>
    intro cancel
    cases cancel <;> simp [runLoop]
  | cons r rest ih =>
    intro cancel
    cases hflag : (cancel || r.cancelBeforeCheck) with
    | true =>
      rw [runLoop_cancelled idx cancel r rest hflag]
      simp
    | false =>
      cases hp : r.popped with
      | none =>
        rw [runLoop_null idx cancel r rest hflag hp]
        refine ⟨by simp [roundHead], ?_⟩
        intro i n p h
        rcases i with _ | _ | _ | _ | i
        · simp [roundHead] at h
        · simp [roundHead, hp] at h ⊢
          exact h.1
        · simp [roundHead] at h
        · simp only [roundHead, List.cons_append, List.nil_append, List.getElem?_cons_succ,
            List.getElem?_cons_zero] at h ⊢
          exact absurd h ((ih _).1 n p)
        · simp only [roundHead, List.cons_append, List.nil_append, List.getElem?_cons_succ]
            at h ⊢
          exact (ih _).2 i n p h
      | some u =>
        cases hr : u.executeRaises with
        | true =>
          rw [runLoop_raises idx cancel r rest u hflag hp hr]
          refine ⟨by simp [roundHead], ?_⟩
          intro i n p h
          rcases i with _ | _ | _ | _ | _ | i <;> simp [roundHead, hp] at h ⊢
          exact h.1
        | false =>
          rw [runLoop_returns idx cancel r rest u hflag hp hr]
          refine ⟨by simp [roundHead], ?_⟩
          intro i n p h
          rcases i with _ | _ | _ | _ | _ | _ | i
          · simp [roundHead] at h
          · simp [roundHead, hp] at h ⊢
            exact h.1
          · simp [roundHead] at h
          · simp [roundHead] at h
          · simp [roundHead] at h
          · simp only [roundHead, List.cons_append, List.nil_append, List.getElem?_cons_succ,
              List.getElem?_cons_zero] at h ⊢
            exact absurd h ((ih _).1 n p)
          · simp only [roundHead, List.cons_append, List.nil_append, List.getElem?_cons_succ]
              at h ⊢
            exact (ih _).2 i n p h

/-- In the loop every `calculateTimeout` is followed by the `popTask` with the
value it returned. -/
theorem runLoop_after_timeout (idx : Nat) (rounds : List Round) :
    ∀ (cancel : Bool) (i n : Nat),
      (runLoop idx cancel rounds).trace[i]? = some (.calculateTimeout n) →
      ∃ r, (runLoop idx cancel rounds).trace[i + 1]? = some (.popTask n r) := by
  induction rounds with
  | nil =>
    intro cancel i n h
    cases cancel <;> cases i <;> simp [runLoop] at h
  | cons r rest ih =>
    intro cancel i n h
    cases hflag : (cancel || r.cancelBeforeCheck) with
    | true =>
      rw [runLoop_cancelled idx cancel r rest hflag] at h
      cases i <;> simp at h
    | false =>
      cases hp : r.popped with
      | none =>
        rw [runLoop_null idx cancel r rest hflag hp] at h ⊢
        rcases i with _ | _ | _ | _ | i <;> simp [roundHead, hp] at h ⊢
        · exact h
        · exact ih _ i n h
      | some u =>
        cases hr : u.executeRaises with
        | true =>
          rw [runLoop_raises idx cancel r rest u hflag hp hr] at h ⊢
          rcases i with _ | _ | _ | _ | _ | i <;> simp [roundHead, hp] at h ⊢
          exact h
        | false =>
          rw [runLoop_returns idx cancel r rest u hflag hp hr] at h ⊢
          rcases i with _ | _ | _ | _ | _ | _ | i <;> simp [roundHead, hp] at h ⊢
          · exact h
          · exact ih _ i n h

/-- In the loop a liveness report is made only right after a `popTask`, and
for the index of the worker; the loop does not begin with one. -/
theorem runLoop_before_notify (idx : Nat) (rounds : List Round) :
    ∀ (cancel : Bool),
      (∀ w, (runLoop idx cancel rounds).trace[0]? ≠ some (.notifyAlive w)) ∧
      ∀ (i w : Nat),
        (runLoop idx cancel rounds).trace[i + 1]? = some (.notifyAlive w) →
        w = idx ∧ ∃ n r, (runLoop idx cancel rounds).trace[i]? = some (.popTask n r) := by
  induction rounds with
  | nil =>
    intro cancel
    cases cancel <;> simp [runLoop]
  | cons r rest ih =>
    intro cancel
    cases hflag : (cancel || r.cancelBeforeCheck) with
    | true =>
      rw [runLoop_cancelled idx cancel r rest hflag]
      simp
    | false =>
      cases hp : r.popped with
      | none =>
        rw [runLoop_null idx cancel r rest hflag hp]
        refine ⟨by simp [roundHead], ?_⟩
        intro i w h
        rcases i with _ | _ | _ | _ | i
        · simp [roundHead] at h
        · simp [roundHead] at h
        · simp [roundHead, hp] at h ⊢
          exact h.symm
        · simp only [roundHead, List.cons_append, List.nil_append, List.getElem?_cons_succ,
            List.getElem?_cons_zero] at h ⊢
          exact absurd h ((ih _).1 w)
        · simp only [roundHead, List.cons_append, List.nil_append, List.getElem?_cons_succ]
            at h ⊢
          exact (ih _).2 i w h
      | some u =>
        cases hr : u.executeRaises with
        | true =>
          rw [runLoop_raises idx cancel r rest u hflag hp hr]
          refine ⟨by simp [roundHead], ?_⟩
          intro i w h
          rcases i with _ | _ | _ | _ | _ | i <;> simp [roundHead, hp] at h ⊢
          exact h.symm
        | false =>
          rw [runLoop_returns idx cancel r rest u hflag hp hr]
          refine ⟨by simp [roundHead], ?_⟩
          intro i w h
          rcases i with _ | _ | _ | _ | _ | _ | i
          · simp [roundHead] at h
          · simp [roundHead] at h
          · simp [roundHead, hp] at h ⊢
            exact h.symm
          · simp [roundHead] at h
          · simp [roundHead] at h
          · simp only [roundHead, List.cons_append, List.nil_append, List.getElem?_cons_succ,
              List.getElem?_cons_zero] at h ⊢
            exact absurd h ((ih _).1 w)
          · simp only [roundHead, List.cons_append, List.nil_append, List.getElem?_cons_succ]
              at h ⊢
            exact (ih _).2 i w h

/-- In the loop there are as many liveness reports as `popTask` calls. -/
theorem runLoop_count_notify (idx : Nat) (rounds : List Round) :
    ∀ (cancel : Bool),
      (runLoop idx cancel rounds).trace.countP Call.isNotifyAlive
        = (runLoop idx cancel rounds).trace.countP Call.isPopTask := by
  induction rounds with
  | nil =>
    intro cancel
    cases cancel <;> simp [runLoop, Call.isNotifyAlive, Call.isPopTask]
  | cons r rest ih =>
    intro cancel
    cases hflag : (cancel || r.cancelBeforeCheck) with
    | true =>
      rw [runLoop_cancelled idx cancel r rest hflag]
      simp [Call.isNotifyAlive, Call.isPopTask]
    | false =>
      cases hp : r.popped with
      | none =>
        rw [runLoop_null idx cancel r rest hflag hp]
        simp [roundHead, List.countP_cons, Call.isNotifyAlive, Call.isPopTask, ih]
      | some u =>
        cases hr : u.executeRaises with
        | true =>
          rw [runLoop_raises idx cancel r rest u hflag hp hr]
          simp [roundHead, List.countP_cons, Call.isNotifyAlive, Call.isPopTask]
        | false =>
          rw [runLoop_returns idx cancel r rest u hflag hp hr]
          simp [roundHead, List.countP_cons, Call.isNotifyAlive, Call.isPopTask, ih]

/-- In the loop, and up to the end of `run`, no stretch without a liveness
report is longer than one `execute()` and `release()`, one check of the loop
condition, one `calculateTimeout()` and one `popTask`, which takes at most its
timeout. -/
theorem runLoop_silences (cost : Call → Nat) (E K T : Nat)
    (hpop : ∀ n r, cost (.popTask n r) ≤ n)
    (hexec : ∀ t, cost (.execute t) + cost (.release t) ≤ E)
    (hk : ∀ b n, cost (.isCancelRequested b) + cost (.calculateTimeout n) + cost .logTrace ≤ K)
    (idx : Nat) (rounds : List Round) :
    ∀ (cancel : Bool) (sinceLast : Nat) (tail : List Call), sinceLast ≤ E →
      (∀ r ∈ rounds, r.timeout ≤ T) → (tail = [] ∨ tail = [.logTrace]) →
      ∀ s ∈ silences cost sinceLast ((runLoop idx cancel rounds).trace ++ tail),
        s ≤ E + K + T := by
  have hend : ∀ (acc : Nat) (b : Bool) (tail : List Call), acc ≤ E →
      (tail = [] ∨ tail = [.logTrace]) →
      (∀ s ∈ silences cost acc tail, s ≤ E + K + T) ∧
      ∀ s ∈ silences cost acc (.isCancelRequested b :: tail), s ≤ E + K + T := by
    intro acc b tail hacc ht
    have h1 := hk b 0
    rcases ht with rfl | rfl <;> simp [silences] <;> omega
  induction rounds with
  | nil =>
    intro cancel acc tail hacc _ ht
    cases cancel
    · simpa [runLoop] using (hend acc false tail hacc ht).1
    · simpa [runLoop] using (hend acc true tail hacc ht).2
  | cons r rest ih =>
    intro cancel acc tail hacc hT ht
    have hr := hT r (by simp)
    have hrest : ∀ x ∈ rest, x.timeout ≤ T := fun x hx => hT x (List.mem_cons_of_mem _ hx)
    have h1 := hk false r.timeout
    have h2 := hpop r.timeout r.popped
    cases hflag : (cancel || r.cancelBeforeCheck) with
    | true =>
      rw [runLoop_cancelled idx cancel r rest hflag]
      simpa using (hend acc true tail hacc ht).2
    | false =>
      cases hp : r.popped with
      | none =>
        rw [runLoop_null idx cancel r rest hflag hp]
        rw [hp] at h2
        intro s hs
        simp only [roundHead, hp, List.cons_append, List.nil_append, silences,
          List.mem_cons] at hs
        rcases hs with rfl | hs
        · omega
        · exact ih r.cancelWhileHeld 0 tail (Nat.zero_le _) hrest ht s hs
      | some u =>
        rw [hp] at h2
        have h3 := hexec u
        cases hraises : u.executeRaises with
        | true =>
          rw [runLoop_raises idx cancel r rest u hflag hp hraises]
          intro s hs
          simp only [roundHead, hp, List.cons_append, List.nil_append, silences,
            List.mem_cons] at hs
          rcases hs with rfl | hs
          · omega
          · have h4 := hk false 0
            rcases ht with rfl | rfl <;> simp [silences] at hs <;> omega
        | false =>
          rw [runLoop_returns idx cancel r rest u hflag hp hraises]
          intro s hs
          simp only [roundHead, hp, List.cons_append, List.nil_append, List.append_assoc,
            silences, List.mem_cons] at hs
          rcases hs with rfl | hs
          · omega
          · exact ih r.cancelWhileHeld (0 + cost (.execute u) + cost (.release u)) tail
              (by omega) hrest ht s hs

/-- C22, as stated, fails.  Worker 3 pops `taskA`, executes it and pops again.
The timeout that `calculateTimeout()` returns is 5, within a watchdog interval
of 10, and every `popTask` returns within its timeout; the `execute()` of the
task takes 11.  Between the report after the first pop and the report after the
second lie the `execute()` and the second pop: 16 without a liveness report. -/
theorem long_task_delays_liveness_report :
    (∀ r ∈ [taskRound taskA, nullRound], r.timeout ≤ 10) ∧
    (∀ n r, slowTaskCost (.popTask n r) ≤ n) ∧
    (sampleWorker.run [taskRound taskA, nullRound]).trace
      = [ .notifyAlive 3
        , .isCancelRequested false, .calculateTimeout 5, .popTask 5 (some taskA)
        , .notifyAlive 3, .execute taskA, .release taskA
        , .isCancelRequested false, .calculateTimeout 5, .popTask 5 none, .notifyAlive 3 ] ∧
    silences slowTaskCost 0 (sampleWorker.run [taskRound taskA, nullRound]).trace
      = [0, 0, 16, 0] ∧
    ¬ ∀ s ∈ silences slowTaskCost 0 (sampleWorker.run [taskRound taskA, nullRound]).trace,
      s ≤ 10 := by
  refine ⟨by decide, ?_, by decide, by decide, ?_⟩
  · intro n r
    cases r <;> simp [slowTaskCost]
  · intro h
    have h16 := h 16 (by decide)
    omega

/-- C22, amended. A worker that has a queue reports liveness, for its own index,
as the first call of `run`, before any `popTask`; after that it reports liveness
exactly once right after every `popTask`, whatever the pop returned, and at no
other point, so there is one report more than there are pops.  Every `popTask`
is given the value that the `calculateTimeout` call right before it returned,
and every `calculateTimeout` is followed by the pop that gets its value.  In
time: if a `popTask` takes at most its timeout, no timeout is above `T`, the
`execute()` and `release()` of a task together take at most `E`, and a check of
the loop condition, a `calculateTimeout()` and the final log take at most `K`,
then no stretch without a liveness report, from the beginning of `run` to the
end of what it did, is longer than `E + K + T`; so liveness is reported at
least once per watchdog interval as long as `E + K + T` is within the
interval. -/
theorem liveness_reported_around_every_pop
    (self : TaskExecutingThread) (q : QueueId) (rounds : List Round)
    (hq : self.m_pBlockingTaskQueue = some q) :
    (self.run rounds).trace[0]? = some (.notifyAlive self.m_workerIndex) ∧
    (∀ (i n : Nat) (r : Option ITask),
      (self.run rounds).trace[i + 1]? = some (.popTask n r) →
      (self.run rounds).trace[i]? = some (.calculateTimeout n) ∧
      (self.run rounds).trace[i + 2]? = some (.notifyAlive self.m_workerIndex)) ∧
    (∀ (i n : Nat),
      (self.run rounds).trace[i]? = some (.calculateTimeout n) →
      ∃ r, (self.run rounds).trace[i + 1]? = some (.popTask n r)) ∧
    (∀ (i w : Nat),
      (self.run rounds).trace[i + 1]? = some (.notifyAlive w) →
      w = self.m_workerIndex ∧ ∃ n r, (self.run rounds).trace[i]? = some (.popTask n r)) ∧
    (self.run rounds).trace.countP Call.isNotifyAlive
      = 1 + (self.run rounds).trace.countP Call.isPopTask ∧
    (∀ (cost : Call → Nat) (E K T interval : Nat),
      (∀ n r, cost (.popTask n r) ≤ n) →
      (∀ r ∈ rounds, r.timeout ≤ T) →
      (∀ t, cost (.execute t) + cost (.release t) ≤ E) →
      (∀ b n, cost (.isCancelRequested b) + cost (.calculateTimeout n) + cost .logTrace ≤ K) →
      (∀ s ∈ silences cost 0 (self.run rounds).trace, s ≤ E + K + T) ∧
      (E + K + T ≤ interval → ∀ s ∈ silences cost 0 (self.run rounds).trace, s ≤ interval)) := by
  obtain ⟨_, tail, htail, _, htr⟩ := run_trace_of_queue self q rounds hq
  rw [htr]
  refine ⟨by simp, ?_, ?_, ?_, ?_, ?_⟩
  · intro i n r h
    simp only [List.cons_append, List.getElem?_cons_succ] at h ⊢
    have hb := getElem?_of_append_tail h htail (by simp)
    obtain ⟨h0, hstep⟩ := runLoop_around_pop self.m_workerIndex rounds self.cancelRequested
    cases i with
    | zero => exact absurd hb (h0 n r)
    | succ k =>
      obtain ⟨h1, h2⟩ := hstep k n r hb
      simp only [List.getElem?_cons_succ]
      exact ⟨getElem?_append_of_some h1, getElem?_append_of_some h2⟩
  · intro i n h
    cases i with
    | zero => simp at h
    | succ k =>
      simp only [List.cons_append, List.getElem?_cons_succ] at h ⊢
      have hb := getElem?_of_append_tail h htail (by simp)
      obtain ⟨r, hr⟩ := runLoop_after_timeout self.m_workerIndex rounds self.cancelRequested k n hb
      exact ⟨r, getElem?_append_of_some hr⟩
  · intro i w h
    simp only [List.cons_append, List.getElem?_cons_succ] at h
    have hb := getElem?_of_append_tail h htail (by simp)
    obtain ⟨h0, hstep⟩ := runLoop_before_notify self.m_workerIndex rounds self.cancelRequested
    cases i with
    | zero => exact absurd hb (h0 w)
    | succ k =>
      obtain ⟨hw, n, r, hpop⟩ := hstep k w hb
      refine ⟨hw, n, r, ?_⟩
      simp only [List.cons_append, List.getElem?_cons_succ]
      exact getElem?_append_of_some hpop
  · have hc := runLoop_count_notify self.m_workerIndex rounds self.cancelRequested
    rcases htail with rfl | rfl <;>
      simp [List.countP_cons, List.countP_append, Call.isNotifyAlive, Call.isPopTask, hc] <;>
      omega
  · intro cost E K T interval hpop hT hexec hk
    have hall : ∀ s ∈ silences cost 0
        (.notifyAlive self.m_workerIndex ::
          (runLoop self.m_workerIndex self.cancelRequested rounds).trace ++ tail),
        s ≤ E + K + T := by
      intro s hs
      simp only [List.cons_append, silences, List.mem_cons] at hs
      rcases hs with rfl | hs
      · exact Nat.zero_le _
      · exact runLoop_silences cost E K T hpop hexec hk self.m_workerIndex rounds
          self.cancelRequested 0 tail (Nat.zero_le _) hT htail s hs
    exact ⟨hall, fun hle s hs => Nat.le_trans (hall s hs) hle⟩

theorem liveness_reported_around_every_pop_witness :
    sampleWorker.m_pBlockingTaskQueue = some 0 ∧
    (sampleWorker.run [nullRound, taskRound taskA]).trace
      = [ .notifyAlive 3
        , .isCancelRequested false, .calculateTimeout 5, .popTask 5 none, .notifyAlive 3
        , .isCancelRequested false, .calculateTimeout 5, .popTask 5 (some taskA)
        , .notifyAlive 3, .execute taskA, .release taskA ] ∧
    silences slowTaskCost 0 (sampleWorker.run [nullRound, taskRound taskA]).trace
      = [0, 5, 0, 11] ∧
    (sampleWorker.run [nullRound, taskRound taskA]).trace.countP Call.isNotifyAlive
      = 1 + (sampleWorker.run [nullRound, taskRound taskA]).trace.countP Call.isPopTask ∧
    (∀ s ∈ silences slowTaskCost 0 (sampleWorker.run [nullRound, taskRound taskA]).trace,
      s ≤ 11 + 0 + 5) :=
  ⟨rfl, by decide, by decide,
   (liveness_reported_around_every_pop sampleWorker 0 [nullRound, taskRound taskA]
     rfl).2.2.2.2.1,
   ((liveness_reported_around_every_pop sampleWorker 0 [nullRound, taskRound taskA]
     rfl).2.2.2.2.2 slowTaskCost 11 0 5 16
     (fun n r => by cases r <;> simp [slowTaskCost]) (by decide)
     (fun t => by simp [slowTaskCost]) (fun b n => by simp [slowTaskCost])).1⟩

/-! ## The addresses of the TCP connection system -/

/-- C23. The TCP connection system that `ConstructTCPConnectionManager` builds
has, as its own address, the id and the name of the participant, the configured
IP address and the port the configuration gives for a participant that is no
daemon; as the daemon address, the fixed daemon id, the name "SM", the
configured daemon IP address and daemon port; and the keep-alive interval and
timeout of the configuration.  The protocol version, the lock and the statistic
collection are passed on as they are, and it is no pure daemon.  This is the
system that `ConstructCommunicationSystem` returns for TCP in a build with TCP
support. -/
theorem tcp_connection_system_takes_addresses_from_config
    (b : Build) (config : RamsesFrameworkConfigImpl)
    (participantIdentifier : ParticipantIdentifier) (frameworkLock : PlatformLock)
    (statisticCollection : StatisticCollectionFramework) :
    (ConstructTCPConnectionManager b config participantIdentifier frameworkLock
        statisticCollection).participantNetworkAddress
      = { id := participantIdentifier.getParticipantId
          name := participantIdentifier.getParticipantName
          ip := config.m_tcpConfig.getIPAddress
          port := config.m_tcpConfig.getPort false } ∧
    (ConstructTCPConnectionManager b config participantIdentifier frameworkLock
        statisticCollection).daemonNetworkAddress
      = { id := b.daemonId
          name := "SM"
          ip := config.m_tcpConfig.getDaemonIPAddress
          port := config.m_tcpConfig.getDaemonPort } ∧
    (ConstructTCPConnectionManager b config participantIdentifier frameworkLock
        statisticCollection).aliveInterval = config.m_tcpConfig.getAliveInterval ∧
    (ConstructTCPConnectionManager b config participantIdentifier frameworkLock
        statisticCollection).aliveTimeout = config.m_tcpConfig.getAliveTimeout ∧
    (ConstructTCPConnectionManager b config participantIdentifier frameworkLock
        statisticCollection).protocolVersion = config.getProtocolVersion ∧
    (ConstructTCPConnectionManager b config participantIdentifier frameworkLock
        statisticCollection).pureDaemon = false ∧
    (ConstructTCPConnectionManager b config participantIdentifier frameworkLock
        statisticCollection).frameworkLock = frameworkLock ∧
    (ConstructTCPConnectionManager b config participantIdentifier frameworkLock
        statisticCollection).statisticCollection = statisticCollection ∧
    (config.getUsedProtocol = .EConnectionProtocol_TCP → b.HAS_TCP_COMM = true →
      ConstructCommunicationSystem b config participantIdentifier frameworkLock
          statisticCollection
        = .returned (some (.TCPConnectionSystem
            (ConstructTCPConnectionManager b config participantIdentifier frameworkLock
              statisticCollection)))) := by
  refine ⟨rfl, rfl, rfl, rfl, rfl, rfl, rfl, rfl, ?_⟩
  intro hp hb
  simp [ConstructCommunicationSystem, hp, hb]

/-! ## The two factories side by side -/

/-- C29, as stated, fails.  In a build without TCP support and with assertions
enabled, for a configuration that selects TCP, `ConstructDiscoveryDaemon` falls
through to the fake case and returns a `FakeDiscoveryDaemon`, and
`ConstructCommunicationSystem` does not return `nullptr`: it fails the
assertion of its default case. -/
theorem tcp_compiled_out_asserts_in_debug_build :
    (ConstructDiscoveryDaemon debugBuildWithoutTcp (sampleConfig .EConnectionProtocol_TCP)
        1 2 none).map IDiscoveryDaemon.kind = some .fake ∧
    ConstructCommunicationSystem debugBuildWithoutTcp (sampleConfig .EConnectionProtocol_TCP)
        sampleParticipant 1 2
      = .assertionFailed "Unable to construct connection system for given protocol" ∧
    ConstructCommunicationSystem debugBuildWithoutTcp (sampleConfig .EConnectionProtocol_TCP)
        sampleParticipant 1 2
      ≠ .returned none := by
  decide

/-- C29, amended. When TCP support is compiled out, a configuration that
selects TCP makes `ConstructDiscoveryDaemon` fall through to the fake case and
return a `FakeDiscoveryDaemon`, while `ConstructCommunicationSystem` reaches its
default case for the same configuration: it returns `nullptr` in a build with
`NDEBUG` and fails the assertion otherwise; in no build does it return a system.
For every other protocol value, and for TCP when it is compiled in, the two
factories agree: both construct an object, of the same kind, exactly when a
backend for the protocol is compiled in (fake for Fake, TCP for TCP), and
otherwise the daemon factory returns `nullptr` and the system factory reaches
its default case. -/
theorem factories_agree_except_for_tcp_compiled_out
    (b : Build) (config : RamsesFrameworkConfigImpl)
    (participantIdentifier : ParticipantIdentifier) (frameworkLock : PlatformLock)
    (statisticCollection : StatisticCollectionFramework) (optionalRamsh : Option Ramsh) :
    (config.getUsedProtocol = .EConnectionProtocol_TCP ∧ b.HAS_TCP_COMM = false →
      (ConstructDiscoveryDaemon b config frameworkLock statisticCollection optionalRamsh).map
          IDiscoveryDaemon.kind = some .fake ∧
      ConstructCommunicationSystem b config participantIdentifier frameworkLock
          statisticCollection
        = (if b.NDEBUG then .returned none
           else .assertionFailed "Unable to construct connection system for given protocol")) ∧
    (¬ (config.getUsedProtocol = .EConnectionProtocol_TCP ∧ b.HAS_TCP_COMM = false) →
      (hasBackend b config.getUsedProtocol = true →
        ∃ k : TransportKind,
          (ConstructDiscoveryDaemon b config frameworkLock statisticCollection
              optionalRamsh).map IDiscoveryDaemon.kind = some k ∧
          (ConstructCommunicationSystem b config participantIdentifier frameworkLock
              statisticCollection).kindOf = .returned (some k)) ∧
      (hasBackend b config.getUsedProtocol = false →
        (ConstructDiscoveryDaemon b config frameworkLock statisticCollection
            optionalRamsh).isNone = true ∧
        ConstructCommunicationSystem b config participantIdentifier frameworkLock
            statisticCollection
          = (if b.NDEBUG then .returned none
             else .assertionFailed
               "Unable to construct connection system for given protocol"))) := by
  cases hp : config.getUsedProtocol with
  | EConnectionProtocol_TCP =>
    cases hb : b.HAS_TCP_COMM with
    | true =>
      simp [ConstructDiscoveryDaemon, ConstructCommunicationSystem, hp, hb, hasBackend,
        FactoryResult.kindOf, IDiscoveryDaemon.kind, ICommunicationSystem.kind]
    | false =>
      simp [ConstructDiscoveryDaemon, ConstructCommunicationSystem, hp, hb,
        IDiscoveryDaemon.kind]
  | EConnectionProtocol_Fake =>
    simp [ConstructDiscoveryDaemon, ConstructCommunicationSystem, hp, hasBackend,
      FactoryResult.kindOf, IDiscoveryDaemon.kind, ICommunicationSystem.kind]
  | other v =>
    simp [ConstructDiscoveryDaemon, ConstructCommunicationSystem, hp, hasBackend]

/-! ## Shutdown in three phases -/

/-- C30. For every started worker the calls `cancelThread()`, `unlockThread()`,
`joinThread()`, one after the other, end as a single `stop()` does: the same
worker, the same queues and the same calls on the thread and on the queue.  A
worker that holds a queue ends with cancellation requested, one null task more
at the back of that queue and no other queue changed, the thread joined after
the cancel request and the null task, not started and without a queue
reference.  `joinThread()` on a worker that is not started, or whose
cancellation was not requested, changes nothing. -/
theorem three_phase_shutdown_equals_stop (w w0 : World)
    (hs : w.worker.m_bThreadStarted = true)
    (h0 : w0.worker.m_bThreadStarted = false ∨ w0.worker.cancelRequested = false) :
    callAll [.cancelThread, .unlockThread, .joinThread] w = TaskExecutingThread.stop w ∧
    (∀ q : QueueId, w.worker.m_pBlockingTaskQueue = some q →
      ∃ w1 : World, callAll [.cancelThread, .unlockThread, .joinThread] w = some w1 ∧
        w1.worker.cancelRequested = true ∧
        w1.queues q = w.queues q ++ [none] ∧
        (∀ q1 : QueueId, q1 ≠ q → w1.queues q1 = w.queues q1) ∧
        w1.calls = w.calls ++ [.threadCancel, .addTask q none, .threadJoin] ∧
        w1.worker.m_bThreadStarted = false ∧
        w1.worker.m_pBlockingTaskQueue = none ∧
        w1.worker.m_workerIndex = w.worker.m_workerIndex) ∧
    TaskExecutingThread.joinThread w0 = w0 := by
  have heq : callAll [.cancelThread, .unlockThread, .joinThread] w
      = TaskExecutingThread.stop w := by
    cases hq : w.worker.m_pBlockingTaskQueue with
    | none =>
      simp [callAll, Method.call, TaskExecutingThread.cancelThread,
        TaskExecutingThread.unlockThread, TaskExecutingThread.stop, hs, hq,
        World.threadCancel]
    | some q =>
      simp [callAll, Method.call, TaskExecutingThread.cancelThread,
        TaskExecutingThread.unlockThread, TaskExecutingThread.joinThread,
        TaskExecutingThread.stop, hs, hq, World.threadCancel, World.addTask,
        World.threadJoin]
  refine ⟨heq, ?_, ?_⟩
  · intro q hq
    refine ⟨{ worker :=
                { m_pBlockingTaskQueue := none
                  m_workerIndex := w.worker.m_workerIndex
                  m_bThreadStarted := false
                  cancelRequested := true }
              queues := Function.update w.queues q (w.queues q ++ [none])
              calls := w.calls ++ [.threadCancel, .addTask q none, .threadJoin] }, ?_, ?_⟩
    · rw [heq]
      simp [TaskExecutingThread.stop, hs, World.threadCancel, hq, World.addTask,
        World.threadJoin]
    · refine ⟨rfl, ?_, ?_, rfl, rfl, rfl, rfl⟩
      · simp
      · intro q1 h1
        simp [Function.update_noteq h1]
  · rcases h0 with h | h <;> simp [TaskExecutingThread.joinThread, h]

theorem three_phase_shutdown_equals_stop_witness :
    startedWorld.worker.m_bThreadStarted = true ∧
    ((World.fresh 3).worker.m_bThreadStarted = false ∨
      (World.fresh 3).worker.cancelRequested = false) ∧
    callAll [.cancelThread, .unlockThread, .joinThread] startedWorld
      = TaskExecutingThread.stop startedWorld ∧
    TaskExecutingThread.joinThread (World.fresh 3) = World.fresh 3 :=
  ⟨rfl, Or.inl rfl,
   (three_phase_shutdown_equals_stop startedWorld (World.fresh 3) rfl (Or.inl rfl)).1,
   (three_phase_shutdown_equals_stop startedWorld (World.fresh 3) rfl (Or.inl rfl)).2.2⟩

/-! ## The pool of workers -/

/-- The tasks that the pops of a history returned, in the order of the pops. -/
theorem popped_append_queue (events : List QueueEvent) :
    ∀ queue : List (Option ITask),
      (popResults queue events).filterMap (fun p => p.popped)
          ++ (queueAfter queue events).filterMap id
        = (queue ++ submittedTasks events).filterMap id := by
  induction events with
  | nil => intro queue; simp [popResults, queueAfter, submittedTasks]
  | cons e es ih =>
    intro queue
    cases e with
    | addTask task =>
      simp only [popResults, queueAfter, submittedTasks]
      rw [ih (queue ++ [task])]
      simp
    | popTask worker timeout =>
      simp only [popResults, queueAfter, submittedTasks]
      cases queue with
      | nil =>
        simp only [IBlockingTaskQueue.popTask, List.filterMap_cons_none]
        exact ih []
      | cons task rest =>
        simp only [IBlockingTaskQueue.popTask]
        cases task with
        | none =>
          simp only [List.filterMap_cons_none]
          rw [ih rest]
          simp
        | some t =>
          rw [List.filterMap_cons_some (by rfl : (fun p : PopResult => p.popped)
            { worker := worker, timeout := timeout, popped := some t } = some t)]
          simp only [List.cons_append]
          rw [ih rest]
          simp

theorem queueAfter_append (a b : List QueueEvent) :
    ∀ queue : List (Option ITask),
      queueAfter queue (a ++ b) = queueAfter (queueAfter queue a) b := by
  induction a with
  | nil => intro queue; rfl
  | cons e es ih => intro queue; cases e <;> simp [queueAfter, ih]

theorem submittedTasks_append (a b : List QueueEvent) :
    submittedTasks (a ++ b) = submittedTasks a ++ submittedTasks b := by
  induction a with
  | nil => rfl
  | cons e es ih => cases e <;> simp [submittedTasks, ih]

theorem poppingWorkers_append (a b : List QueueEvent) :
    poppingWorkers (a ++ b) = poppingWorkers a ++ poppingWorkers b := by
  induction a with
  | nil => rfl
  | cons e es ih => cases e <;> simp [poppingWorkers, ih]

theorem submittedTasks_pops (ws : List Nat) (timeout : Nat) :
    submittedTasks (ws.map (fun w => QueueEvent.popTask w timeout)) = [] := by
  induction ws with
  | nil => rfl
  | cons w ws ih => simp [submittedTasks, ih]

theorem poppingWorkers_pops (ws : List Nat) (timeout : Nat) :
    poppingWorkers (ws.map (fun w => QueueEvent.popTask w timeout)) = ws := by
  induction ws with
  | nil => rfl
  | cons w ws ih => simp [poppingWorkers, ih]

/-- The queue never holds more than was added. -/
theorem queueAfter_length (events : List QueueEvent) :
    ∀ queue : List (Option ITask),
      (queueAfter queue events).length ≤ queue.length + (submittedTasks events).length := by
  induction events with
  | nil => intro queue; simp [queueAfter, submittedTasks]
  | cons e es ih =>
    intro queue
    cases e with
    | addTask task =>
      simp only [queueAfter, submittedTasks]
      have := ih (queue ++ [task])
      simp only [List.length_append, List.length_cons, List.length_nil] at this ⊢
      omega
    | popTask worker timeout =>
      simp only [queueAfter, submittedTasks]
      cases queue with
      | nil => simpa [IBlockingTaskQueue.popTask] using ih []
      | cons task rest =>
        have := ih rest
        simp only [IBlockingTaskQueue.popTask, List.length_cons]
        omega

/-- As many pops as the queue has entries drain it. -/
theorem queueAfter_pops (ws : List Nat) (timeout : Nat) :
    ∀ queue : List (Option ITask), queue.length ≤ ws.length →
      queueAfter queue (ws.map (fun w => QueueEvent.popTask w timeout)) = [] := by
  induction ws with
  | nil =>
    intro queue h
    simpa [queueAfter] using h
  | cons w ws ih =>
    intro queue h
    simp only [List.map_cons, queueAfter]
    cases queue with
    | nil => exact ih [] (by simp)
    | cons task rest =>
      refine ih rest ?_
      simp only [List.length_cons] at h
      omega

/-- Every pop is the pop of a worker of the history. -/
theorem popResults_worker (events : List QueueEvent) :
    ∀ queue : List (Option ITask), ∀ p ∈ popResults queue events,
      p.worker ∈ poppingWorkers events := by
  induction events with
  | nil => intro queue p hp; simp [popResults] at hp
  | cons e es ih =>
    intro queue p hp
    cases e with
    | addTask task => exact ih _ p hp
    | popTask worker timeout =>
      simp only [popResults, List.mem_cons] at hp
      rcases hp with rfl | hp
      · simp [poppingWorkers]
      · simp only [poppingWorkers, List.mem_cons]
        exact Or.inr (ih _ p hp)

/-- A loop in which nobody cancels and no task raises pops every round. -/
theorem runLoop_quiet (idx : Nat) (rounds : List Round)
    (h : ∀ r ∈ rounds, r.cancelBeforeCheck = false ∧ r.cancelWhileHeld = false ∧
      ∀ t, r.popped = some t → t.executeRaises = false) :
    poppedTasks (runLoop idx false rounds).trace = rounds.filterMap (fun r => r.popped) ∧
    (runLoop idx false rounds).status = .running := by
  induction rounds with
  | nil => simp [runLoop, poppedTasks]
  | cons r rest ih =>
    obtain ⟨h1, h2, h3⟩ := h r (List.mem_cons_self _ _)
    obtain ⟨i1, i2⟩ := ih (fun r hr => h r (List.mem_cons_of_mem _ hr))
    have hflag : (false || r.cancelBeforeCheck) = false := by simp [h1]
    cases hp : r.popped with
    | none =>
      rw [runLoop_null idx false r rest hflag hp, h2]
      simp [poppedTasks_append, poppedTasks_roundHead, hp, i1, i2]
    | some t =>
      rw [runLoop_returns idx false r rest t hflag hp (h3 t hp), h2]
      simp [poppedTasks_append, poppedTasks_roundHead, hp, i1, i2, poppedTasks]

/-- The tasks that the worker of a pool slot executes are the tasks that its
pops returned, in order. -/
theorem poolRun_executedTasks (queue : QueueId) (events : List QueueEvent) (index : Nat)
    (h : ∀ p ∈ popResults [] events, ∀ t, p.popped = some t → t.executeRaises = false) :
    executedTasks (poolRun queue events index).trace
      = ((popResults [] events).filter (fun p => p.worker == index)).filterMap
          (fun p => p.popped) := by
  have hq : (poolWorker queue index).m_pBlockingTaskQueue = some queue := by
    simp [poolWorker, TaskExecutingThread.start, World.fresh, TaskExecutingThread.new,
      World.resetCancel, World.threadStart]
  have hc : (poolWorker queue index).cancelRequested = false := by
    simp [poolWorker, TaskExecutingThread.start, World.fresh, TaskExecutingThread.new,
      World.resetCancel, World.threadStart]
  obtain ⟨_, tail, htail, _, htr⟩ := run_trace_of_queue (poolWorker queue index) queue
    (roundsOf index (popResults [] events)) hq
  have hquiet := runLoop_quiet (poolWorker queue index).m_workerIndex
    (roundsOf index (popResults [] events)) (by
      intro r hr
      simp only [roundsOf, List.mem_map, List.mem_filter] at hr
      obtain ⟨p, ⟨hp, _⟩, rfl⟩ := hr
      exact ⟨rfl, rfl, fun t ht => h p hp t ht⟩)
  unfold poolRun
  rw [htr, hc]
  have hex : executedTasks (tail : List Call) = [] := by
    rcases htail with rfl | rfl <;> simp [executedTasks]
  rw [show (Call.notifyAlive (poolWorker queue index).m_workerIndex ::
        (runLoop (poolWorker queue index).m_workerIndex false
          (roundsOf index (popResults [] events))).trace ++ tail)
      = [Call.notifyAlive (poolWorker queue index).m_workerIndex] ++
        ((runLoop (poolWorker queue index).m_workerIndex false
          (roundsOf index (popResults [] events))).trace ++ tail) from rfl]
  rw [executedTasks_append, executedTasks_append, hex, runLoop_executedTasks, hquiet.1]
  simp [executedTasks, roundsOf, List.filterMap_map, Function.comp_def]

/-- Among pops that returned pairwise different tasks, a task was returned to
one worker only. -/
theorem popped_by_one_worker (results : List PopResult)
    (hn : (results.filterMap (fun p => p.popped)).Nodup) :
    ∀ p1 ∈ results, ∀ p2 ∈ results, ∀ t, p1.popped = some t → p2.popped = some t →
      p1.worker = p2.worker := by
  induction results with
  | nil => intro p1 h1; simp at h1
  | cons p rest ih =>
    intro p1 h1 p2 h2 t ht1 ht2
    have hmem : ∀ x ∈ rest, x.popped = some t →
        t ∈ rest.filterMap (fun p => p.popped) := by
      intro x hx hxt
      exact List.mem_filterMap.mpr ⟨x, hx, hxt⟩
    cases hp : p.popped with
    | none =>
      rw [List.filterMap_cons_none hp] at hn
      rcases List.mem_cons.mp h1 with rfl | k1
      · rw [hp] at ht1; cases ht1
      · rcases List.mem_cons.mp h2 with rfl | k2
        · rw [hp] at ht2; cases ht2
        · exact ih hn p1 k1 p2 k2 t ht1 ht2
    | some u =>
      rw [List.filterMap_cons_some hp, List.nodup_cons] at hn
      rcases List.mem_cons.mp h1 with rfl | k1
      · rcases List.mem_cons.mp h2 with rfl | k2
        · rfl
        · rw [hp] at ht1
          cases ht1
          exact absurd (hmem p2 k2 ht2) hn.1
      · rcases List.mem_cons.mp h2 with rfl | k2
        · rw [hp] at ht2
          cases ht2
          exact absurd (hmem p1 k1 ht1) hn.1
        · exact ih hn.2 p1 k1 p2 k2 t ht1 ht2

/-- What a pool does with tasks that are pairwise different and whose
`execute()` returns: every worker executes the tasks that its pops returned, and
the pops return the tasks in the order they were added, each once. -/
theorem pool_pops (queue : QueueId) (tasks : List ITask) (events : List QueueEvent)
    (hdistinct : tasks.Nodup) (hreturns : ∀ t ∈ tasks, t.executeRaises = false)
    (hsubmitted : submittedTasks events = tasks.map some) :
    (∀ w, executedTasks (poolRun queue events w).trace
      = ((popResults [] events).filter (fun p => p.worker == w)).filterMap
          (fun p => p.popped)) ∧
    ((popResults [] events).filterMap (fun p => p.popped)).Nodup ∧
    (∀ t ∈ (popResults [] events).filterMap (fun p => p.popped), t ∈ tasks) ∧
    (queueAfter [] events = [] →
      (popResults [] events).filterMap (fun p => p.popped) = tasks) := by
  have hfifo := popped_append_queue events []
  rw [hsubmitted] at hfifo
  have hid : ([] ++ tasks.map some).filterMap id = tasks := by
    simp [List.filterMap_map]
  rw [hid] at hfifo
  have hsub : ((popResults [] events).filterMap (fun p => p.popped)).Sublist tasks := by
    rw [← hfifo]
    exact List.sublist_append_left _ _
  have hmem : ∀ t ∈ (popResults [] events).filterMap (fun p => p.popped), t ∈ tasks :=
    fun t ht => hsub.subset ht
  refine ⟨?_, hsub.nodup hdistinct, hmem, ?_⟩
  · intro w
    refine poolRun_executedTasks queue events w ?_
    intro p hp t ht
    exact hreturns t (hmem t (List.mem_filterMap.mpr ⟨p, hp, ht⟩))
  · intro hempty
    rw [hempty] at hfifo
    simpa using hfifo

/-- C21. Tasks that are pairwise different and whose `execute()` returns are
submitted to a pool of `K` workers that share one queue, in any interleaving of
the `addTask` calls with the pops of the workers.  At every point each worker
has executed a task at most once, no task has been executed by two workers (so
never by two at the same time), and what a worker of the pool executes is a
submitted task.  Once the workers have made as many further pops as there are
tasks, whichever workers make them, every task has been executed exactly once:
by one worker of the pool once, and by no other worker.  This holds for every
pool size, in particular for `K < N`. -/
theorem pool_executes_every_task_exactly_once
    (queue : QueueId) (K : Nat) (tasks : List ITask) (events : List QueueEvent)
    (ws : List Nat) (timeout : Nat)
    (hdistinct : tasks.Nodup) (hreturns : ∀ t ∈ tasks, t.executeRaises = false)
    (hsubmitted : submittedTasks events = tasks.map some)
    (hworkers : ∀ w ∈ poppingWorkers events, w < K)
    (hws : ∀ w ∈ ws, w < K) (hlen : tasks.length ≤ ws.length) :
    (∀ t w, (poolRun queue events w).trace.count (.execute t) ≤ 1) ∧
    (∀ t w1 w2, Call.execute t ∈ (poolRun queue events w1).trace →
      Call.execute t ∈ (poolRun queue events w2).trace → w1 = w2) ∧
    (∀ t w, Call.execute t ∈ (poolRun queue events w).trace → t ∈ tasks ∧ w < K) ∧
    (∀ t ∈ tasks, ∃ w, w < K ∧
      (poolRun queue (events ++ ws.map (fun w => QueueEvent.popTask w timeout)) w).trace.count
          (.execute t) = 1 ∧
      ∀ v, v ≠ w →
        (poolRun queue (events ++ ws.map (fun w => QueueEvent.popTask w timeout)) v).trace.count
          (.execute t) = 0) := by
  have key : ∀ (es : List QueueEvent), submittedTasks es = tasks.map some →
      (∀ t w, (poolRun queue es w).trace.count (.execute t) ≤ 1) ∧
      (∀ t w, Call.execute t ∈ (poolRun queue es w).trace →
        ∃ p ∈ popResults [] es, p.worker = w ∧ p.popped = some t) ∧
      (∀ t w1 w2, Call.execute t ∈ (poolRun queue es w1).trace →
        Call.execute t ∈ (poolRun queue es w2).trace → w1 = w2) ∧
      (∀ p ∈ popResults [] es, ∀ t, p.popped = some t →
        (poolRun queue es p.worker).trace.count (.execute t) = 1) := by
    intro es hes
    obtain ⟨hexec, hnodup, hmem, _⟩ := pool_pops queue tasks es hdistinct hreturns hes
    have hsubl : ∀ w, (((popResults [] es).filter (fun p => p.worker == w)).filterMap
        (fun p => p.popped)).Sublist ((popResults [] es).filterMap (fun p => p.popped)) :=
      fun w => List.Sublist.filterMap _ (List.filter_sublist _)
    have hle : ∀ t w, (poolRun queue es w).trace.count (.execute t) ≤ 1 := by
      intro t w
      rw [count_execute_eq_count_executedTasks, hexec w]
      exact List.nodup_iff_count_le_one.mp ((hsubl w).nodup hnodup) t
    have hfrom : ∀ t w, Call.execute t ∈ (poolRun queue es w).trace →
        ∃ p ∈ popResults [] es, p.worker = w ∧ p.popped = some t := by
      intro t w h
      have hpos := List.count_pos_iff.mpr h
      rw [count_execute_eq_count_executedTasks, hexec w] at hpos
      obtain ⟨p, hp, hpt⟩ := List.mem_filterMap.mp (List.count_pos_iff.mp hpos)
      simp only [List.mem_filter, beq_iff_eq] at hp
      exact ⟨p, hp.1, hp.2, hpt⟩
    refine ⟨hle, hfrom, ?_, ?_⟩
    · intro t w1 w2 h1 h2
      obtain ⟨p1, hp1, hw1, ht1⟩ := hfrom t w1 h1
      obtain ⟨p2, hp2, hw2, ht2⟩ := hfrom t w2 h2
      rw [← hw1, ← hw2]
      exact popped_by_one_worker _ hnodup p1 hp1 p2 hp2 t ht1 ht2
    · intro p hp t ht
      have hin : t ∈ executedTasks (poolRun queue es p.worker).trace := by
        rw [hexec p.worker]
        refine List.mem_filterMap.mpr ⟨p, ?_, ht⟩
        simp [hp]
      have hpos : 0 < (poolRun queue es p.worker).trace.count (.execute t) := by
        rw [count_execute_eq_count_executedTasks]
        exact List.count_pos_iff.mpr hin
      have := hle t p.worker
      omega
  obtain ⟨k1, k2, k3, _⟩ := key events hsubmitted
  refine ⟨k1, k3, ?_, ?_⟩
  · intro t w h
    obtain ⟨p, hp, hw, ht⟩ := k2 t w h
    refine ⟨?_, ?_⟩
    · exact (pool_pops queue tasks events hdistinct hreturns hsubmitted).2.2.1 t
        (List.mem_filterMap.mpr ⟨p, hp, ht⟩)
    · rw [← hw]
      exact hworkers _ (popResults_worker events [] p hp)
  · intro t ht
    have hsub2 : submittedTasks (events ++ ws.map (fun w => QueueEvent.popTask w timeout))
        = tasks.map some := by
      rw [submittedTasks_append, submittedTasks_pops, List.append_nil, hsubmitted]
    have hdrained : queueAfter [] (events ++ ws.map (fun w => QueueEvent.popTask w timeout))
        = [] := by
      rw [queueAfter_append]
      refine queueAfter_pops ws timeout _ ?_
      have := queueAfter_length events []
      rw [hsubmitted] at this
      simp only [List.length_nil, List.length_map, Nat.zero_add] at this
      omega
    obtain ⟨_, j2, j3, j4⟩ := key _ hsub2
    have hall := (pool_pops queue tasks _ hdistinct hreturns hsub2).2.2.2 hdrained
    rw [← hall] at ht
    obtain ⟨p, hp, hpt⟩ := List.mem_filterMap.mp ht
    refine ⟨p.worker, ?_, j4 p hp t hpt, ?_⟩
    · have hw := popResults_worker _ [] p hp
      rw [poppingWorkers_append, poppingWorkers_pops, List.mem_append] at hw
      rcases hw with hw | hw
      · exact hworkers _ hw
      · exact hws _ hw
    · intro v hv
      by_contra hne
      have hmemv : Call.execute t ∈
          (poolRun queue (events ++ ws.map (fun w => QueueEvent.popTask w timeout)) v).trace :=
        List.count_pos_iff.mp (Nat.pos_of_ne_zero hne)
      have hmemw : Call.execute t ∈
          (poolRun queue (events ++ ws.map (fun w => QueueEvent.popTask w timeout))
            p.worker).trace := by
        refine List.count_pos_iff.mp ?_
        rw [j4 p hp t hpt]
        exact Nat.one_pos
      exact hv (j3 t v p.worker hmemv hmemw)

theorem pool_executes_every_task_exactly_once_witness :
    [taskA, taskB, taskC].Nodup ∧
    (∀ t ∈ [taskA, taskB, taskC], t.executeRaises = false) ∧
    submittedTasks sampleHistory = [taskA, taskB, taskC].map some ∧
    (∀ w ∈ poppingWorkers sampleHistory, w < 2) ∧
    (∀ w ∈ [1, 0, 1], w < 2) ∧
    [taskA, taskB, taskC].length ≤ [1, 0, 1].length ∧
    executedTasks (poolRun 0
      (sampleHistory ++ [1, 0, 1].map (fun w => QueueEvent.popTask w 5)) 0).trace = [taskA] ∧
    executedTasks (poolRun 0
      (sampleHistory ++ [1, 0, 1].map (fun w => QueueEvent.popTask w 5)) 1).trace
      = [taskB, taskC] ∧
    (∀ t ∈ [taskA, taskB, taskC], ∃ w, w < 2 ∧
      (poolRun 0 (sampleHistory ++ [1, 0, 1].map (fun w => QueueEvent.popTask w 5)) w).trace.count
          (.execute t) = 1 ∧
      ∀ v, v ≠ w →
        (poolRun 0 (sampleHistory ++ [1, 0, 1].map (fun w => QueueEvent.popTask w 5)) v).trace.count
          (.execute t) = 0) :=
  ⟨by decide, by decide, by decide, by decide, by decide, by decide, by decide, by decide,
   (pool_executes_every_task_exactly_once 0 2 [taskA, taskB, taskC] sampleHistory [1, 0, 1] 5
     (by decide) (by decide) (by decide) (by decide) (by decide) (by decide)).2.2.2⟩

/-! ## Uniforms of both stages -/

theorem laterEntries_add_iff (A : EffectInputInformation) (l : List EffectInputInformation) :
    GlslToEffectConverter.laterEntries A l = .add ↔ ∀ B ∈ l, A.inputName ≠ B.inputName := by
  induction l with
  | nil => simp [GlslToEffectConverter.laterEntries]
  | cons B rest ih =>
    unfold GlslToEffectConverter.laterEntries
    by_cases hn : A.inputName = B.inputName
    · by_cases he : A = B <;> simp [hn, he]
    · simp [hn, ih]

theorem laterEntries_single (A : EffectInputInformation) (l : List EffectInputInformation)
    (h : GlslToEffectConverter.laterEntries A l = .single) : A ∈ l := by
  induction l with
  | nil => simp [GlslToEffectConverter.laterEntries] at h
  | cons B rest ih =>
    unfold GlslToEffectConverter.laterEntries at h
    by_cases hn : A.inputName = B.inputName
    · by_cases he : A = B
      · simp [he]
      · simp [hn, he] at h
    · simp only [hn, if_false] at h
      exact List.mem_cons_of_mem _ (ih h)

theorem laterEntries_different (A : EffectInputInformation) (l : List EffectInputInformation)
    (h : GlslToEffectConverter.laterEntries A l = .different) :
    ∃ B ∈ l, A.inputName = B.inputName ∧ A ≠ B := by
  induction l with
  | nil => simp [GlslToEffectConverter.laterEntries] at h
  | cons B rest ih =>
    unfold GlslToEffectConverter.laterEntries at h
    by_cases hn : A.inputName = B.inputName
    · by_cases he : A = B
      · simp [hn, he] at h
      · exact ⟨B, List.mem_cons_self _ _, hn, he⟩
    · simp only [hn, if_false] at h
      obtain ⟨C, hC, h1, h2⟩ := ih h
      exact ⟨C, List.mem_cons_of_mem _ hC, h1, h2⟩

theorem sameNameDifferentData_cons_of_mem (A : EffectInputInformation)
    (l : List EffectInputInformation) (h : A ∈ l) :
    SameNameDifferentData (A :: l) ↔ SameNameDifferentData l := by
  constructor
  · rintro ⟨X, hX, Y, hY, hn, hne⟩
    have hX1 : X ∈ l := by
      rcases List.mem_cons.mp hX with rfl | hX
      · exact h
      · exact hX
    have hY1 : Y ∈ l := by
      rcases List.mem_cons.mp hY with rfl | hY
      · exact h
      · exact hY
    exact ⟨X, hX1, Y, hY1, hn, hne⟩
  · rintro ⟨X, hX, Y, hY, hn, hne⟩
    exact ⟨X, List.mem_cons_of_mem _ hX, Y, List.mem_cons_of_mem _ hY, hn, hne⟩

theorem sameNameDifferentData_cons_of_new (A : EffectInputInformation)
    (l : List EffectInputInformation) (h : ∀ B ∈ l, A.inputName ≠ B.inputName) :
    SameNameDifferentData (A :: l) ↔ SameNameDifferentData l := by
  constructor
  · rintro ⟨X, hX, Y, hY, hn, hne⟩
    rcases List.mem_cons.mp hX with hXA | hX1
    · rcases List.mem_cons.mp hY with hYA | hY1
      · exact absurd (hXA.trans hYA.symm) hne
      · exact absurd (hXA ▸ hn) (h Y hY1)
    · rcases List.mem_cons.mp hY with hYA | hY1
      · exact absurd (hYA ▸ hn.symm) (h X hX1)
      · exact ⟨X, hX1, Y, hY1, hn, hne⟩
  · rintro ⟨X, hX, Y, hY, hn, hne⟩
    exact ⟨X, List.mem_cons_of_mem _ hX, Y, List.mem_cons_of_mem _ hY, hn, hne⟩

/-- The outer loop returns false exactly when two of the entries it visits have
the same name and are not equal. -/
theorem forEachUniform_false_iff (l : List EffectInputInformation) :
    ∀ self : GlslToEffectConverter,
      (GlslToEffectConverter.forEachUniform l self).1 = false ↔ SameNameDifferentData l := by
  induction l with
  | nil =>
    intro self
    simp [GlslToEffectConverter.forEachUniform, SameNameDifferentData]
  | cons A rest ih =>
    intro self
    unfold GlslToEffectConverter.forEachUniform
    cases hl : GlslToEffectConverter.laterEntries A rest with
    | different =>
      obtain ⟨B, hB, hn, hne⟩ := laterEntries_different A rest hl
      simp only [true_iff]
      exact ⟨A, List.mem_cons_self _ _, B, List.mem_cons_of_mem _ hB, hn, hne⟩
    | single =>
      simp only
      rw [ih, sameNameDifferentData_cons_of_mem A rest (laterEntries_single A rest hl)]
    | add =>
      simp only
      rw [ih, sameNameDifferentData_cons_of_new A rest ((laterEntries_add_iff A rest).mp hl)]

/-- What the outer loop leaves when it returns false: the text for one of the
entries is written, nothing else is. -/
theorem forEachUniform_false (l : List EffectInputInformation) :
    ∀ self : GlslToEffectConverter,
      (GlslToEffectConverter.forEachUniform l self).1 = false →
      ∃ A ∈ l, (GlslToEffectConverter.forEachUniform l self).2.m_message
        = self.m_message ++ differentDataMessage A := by
  induction l with
  | nil =>
    intro self h
    simp [GlslToEffectConverter.forEachUniform] at h
  | cons A rest ih =>
    intro self h
    unfold GlslToEffectConverter.forEachUniform at h ⊢
    cases hl : GlslToEffectConverter.laterEntries A rest with
    | different =>
      exact ⟨A, List.mem_cons_self _ _, rfl⟩
    | single =>
      simp only [hl] at h ⊢
      obtain ⟨B, hB, hm⟩ := ih self h
      exact ⟨B, List.mem_cons_of_mem _ hB, hm⟩
    | add =>
      simp only [hl] at h ⊢
      obtain ⟨B, hB, hm⟩ := ih _ h
      exact ⟨B, List.mem_cons_of_mem _ hB, hm⟩

/-- What the outer loop leaves when it returns true: the entries that are the
last of their name are added, in order, and nothing else changes. -/
theorem forEachUniform_true (l : List EffectInputInformation) :
    ∀ self : GlslToEffectConverter,
      (GlslToEffectConverter.forEachUniform l self).1 = true →
      (GlslToEffectConverter.forEachUniform l self).2
        = { self with m_uniformInputs := self.m_uniformInputs ++ lastOfEachName l } := by
  induction l with
  | nil =>
    intro self _
    simp [GlslToEffectConverter.forEachUniform, lastOfEachName]
  | cons A rest ih =>
    intro self h
    unfold GlslToEffectConverter.forEachUniform at h ⊢
    cases hl : GlslToEffectConverter.laterEntries A rest with
    | different => simp [hl] at h
    | single =>
      simp only [hl] at h ⊢
      rw [ih self h]
      have hany : rest.any (fun B => B.inputName == A.inputName) = true := by
        simp only [List.any_eq_true, beq_iff_eq]
        exact ⟨A, laterEntries_single A rest hl, rfl⟩
      simp [lastOfEachName, hany]
    | add =>
      simp only [hl] at h ⊢
      rw [ih _ h]
      have hany : rest.any (fun B => B.inputName == A.inputName) = false := by
        rw [Bool.eq_false_iff]
        intro hc
        simp only [List.any_eq_true, beq_iff_eq] at hc
        obtain ⟨B, hB, hn⟩ := hc
        exact (laterEntries_add_iff A rest).mp hl B hB hn.symm
      simp [lastOfEachName, hany]

theorem lastOfEachName_sublist (l : List EffectInputInformation) :
    (lastOfEachName l).Sublist l := by
  induction l with
  | nil => simp [lastOfEachName]
  | cons A rest ih =>
    unfold lastOfEachName
    split
    · exact ih.trans (List.sublist_cons_self _ _)
    · exact ih.cons₂ A

/-- An entry is kept exactly when it stands at a place of the list behind which
no entry has its name. -/
theorem mem_lastOfEachName_iff (l : List EffectInputInformation) (A : EffectInputInformation) :
    A ∈ lastOfEachName l ↔
      ∃ before after, l = before ++ A :: after ∧ ∀ B ∈ after, B.inputName ≠ A.inputName := by
  induction l with
  | nil => simp [lastOfEachName]
  | cons X rest ih =>
    unfold lastOfEachName
    by_cases hany : rest.any (fun B => B.inputName == X.inputName) = true
    · rw [if_pos hany, ih]
      simp only [List.any_eq_true, beq_iff_eq] at hany
      obtain ⟨C, hC, hCn⟩ := hany
      constructor
      · rintro ⟨before, after, hl, hafter⟩
        exact ⟨X :: before, after, by rw [hl]; rfl, hafter⟩
      · rintro ⟨before, after, hl, hafter⟩
        cases before with
        | nil =>
          simp only [List.nil_append, List.cons.injEq] at hl
          obtain ⟨rfl, rfl⟩ := hl
          exact absurd hCn (hafter C hC)
        | cons Y before =>
          simp only [List.cons_append, List.cons.injEq] at hl
          exact ⟨before, after, hl.2, hafter⟩
    · rw [if_neg hany]
      have hnone : ∀ B ∈ rest, B.inputName ≠ X.inputName := by
        intro B hB hn
        apply hany
        simp only [List.any_eq_true, beq_iff_eq]
        exact ⟨B, hB, hn⟩
      rw [List.mem_cons, ih]
      constructor
      · rintro (rfl | ⟨before, after, hl, hafter⟩)
        · exact ⟨[], rest, rfl, hnone⟩
        · exact ⟨X :: before, after, by rw [hl]; rfl, hafter⟩
      · rintro ⟨before, after, hl, hafter⟩
        cases before with
        | nil =>
          simp only [List.nil_append, List.cons.injEq] at hl
          exact Or.inl hl.1.symm
        | cons Y before =>
          simp only [List.cons_append, List.cons.injEq] at hl
          exact Or.inr ⟨before, after, hl.2, hafter⟩

theorem lastOfEachName_names_nodup (l : List EffectInputInformation) :
    ((lastOfEachName l).map (fun A => A.inputName)).Nodup := by
  induction l with
  | nil => simp [lastOfEachName]
  | cons A rest ih =>
    unfold lastOfEachName
    split
    · exact ih
    · rename_i hany
      rw [List.map_cons, List.nodup_cons]
      refine ⟨?_, ih⟩
      intro hmem
      obtain ⟨B, hB, hn⟩ := List.mem_map.mp hmem
      apply hany
      simp only [List.any_eq_true, beq_iff_eq]
      exact ⟨B, (lastOfEachName_sublist rest).subset hB, hn⟩

theorem lastOfEachName_names (l : List EffectInputInformation) :
    ∀ A ∈ l, A.inputName ∈ (lastOfEachName l).map (fun A => A.inputName) := by
  induction l with
  | nil => intro A hA; simp at hA
  | cons X rest ih =>
    intro A hA
    unfold lastOfEachName
    by_cases hany : rest.any (fun B => B.inputName == X.inputName) = true
    · rw [if_pos hany]
      rcases List.mem_cons.mp hA with rfl | hA
      · simp only [List.any_eq_true, beq_iff_eq] at hany
        obtain ⟨C, hC, hCn⟩ := hany
        rw [← hCn]
        exact ih C hC
      · exact ih A hA
    · rw [if_neg hany]
      rcases List.mem_cons.mp hA with rfl | hA
      · simp
      · exact List.mem_cons_of_mem _ (ih A hA)

theorem lastOfEachName_of_nodup (l : List EffectInputInformation)
    (h : (l.map (fun A => A.inputName)).Nodup) : lastOfEachName l = l := by
  induction l with
  | nil => rfl
  | cons A rest ih =>
    rw [List.map_cons, List.nodup_cons] at h
    unfold lastOfEachName
    have hany : ¬ rest.any (fun B => B.inputName == A.inputName) = true := by
      intro hc
      simp only [List.any_eq_true, beq_iff_eq] at hc
      obtain ⟨B, hB, hn⟩ := hc
      exact h.1 (List.mem_map.mpr ⟨B, hB, hn⟩)
    rw [if_neg hany, ih h.2]

theorem not_sameNameDifferentData_of_nodup (l : List EffectInputInformation)
    (h : (l.map (fun A => A.inputName)).Nodup) : ¬ SameNameDifferentData l := by
  rintro ⟨A, hA, B, hB, hn, hne⟩
  exact hne (List.inj_on_of_nodup_map h hA hB hn)

theorem string_append_ne_self (a b : String) (h : b.length ≠ 0) : a ++ b ≠ a := by
  intro hc
  have := congrArg String.length hc
  rw [String.length_append] at this
  omega

/-- C24. `makeUniformsUnique` returns false exactly when the collected uniforms
contain two entries with the same name that are not equal, at whatever places
of the list they stand and whatever lies between them; otherwise it returns
true.  When it returns false it has written one error message, the one for the
name of an entry of the list; when it returns true it has written nothing. -/
theorem makeUniformsUnique_fails_iff_same_name_different_data
    (self : GlslToEffectConverter) :
    (self.makeUniformsUnique.1 = false ↔ SameNameDifferentData self.m_uniformInputs) ∧
    (self.makeUniformsUnique.1 = true ↔ ¬ SameNameDifferentData self.m_uniformInputs) ∧
    (self.makeUniformsUnique.1 = false →
      ∃ A ∈ self.m_uniformInputs,
        self.makeUniformsUnique.2.m_message = self.m_message ++ differentDataMessage A ∧
        self.makeUniformsUnique.2.m_message ≠ self.m_message) ∧
    (self.makeUniformsUnique.1 = true →
      self.makeUniformsUnique.2.m_message = self.m_message) := by
  have hiff := forEachUniform_false_iff self.m_uniformInputs { self with m_uniformInputs := [] }
  refine ⟨hiff, ?_, ?_, ?_⟩
  · rw [← hiff]
    simp [GlslToEffectConverter.makeUniformsUnique]
  · intro h
    obtain ⟨A, hA, hm⟩ := forEachUniform_false self.m_uniformInputs
      { self with m_uniformInputs := [] } h
    refine ⟨A, hA, hm, ?_⟩
    unfold GlslToEffectConverter.makeUniformsUnique
    rw [hm]
    refine string_append_ne_self _ _ ?_
    unfold differentDataMessage
    rw [String.length_append]
    have : (": uniform with same name but different data type declared in multiple stages"
      : String).length ≠ 0 := by decide
    omega
  · intro h
    unfold GlslToEffectConverter.makeUniformsUnique
    rw [forEachUniform_true self.m_uniformInputs { self with m_uniformInputs := [] } h]

/-- C25. When `makeUniformsUnique` returns true, the uniforms it leaves are the
entries of the list that are the last of their name, in the order of the list:
a sublist of the list in which no name occurs twice and every name of the list
occurs, an entry being kept exactly when no entry behind it has its name.
Nothing else of the converter changes.  A list without repeated names is left
as it is, and a second call returns true and changes nothing. -/
theorem makeUniformsUnique_keeps_last_of_each_name
    (self : GlslToEffectConverter) (h : self.makeUniformsUnique.1 = true) :
    self.makeUniformsUnique.2
      = { self with m_uniformInputs := lastOfEachName self.m_uniformInputs } ∧
    self.makeUniformsUnique.2.m_uniformInputs.Sublist self.m_uniformInputs ∧
    (self.makeUniformsUnique.2.m_uniformInputs.map (fun A => A.inputName)).Nodup ∧
    (∀ A ∈ self.m_uniformInputs,
      (self.makeUniformsUnique.2.m_uniformInputs.map (fun A => A.inputName)).count
        A.inputName = 1) ∧
    (∀ A, A ∈ self.makeUniformsUnique.2.m_uniformInputs ↔
      ∃ before after, self.m_uniformInputs = before ++ A :: after ∧
        ∀ B ∈ after, B.inputName ≠ A.inputName) ∧
    ((self.m_uniformInputs.map (fun A => A.inputName)).Nodup →
      self.makeUniformsUnique.2 = self) ∧
    self.makeUniformsUnique.2.makeUniformsUnique = (true, self.makeUniformsUnique.2) := by
  have heq : self.makeUniformsUnique.2
      = { self with m_uniformInputs := lastOfEachName self.m_uniformInputs } := by
    unfold GlslToEffectConverter.makeUniformsUnique
    rw [forEachUniform_true self.m_uniformInputs { self with m_uniformInputs := [] } h]
    simp
  have hnd := lastOfEachName_names_nodup self.m_uniformInputs
  refine ⟨heq, ?_, ?_, ?_, ?_, ?_, ?_⟩
  · rw [heq]
    exact lastOfEachName_sublist _
  · rw [heq]
    exact hnd
  · intro A hA
    rw [heq]
    exact List.count_eq_one_of_mem hnd (lastOfEachName_names _ A hA)
  · intro A
    rw [heq]
    exact mem_lastOfEachName_iff _ A
  · intro hn
    rw [heq, lastOfEachName_of_nodup _ hn]
  · rw [heq]
    have hok : (GlslToEffectConverter.makeUniformsUnique
        { self with m_uniformInputs := lastOfEachName self.m_uniformInputs }).1 = true := by
      have hiff := forEachUniform_false_iff (lastOfEachName self.m_uniformInputs)
        { self with m_uniformInputs := [] }
      have hno := not_sameNameDifferentData_of_nodup _ hnd
      cases hb : (GlslToEffectConverter.forEachUniform (lastOfEachName self.m_uniformInputs)
          { self with m_uniformInputs := [] }).1 with
      | true => exact hb
      | false => exact absurd (hiff.mp hb) hno
    refine Prod.ext hok ?_
    show (GlslToEffectConverter.makeUniformsUnique
        { self with m_uniformInputs := lastOfEachName self.m_uniformInputs }).2 = _
    unfold GlslToEffectConverter.makeUniformsUnique at hok ⊢
    rw [forEachUniform_true _ _ hok]
    simp [lastOfEachName_of_nodup _ hnd]

/-! ## Buffer variants of the vertex attributes -/

theorem asBuffer_of_some (input : EffectInputInformation) (buffer : EDataType)
    (h : GlslToEffectConverter.bufferVariant input.dataType = some buffer) :
    input.asBuffer = { input with dataType := buffer } := by
  simp [EffectInputInformation.asBuffer, h]

/-- What the loop over the attributes does. -/
theorem forEachAttribute_spec (d : Declarations) (l : List EffectInputInformation) :
    ∀ message : String,
      ((GlslToEffectConverter.forEachAttribute d l message).1 = true →
        (GlslToEffectConverter.forEachAttribute d l message).2.1 = l.map (fun a => a.asBuffer) ∧
        (GlslToEffectConverter.forEachAttribute d l message).2.2 = message ∧
        ∀ a ∈ l, (GlslToEffectConverter.bufferVariant a.dataType).isSome = true) ∧
      ((GlslToEffectConverter.forEachAttribute d l message).1 = false →
        ∃ before a after, l = before ++ a :: after ∧
          (∀ b ∈ before, (GlslToEffectConverter.bufferVariant b.dataType).isSome = true) ∧
          GlslToEffectConverter.bufferVariant a.dataType = none ∧
          (GlslToEffectConverter.forEachAttribute d l message).2.1
            = before.map (fun b => b.asBuffer) ++ a :: after ∧
          (GlslToEffectConverter.forEachAttribute d l message).2.2
            = message ++ unknownBaseTypeMessage d a) := by
  induction l with
  | nil =>
    intro message
    simp [GlslToEffectConverter.forEachAttribute]
  | cons input rest ih =>
    intro message
    unfold GlslToEffectConverter.forEachAttribute
    cases hb : GlslToEffectConverter.bufferVariant input.dataType with
    | none =>
      refine ⟨fun h => ?_, fun _ => ?_⟩
      · simp at h
      · exact ⟨[], input, rest, rfl, by simp, hb, rfl, rfl⟩
    | some buffer =>
      simp only
      obtain ⟨i1, i2⟩ := ih message
      refine ⟨fun h => ?_, fun h => ?_⟩
      · obtain ⟨j1, j2, j3⟩ := i1 h
        refine ⟨?_, j2, ?_⟩
        · rw [j1, List.map_cons, asBuffer_of_some input buffer hb]
        · intro a ha
          rcases List.mem_cons.mp ha with rfl | ha
          · simp [hb]
          · exact j3 a ha
      · obtain ⟨before, a, after, hl, hbefore, ha, hr, hm⟩ := i2 h
        refine ⟨input :: before, a, after, by rw [hl]; rfl, ?_, ha, ?_, hm⟩
        · intro b hb1
          rcases List.mem_cons.mp hb1 with rfl | hb1
          · simp [hb]
          · exact hbefore b hb1
        · rw [hr, List.map_cons, asBuffer_of_some input buffer hb]
          rfl

theorem besidesDataType_asBuffer (l : List EffectInputInformation) :
    (l.map (fun a => a.asBuffer)).map (fun a => a.besidesDataType)
      = l.map (fun a => a.besidesDataType) := by
  simp [List.map_map, Function.comp_def, EffectInputInformation.asBuffer,
    EffectInputInformation.besidesDataType]

/-- C28. `replaceVertexAttributeWithBufferVariant` returns true exactly when
every attribute has one of the data types UInt16, Float, Vector2F, Vector3F and
Vector4F, and then every attribute has the corresponding buffer type
(UInt16Buffer, FloatBuffer, Vector2Buffer, Vector3Buffer, Vector4Buffer) and
nothing is written.  Otherwise it returns false at the first attribute of
another data type: the attributes before it are rewritten, this one and those
behind it are as they were, and the message for this attribute is written.  In
both cases the list keeps its length and its order, and every attribute its
name, element count, semantics and texture type; the uniforms are not touched. -/
theorem replaceVertexAttributeWithBufferVariant_rewrites_up_to_first_unknown
    (d : Declarations) (self : GlslToEffectConverter) :
    (GlslToEffectConverter.bufferVariant .EDataType_UInt16 = some .EDataType_UInt16Buffer ∧
      GlslToEffectConverter.bufferVariant .EDataType_Float = some .EDataType_FloatBuffer ∧
      GlslToEffectConverter.bufferVariant .EDataType_Vector2F = some .EDataType_Vector2Buffer ∧
      GlslToEffectConverter.bufferVariant .EDataType_Vector3F = some .EDataType_Vector3Buffer ∧
      GlslToEffectConverter.bufferVariant .EDataType_Vector4F = some .EDataType_Vector4Buffer ∧
      ∀ t, t ∉ [EDataType.EDataType_UInt16, .EDataType_Float, .EDataType_Vector2F,
          .EDataType_Vector3F, .EDataType_Vector4F] →
        GlslToEffectConverter.bufferVariant t = none) ∧
    ((self.replaceVertexAttributeWithBufferVariant d).1 = true ↔
      ∀ a ∈ self.m_attributeInputs,
        (GlslToEffectConverter.bufferVariant a.dataType).isSome = true) ∧
    ((self.replaceVertexAttributeWithBufferVariant d).1 = true →
      (self.replaceVertexAttributeWithBufferVariant d).2
        = { self with m_attributeInputs := self.m_attributeInputs.map (fun a => a.asBuffer) }) ∧
    ((self.replaceVertexAttributeWithBufferVariant d).1 = false →
      ∃ before a after, self.m_attributeInputs = before ++ a :: after ∧
        (∀ b ∈ before, (GlslToEffectConverter.bufferVariant b.dataType).isSome = true) ∧
        GlslToEffectConverter.bufferVariant a.dataType = none ∧
        (self.replaceVertexAttributeWithBufferVariant d).2
          = { self with
              m_attributeInputs := before.map (fun b => b.asBuffer) ++ a :: after
              m_message := self.m_message ++ unknownBaseTypeMessage d a }) ∧
    (self.replaceVertexAttributeWithBufferVariant d).2.m_attributeInputs.length
      = self.m_attributeInputs.length ∧
    (self.replaceVertexAttributeWithBufferVariant d).2.m_attributeInputs.map
        (fun a => a.besidesDataType)
      = self.m_attributeInputs.map (fun a => a.besidesDataType) ∧
    (self.replaceVertexAttributeWithBufferVariant d).2.m_uniformInputs
      = self.m_uniformInputs := by
  obtain ⟨s1, s2⟩ := forEachAttribute_spec d self.m_attributeInputs self.m_message
  have htrue : (self.replaceVertexAttributeWithBufferVariant d).1 = true →
      (self.replaceVertexAttributeWithBufferVariant d).2
        = { self with
            m_attributeInputs := self.m_attributeInputs.map (fun a => a.asBuffer) } := by
    intro h
    obtain ⟨j1, j2, _⟩ := s1 h
    unfold GlslToEffectConverter.replaceVertexAttributeWithBufferVariant
    simp only
    rw [j1, j2]
  have hfalse : (self.replaceVertexAttributeWithBufferVariant d).1 = false →
      ∃ before a after, self.m_attributeInputs = before ++ a :: after ∧
        (∀ b ∈ before, (GlslToEffectConverter.bufferVariant b.dataType).isSome = true) ∧
        GlslToEffectConverter.bufferVariant a.dataType = none ∧
        (self.replaceVertexAttributeWithBufferVariant d).2
          = { self with
              m_attributeInputs := before.map (fun b => b.asBuffer) ++ a :: after
              m_message := self.m_message ++ unknownBaseTypeMessage d a } := by
    intro h
    obtain ⟨before, a, after, hl, hb, ha, hr, hm⟩ := s2 h
    refine ⟨before, a, after, hl, hb, ha, ?_⟩
    unfold GlslToEffectConverter.replaceVertexAttributeWithBufferVariant
    simp only
    rw [hr, hm]
  have hbes : (self.replaceVertexAttributeWithBufferVariant d).2.m_attributeInputs.map
        (fun a => a.besidesDataType)
      = self.m_attributeInputs.map (fun a => a.besidesDataType) := by
    cases hr : (self.replaceVertexAttributeWithBufferVariant d).1 with
    | true =>
      rw [htrue hr]
      exact besidesDataType_asBuffer _
    | false =>
      obtain ⟨before, a, after, hl, _, _, heq⟩ := hfalse hr
      rw [heq, hl]
      simp only [List.map_append, List.map_cons]
      rw [besidesDataType_asBuffer]
  refine ⟨⟨rfl, rfl, rfl, rfl, rfl, ?_⟩, ⟨fun h => (s1 h).2.2, fun h => ?_⟩, htrue, hfalse,
    ?_, hbes, rfl⟩
  · intro t ht
    cases t <;> simp at ht <;> rfl
  · cases hr : (self.replaceVertexAttributeWithBufferVariant d).1 with
    | true => rfl
    | false =>
      obtain ⟨before, a, after, hl, _, ha, _⟩ := hfalse hr
      have := h a (by rw [hl]; simp)
      rw [ha] at this
      cases this
  · have := congrArg List.length hbes
    simpa using this

/-! ## Data types of the inputs -/

theorem assert_of_holds (NDEBUG expression : Bool) (text : String) {α : Type}
    (next : Outcome α) (h : NDEBUG = true ∨ expression = true) :
    assert NDEBUG expression text next = next := by
  rcases h with h | h <;> simp [assert, h]

theorem vectorType_float (vectorSize : Int) :
    GlslToEffectConverter.vectorType .EbtFloat vectorSize
      = GlslToEffectConverter.floatVectorType vectorSize := by
  unfold GlslToEffectConverter.vectorType GlslToEffectConverter.floatVectorType
    GlslToEffectConverter.intVectorType
  by_cases h2 : vectorSize = 2
  · simp [h2]
  · by_cases h3 : vectorSize = 3
    · simp [h3]
    · by_cases h4 : vectorSize = 4
      · simp [h4]
      · simp [h2, h3, h4]

theorem vectorType_double (vectorSize : Int) :
    GlslToEffectConverter.vectorType .EbtDouble vectorSize
      = GlslToEffectConverter.floatVectorType vectorSize := by
  unfold GlslToEffectConverter.vectorType GlslToEffectConverter.floatVectorType
    GlslToEffectConverter.intVectorType
  by_cases h2 : vectorSize = 2
  · simp [h2]
  · by_cases h3 : vectorSize = 3
    · simp [h3]
    · by_cases h4 : vectorSize = 4
      · simp [h4]
      · simp [h2, h3, h4]

/-- The data type of a vector, as the types C27 lists have it. -/
theorem vectorType_eq (type : TTypeGetters) (hs : type.getBasicType ≠ .EbtSampler)
    (hv : type.isVector = true) :
    GlslToEffectConverter.vectorType type.getBasicType type.getVectorSize
      = (expectedInputType type).map (fun e => e.1) := by
  unfold expectedInputType
  rw [if_neg hs, if_pos hv]
  cases hb : type.getBasicType with
  | EbtFloat =>
    rw [vectorType_float]
    unfold GlslToEffectConverter.floatVectorType
    simp only [true_or, if_true]
    split_ifs <;> rfl
  | EbtDouble =>
    rw [vectorType_double]
    unfold GlslToEffectConverter.floatVectorType
    simp only [or_true, if_true]
    split_ifs <;> rfl
  | EbtInt =>
    unfold GlslToEffectConverter.vectorType GlslToEffectConverter.intVectorType
    simp only [reduceCtorEq, or_self, if_false, if_true]
    split_ifs <;> rfl
  | EbtUint => simp [GlslToEffectConverter.vectorType]
  | EbtSampler => exact absurd hb hs
  | other v => simp [GlslToEffectConverter.vectorType]

/-- C27. On a type that is no structure, `setInputTypeFromType` returns true
exactly for the listed types, and then it has set the data type (and for a
sampler the texture type) that belongs to the type and nothing else: samplers
of dimension 2D, 3D or Cube give `TextureSampler` with the matching texture
type, float and double vectors of size 2 to 4 give `Vector2F`, `Vector3F`,
`Vector4F`, int vectors of size 2 to 4 give `Vector2I`, `Vector3I`, `Vector4I`,
square matrices of size 2 to 4 give `Matrix22F`, `Matrix33F`, `Matrix44F`, and
float or double, int and uint scalars give `Float`, `Int32`, `UInt32`.  For
every other type it returns false and has written a message that begins with
the name of the input.  The float case of the vectors falls through to the int
case only when the size is not 2, 3 or 4, where the int case sets nothing: a
float or double vector never gets an int data type. -/
theorem setInputTypeFromType_succeeds_on_listed_types
    (d : Declarations) (self : GlslToEffectConverter) (type : TType)
    (input : EffectInputInformation)
    (hstruct : type.getters.isStruct = false)
    (hname : d.NDEBUG = true ∨ input.inputName.length ≠ 0) :
    (∀ dataType textureType, expectedInputType type.getters = some (dataType, textureType) →
      GlslToEffectConverter.setInputTypeFromType d self type input
        = .returned (true,
            { input with
              dataType := dataType, textureType := textureType.getD input.textureType },
            self)) ∧
    (expectedInputType type.getters = none →
      ∃ input1 text, text.length ≠ 0 ∧
        GlslToEffectConverter.setInputTypeFromType d self type input
          = .returned (false, input1, self.write (input.inputName ++ text))) ∧
    (∀ vectorSize : Int,
      GlslToEffectConverter.vectorType .EbtFloat vectorSize
        = GlslToEffectConverter.floatVectorType vectorSize ∧
      GlslToEffectConverter.vectorType .EbtDouble vectorSize
        = GlslToEffectConverter.floatVectorType vectorSize ∧
      ∀ t ∈ [EDataType.EDataType_Vector2I, .EDataType_Vector3I, .EDataType_Vector4I],
        GlslToEffectConverter.floatVectorType vectorSize ≠ some t) := by
  have hN : d.NDEBUG = true ∨ (input.inputName.length != 0) = true := by
    rcases hname with h | h
    · exact Or.inl h
    · exact Or.inr (by simpa using h)
  have hS : d.NDEBUG = true ∨ (!type.getters.isStruct) = true := Or.inr (by simp [hstruct])
  have hlit1 : (": unknown sampler dimension " : String).length ≠ 0 := by decide
  have hlit2 : (": unknown vector " : String).length ≠ 0 := by decide
  have hlit3 : (": unsupported " : String).length ≠ 0 := by decide
  have hlit4 : (": unknown scalar base type " : String).length ≠ 0 := by decide
  have hlen : ∀ a b : String, a.length ≠ 0 → (a ++ b).length ≠ 0 := by
    intro a b h
    rw [String.length_append]
    omega
  refine ⟨?_, ?_, ?_⟩
  · intro dataType textureType hexp
    unfold GlslToEffectConverter.setInputTypeFromType
    rw [assert_of_holds _ _ _ _ hN, assert_of_holds _ _ _ _ hS]
    unfold expectedInputType at hexp
    by_cases hs : type.getters.getBasicType = .EbtSampler
    · simp only [hs, if_true] at hexp ⊢
      cases hd : type.getters.getSampler.dim <;> simp [hd] at hexp ⊢
      all_goals exact ⟨hexp.1, by rw [← hexp.2]; rfl⟩
    · simp only [hs, if_false] at hexp ⊢
      by_cases hv : type.getters.isVector = true
      · simp only [hv, if_true] at hexp ⊢
        have hvt := vectorType_eq type.getters hs hv
        unfold expectedInputType at hvt
        rw [if_neg hs, if_pos hv, hexp] at hvt
        rw [hvt]
        simp only [Option.map_some']
        have htex : textureType = none := by
          split_ifs at hexp <;> simp at hexp <;> exact hexp.2.symm
        rw [htex]
        rfl
      · have hvf : type.getters.isVector = false := by simpa using hv
        simp only [hvf, Bool.false_eq_true, if_false] at hexp ⊢
        by_cases hm : type.getters.isMatrix = true
        · simp only [hm, if_true] at hexp ⊢
          split_ifs at hexp with h1 h2 h3 h4
          all_goals simp only [Option.some.injEq, Prod.mk.injEq] at hexp
          all_goals obtain ⟨rfl, rfl⟩ := hexp
          · simp [← h1, h2]
          · simp [← h1, h3]
          · simp [← h1, h4]
        · have hmf : type.getters.isMatrix = false := by simpa using hm
          simp only [hmf, Bool.false_eq_true, if_false] at hexp ⊢
          rw [assert_of_holds _ _ _ _ (Or.inr (by simp [hvf, hmf]))]
          cases hb : type.getters.getBasicType <;> simp [hb] at hexp ⊢
          all_goals exact ⟨hexp.1, by rw [← hexp.2]; rfl⟩
  · intro hexp
    unfold GlslToEffectConverter.setInputTypeFromType
    rw [assert_of_holds _ _ _ _ hN, assert_of_holds _ _ _ _ hS]
    unfold expectedInputType at hexp
    by_cases hs : type.getters.getBasicType = .EbtSampler
    · simp only [hs, if_true] at hexp ⊢
      cases hd : type.getters.getSampler.dim <;> simp [hd] at hexp ⊢
      exact ⟨_, ": unknown sampler dimension " ++ type.getters.getSampler.getString,
        hlen _ _ hlit1, rfl, by rw [String.append_assoc]⟩
    · simp only [hs, if_false] at hexp ⊢
      by_cases hv : type.getters.isVector = true
      · simp only [hv, if_true] at hexp ⊢
        have hvt := vectorType_eq type.getters hs hv
        unfold expectedInputType at hvt
        rw [if_neg hs, if_pos hv, hexp] at hvt
        rw [hvt]
        simp only [Option.map_none']
        exact ⟨input, ": unknown vector " ++ toString type.getters.getVectorSize ++ "D of type "
          ++ type.getters.getBasicTypeString,
          hlen _ _ (hlen _ _ (hlen _ _ hlit2)), by simp [String.append_assoc]⟩
      · have hvf : type.getters.isVector = false := by simpa using hv
        simp only [hvf, Bool.false_eq_true, if_false] at hexp ⊢
        by_cases hm : type.getters.isMatrix = true
        · simp only [hm, if_true] at hexp ⊢
          have hcond : ¬ (type.getters.getMatrixRows = type.getters.getMatrixCols ∧
              type.getters.getMatrixRows ≥ 2 ∧ type.getters.getMatrixRows ≤ 4) := by
            rintro ⟨c1, c2, c3⟩
            rw [if_pos c1] at hexp
            split_ifs at hexp
            omega
          rw [if_neg hcond]
          exact ⟨input, ": unsupported " ++ toString type.getters.getMatrixCols ++ "x"
            ++ toString type.getters.getMatrixRows ++ " matrix for type "
            ++ type.getters.getBasicTypeString,
            hlen _ _ (hlen _ _ (hlen _ _ (hlen _ _ (hlen _ _ hlit3)))),
            by simp [String.append_assoc]⟩
        · have hmf : type.getters.isMatrix = false := by simpa using hm
          simp only [hmf, Bool.false_eq_true, if_false] at hexp ⊢
          rw [assert_of_holds _ _ _ _ (Or.inr (by simp [hvf, hmf]))]
          cases hb : type.getters.getBasicType <;> simp [hb] at hexp ⊢
          all_goals
            exact ⟨_, ": unknown scalar base type " ++ type.getters.getBasicTypeString,
              hlen _ _ hlit4, rfl, by rw [String.append_assoc]⟩
  · intro vectorSize
    refine ⟨vectorType_float vectorSize, vectorType_double vectorSize, ?_⟩
    intro t ht
    unfold GlslToEffectConverter.floatVectorType
    simp only [List.mem_cons, List.mem_singleton, List.not_mem_nil, or_false] at ht
    rcases ht with rfl | rfl | rfl <;> split_ifs <;> simp

/-! ## The status message -/

theorem reported_true (a : String) : Reported a a true := by
  simp [Reported]

theorem reported_write (a text : String) (h : 3 ≤ text.length) :
    Reported a (a ++ text) false := by
  simp only [Reported, Bool.false_eq_true, if_false, String.length_append]
  omega

theorem reported_trans (a b c : String) (ok : Bool) (h1 : Reported a b true)
    (h2 : Reported b c ok) : Reported a c ok := by
  simp only [Reported, if_true] at h1
  rw [← h1]
  exact h2

theorem length_append_left (a b : String) (n : Nat) (h : n ≤ a.length) :
    n ≤ (a ++ b).length := by
  rw [String.length_append]
  omega

theorem length_append_right (a b : String) (n : Nat) (h : n ≤ b.length) :
    n ≤ (a ++ b).length := by
  rw [String.length_append]
  omega

theorem holds_assert (NDEBUG expression : Bool) (text : String) {α : Type}
    (next : Outcome α) (P : α → Prop) (h : next.Holds NDEBUG P) :
    (assert NDEBUG expression text next).Holds NDEBUG P := by
  unfold assert
  split
  · exact h
  · rename_i hc
    simp only [Bool.or_eq_true, not_or, Bool.not_eq_true] at hc
    exact hc.1

theorem holds_andThen {α β : Type} (NDEBUG : Bool) (o : Outcome α) (next : α → Outcome β)
    (P : α → Prop) (Q : β → Prop) (h : o.Holds NDEBUG P)
    (hnext : ∀ a, P a → (next a).Holds NDEBUG Q) : (o.andThen next).Holds NDEBUG Q := by
  cases o with
  | returned value => exact hnext value h
  | assertionFailed expression => exact h

theorem holds_returned {α : Type} (NDEBUG : Bool) (value : α) (P : α → Prop) (h : P value) :
    (Outcome.returned value).Holds NDEBUG P := h

/-- The method `setInputTypeFromType` for one input writes a message exactly
when it returns false. -/
theorem setInputTypeFromType_reports (d : Declarations) (self : GlslToEffectConverter)
    (type : TType) (input : EffectInputInformation) :
    (GlslToEffectConverter.setInputTypeFromType d self type input).Holds d.NDEBUG
      (fun r => Reported self.m_message r.2.2.m_message r.1) := by
  have hlit1 : 3 ≤ (": unknown sampler dimension " : String).length := by decide
  have hlit2 : 3 ≤ (": unknown vector " : String).length := by decide
  have hlit3 : 3 ≤ (": unsupported " : String).length := by decide
  have hlit4 : 3 ≤ (": unknown scalar base type " : String).length := by decide
  unfold GlslToEffectConverter.setInputTypeFromType
  refine holds_assert _ _ _ _ _ (holds_assert _ _ _ _ _ ?_)
  simp only
  split_ifs with hs hv hm hcond h2 h3 h4
  · split
    · exact reported_true _
    · exact reported_true _
    · exact reported_true _
    · exact reported_write _ _
        (length_append_left _ _ _ (length_append_right _ _ _ hlit1))
  · split
    · exact reported_true _
    · exact reported_write _ _ (length_append_left _ _ _ (length_append_left _ _ _
        (length_append_left _ _ _ (length_append_right _ _ _ hlit2))))
  · exact reported_true _
  · exact reported_true _
  · exact reported_true _
  · exfalso
    omega
  · exact reported_write _ _ (length_append_left _ _ _ (length_append_left _ _ _
      (length_append_left _ _ _ (length_append_left _ _ _ (length_append_left _ _ _
        (length_append_right _ _ _ hlit3))))))
  · refine holds_assert _ _ _ _ _ ?_
    split
    · exact reported_true _
    · exact reported_true _
    · exact reported_true _
    · exact reported_true _
    · exact reported_write _ _
        (length_append_left _ _ _ (length_append_right _ _ _ hlit4))

theorem setSemanticsOnInput_reports (d : Declarations) (self : GlslToEffectConverter)
    (input : EffectInputInformation) :
    (GlslToEffectConverter.setSemanticsOnInput d self input).Holds d.NDEBUG
      (fun r => Reported self.m_message r.2.2.m_message r.1) := by
  have hlit : 3 ≤ (": input type " : String).length := by decide
  unfold GlslToEffectConverter.setSemanticsOnInput
  refine holds_assert _ _ _ _ _ (holds_assert _ _ _ _ _ ?_)
  split
  · split
    · exact reported_write _ _ (length_append_left _ _ _ (length_append_left _ _ _
        (length_append_left _ _ _ (length_append_right _ _ _ hlit))))
    · exact reported_true _
  · exact reported_true _

theorem createEffectInputType_reports (d : Declarations) (self : GlslToEffectConverter)
    (type : TType) (inputName : String) (elementCount : Nat)
    (outputVector : EffectInputInformationVector) :
    (GlslToEffectConverter.createEffectInputType d self type inputName elementCount
        outputVector).Holds d.NDEBUG
      (fun r => Reported self.m_message r.2.2.m_message r.1) := by
  unfold GlslToEffectConverter.createEffectInputType
  refine holds_andThen _ _ _ _ _ (setInputTypeFromType_reports d self type _) ?_
  intro r1 h1
  cases hr1 : r1.1 with
  | false =>
    simp only [hr1, Bool.not_false, if_true]
    rw [hr1] at h1
    exact h1
  | true =>
    simp only [hr1, Bool.not_true, Bool.false_eq_true, if_false]
    rw [hr1] at h1
    refine holds_andThen _ _ _ _ _ (setSemanticsOnInput_reports d r1.2.2 r1.2.1) ?_
    intro r2 h2
    cases hr2 : r2.1 with
    | false =>
      simp only [hr2, Bool.not_false, if_true]
      rw [hr2] at h2
      exact reported_trans _ _ _ _ h1 h2
    | true =>
      simp only [hr2, Bool.not_true, Bool.false_eq_true, if_false]
      rw [hr2] at h2
      exact reported_trans _ _ _ _ h1 h2

theorem getElementCountFromType_reports (self : GlslToEffectConverter) (type : TType)
    (inputName : String) :
    Reported self.m_message (self.getElementCountFromType type inputName).2.m_message
      (self.getElementCountFromType type inputName).1.isSome := by
  have hlit : 3 ≤ (": multidimensional arrays not supported" : String).length := by decide
  unfold GlslToEffectConverter.getElementCountFromType
  split_ifs
  · exact reported_write _ _ (length_append_right _ _ _ hlit)
  · exact reported_true _
  · exact reported_true _

/-- The loop over the elements of an array reports what its body reports. -/
theorem forEachElement_reports {σ : Type} (NDEBUG : Bool) (message : σ → String)
    (body : Nat → σ → Outcome (Bool × σ))
    (hbody : ∀ i state, (body i state).Holds NDEBUG
      (fun r => Reported (message state) (message r.2) r.1)) :
    ∀ (count i : Nat) (state : σ),
      (GlslToEffectConverter.forEachElement body count i state).Holds NDEBUG
        (fun r => Reported (message state) (message r.2) r.1) := by
  intro count
  induction count with
  | zero =>
    intro i state
    exact reported_true _
  | succ n ih =>
    intro i state
    unfold GlslToEffectConverter.forEachElement
    refine holds_andThen _ _ _ _ _ (hbody i state) ?_
    intro r hr
    cases hr1 : r.1 with
    | false =>
      simp only [hr1, Bool.not_false, if_true]
      rw [hr1] at hr
      exact hr
    | true =>
      simp only [hr1, Bool.not_true, Bool.false_eq_true, if_false]
      rw [hr1] at hr
      have := ih (i + 1) r.2
      cases ho : GlslToEffectConverter.forEachElement body n (i + 1) r.2 with
      | returned value =>
        rw [ho] at this
        exact reported_trans _ _ _ _ hr this
      | assertionFailed expression =>
        rw [ho] at this
        exact this

theorem holds_mono {α : Type} (NDEBUG : Bool) (o : Outcome α) (P Q : α → Prop)
    (h : o.Holds NDEBUG P) (hpq : ∀ a, P a → Q a) : o.Holds NDEBUG Q := by
  cases o with
  | returned value => exact hpq value h
  | assertionFailed expression => exact h

mutual

/-- The method `setInputTypeFromType` with an output vector writes a message
exactly when it returns false. -/
theorem setInputTypeFromTypeVector_reports (d : Declarations) :
    ∀ (type : TType) (inputName : String)
      (state : EffectInputInformationVector × GlslToEffectConverter),
      (GlslToEffectConverter.setInputTypeFromTypeVector d type inputName state).Holds d.NDEBUG
        (fun r => Reported state.2.m_message r.2.2.m_message r.1)
  | .mk getters structFields, inputName, (outputVector, self) => by
    unfold GlslToEffectConverter.setInputTypeFromTypeVector
    have hcount := getElementCountFromType_reports self (.mk getters structFields) inputName
    cases hc : GlslToEffectConverter.getElementCountFromType self (.mk getters structFields)
        inputName with
    | mk count self1 =>
      rw [hc] at hcount
      cases count with
      | none => exact hcount
      | some elementCount =>
        simp only [Option.isSome_some] at hcount
        simp only
        refine holds_assert _ _ _ _ _ (holds_assert _ _ _ _ _ ?_)
        by_cases hst : (!getters.isStruct) = true
        · rw [if_pos hst]
          refine holds_mono _ _ _ _
            (createEffectInputType_reports d self1 (.mk getters structFields) inputName
              elementCount outputVector) ?_
          intro r hr
          exact reported_trans _ _ _ _ hcount hr
        · rw [if_neg hst]
          refine holds_mono _ _ _ _
            (forEachElement_reports d.NDEBUG (fun s => s.2.m_message) _
              (fun i state => forEachStructField_reports d inputName _ structFields state)
              elementCount 0 (outputVector, self1)) ?_
          intro r hr
          exact reported_trans _ _ _ _ hcount hr

/-- The loop over the fields of a structure writes a message exactly when it
returns false. -/
theorem forEachStructField_reports (d : Declarations) (inputName : String) (arrayIndex : Int) :
    ∀ (fields : List TType) (state : EffectInputInformationVector × GlslToEffectConverter),
      (GlslToEffectConverter.forEachStructField d inputName arrayIndex fields state).Holds
        d.NDEBUG (fun r => Reported state.2.m_message r.2.2.m_message r.1)
  | [], state => by
    unfold GlslToEffectConverter.forEachStructField
    exact reported_true _
  | fieldType :: rest, (outputVector, self) => by
    unfold GlslToEffectConverter.forEachStructField
    have hcount := getElementCountFromType_reports self fieldType inputName
    cases hc : GlslToEffectConverter.getElementCountFromType self fieldType inputName with
    | mk count self1 =>
      rw [hc] at hcount
      cases count with
      | none => exact hcount
      | some newElementCount =>
        simp only [Option.isSome_some] at hcount
        simp only
        have hfield : (if fieldType.getters.isStruct = true then
              GlslToEffectConverter.setInputTypeFromTypeVector d fieldType
                (GlslToEffectConverter.getStructFieldIdentifier inputName
                  fieldType.getters.getFieldName arrayIndex) (outputVector, self1)
            else
              GlslToEffectConverter.createEffectInputType d self1 fieldType
                (GlslToEffectConverter.getStructFieldIdentifier inputName
                  fieldType.getters.getFieldName arrayIndex) newElementCount
                outputVector).Holds d.NDEBUG
              (fun r => Reported self1.m_message r.2.2.m_message r.1) := by
          split_ifs
          · exact setInputTypeFromTypeVector_reports d fieldType _ (outputVector, self1)
          · exact createEffectInputType_reports d self1 fieldType _ newElementCount outputVector
        refine holds_andThen _ _ _ _ _ hfield ?_
        intro r hr
        cases hr1 : r.1 with
        | false =>
          simp only [hr1, Bool.not_false, if_true]
          rw [hr1] at hr
          exact reported_trans _ _ _ _ hcount hr
        | true =>
          simp only [hr1, Bool.not_true, Bool.false_eq_true, if_false]
          rw [hr1] at hr
          refine holds_mono _ _ _ _ (forEachStructField_reports d inputName arrayIndex rest r.2) ?_
          intro r2 hr2
          exact reported_trans _ _ _ _ hcount (reported_trans _ _ _ _ hr hr2)

end

theorem handleSymbol_reports (d : Declarations) (self : GlslToEffectConverter)
    (getName : String) (getType : TType) (stage : EShaderStage) :
    (GlslToEffectConverter.handleSymbol d self getName getType stage).Holds d.NDEBUG
      (fun r => Reported self.m_message r.2.m_message r.1) := by
  unfold GlslToEffectConverter.handleSymbol
  simp only
  split_ifs
  · exact holds_andThen _ _ _ _ _
      (setInputTypeFromTypeVector_reports d getType getName (self.m_attributeInputs, self))
      (fun r hr => hr)
  · exact holds_andThen _ _ _ _ _
      (setInputTypeFromTypeVector_reports d getType getName (self.m_uniformInputs, self))
      (fun r hr => hr)
  · exact reported_true _

theorem forEachLinkerObject_reports (d : Declarations) (stage : EShaderStage)
    (linkerObjects : List TIntermNode) :
    ∀ self : GlslToEffectConverter,
      (GlslToEffectConverter.forEachLinkerObject d stage linkerObjects self).Holds d.NDEBUG
        (fun r => Reported self.m_message r.2.m_message r.1) := by
  induction linkerObjects with
  | nil =>
    intro self
    exact reported_true _
  | cons node rest ih =>
    intro self
    cases node with
    | aggregate getSequence =>
      unfold GlslToEffectConverter.forEachLinkerObject
      exact ih self
    | other =>
      unfold GlslToEffectConverter.forEachLinkerObject
      exact ih self
    | symbol getName getType =>
      unfold GlslToEffectConverter.forEachLinkerObject
      refine holds_andThen _ _ _ _ _ (handleSymbol_reports d self getName getType stage) ?_
      intro r hr
      cases hr1 : r.1 with
      | false =>
        simp only [hr1, Bool.not_false, if_true]
        rw [hr1] at hr
        exact hr
      | true =>
        simp only [hr1, Bool.not_true, Bool.false_eq_true, if_false]
        rw [hr1] at hr
        exact holds_mono _ _ _ _ (ih r.2) (fun r2 hr2 => reported_trans _ _ _ _ hr hr2)

theorem getLinkerObjectSequence_reports (self : GlslToEffectConverter) (node : TIntermNode) :
    Reported self.m_message (self.getLinkerObjectSequence node).2.m_message
      (self.getLinkerObjectSequence node).1.isSome := by
  have hlit1 : 3 ≤ ("unexpected internal structure on top level" : String).length := by decide
  have hlit2 : 3 ≤ ("unexpected internal structure in linker objects" : String).length := by
    decide
  unfold GlslToEffectConverter.getLinkerObjectSequence
  split
  · split_ifs
    · exact reported_write _ _ hlit1
    · split
      · exact reported_true _
      · exact reported_write _ _ hlit2
  · exact reported_write _ _ hlit1

theorem parseLinkerObjectsForStage_reports (d : Declarations) (self : GlslToEffectConverter)
    (node : TIntermNode) (stage : EShaderStage) :
    (GlslToEffectConverter.parseLinkerObjectsForStage d self node stage).Holds d.NDEBUG
      (fun r => Reported self.m_message r.2.m_message r.1) := by
  unfold GlslToEffectConverter.parseLinkerObjectsForStage
  have hseq := getLinkerObjectSequence_reports self node
  cases hc : GlslToEffectConverter.getLinkerObjectSequence self node with
  | mk sequence self1 =>
    rw [hc] at hseq
    cases sequence with
    | none => exact hseq
    | some linkerObjects =>
      simp only [Option.isSome_some] at hseq
      exact holds_mono _ _ _ _ (forEachLinkerObject_reports d stage linkerObjects self1)
        (fun r hr => reported_trans _ _ _ _ hseq hr)

theorem replaceVertexAttributeWithBufferVariant_reports (d : Declarations)
    (self : GlslToEffectConverter) :
    Reported self.m_message (self.replaceVertexAttributeWithBufferVariant d).2.m_message
      (self.replaceVertexAttributeWithBufferVariant d).1 := by
  have hlit : 3 ≤ (": unknown base type for attribute buffer type " : String).length := by
    decide
  obtain ⟨s1, s2⟩ := forEachAttribute_spec d self.m_attributeInputs self.m_message
  cases hr : (self.replaceVertexAttributeWithBufferVariant d).1 with
  | true =>
    have := (s1 hr).2.1
    unfold Reported
    rw [if_pos rfl]
    exact this
  | false =>
    obtain ⟨before, a, after, _, _, _, _, hm⟩ := s2 hr
    unfold Reported
    rw [if_neg (by simp)]
    show _ ≤ (GlslToEffectConverter.forEachAttribute d self.m_attributeInputs
      self.m_message).2.2.length
    rw [hm, String.length_append]
    have : 3 ≤ (unknownBaseTypeMessage d a).length :=
      length_append_left _ _ _ (length_append_right _ _ _ hlit)
    omega

theorem makeUniformsUnique_reports (self : GlslToEffectConverter) :
    Reported self.m_message self.makeUniformsUnique.2.m_message self.makeUniformsUnique.1 := by
  have hlit : 3 ≤ (": uniform with same name but different data type declared in multiple stages"
      : String).length := by decide
  cases hr : self.makeUniformsUnique.1 with
  | true =>
    unfold Reported
    rw [if_pos rfl]
    unfold GlslToEffectConverter.makeUniformsUnique at hr ⊢
    rw [forEachUniform_true self.m_uniformInputs { self with m_uniformInputs := [] } hr]
  | false =>
    obtain ⟨A, _, hm⟩ := forEachUniform_false self.m_uniformInputs
      { self with m_uniformInputs := [] } hr
    unfold Reported
    rw [if_neg (by simp)]
    show _ ≤ (GlslToEffectConverter.forEachUniform self.m_uniformInputs
      { self with m_uniformInputs := [] }).2.m_message.length
    rw [hm, String.length_append]
    have : 3 ≤ (differentDataMessage A).length := length_append_right _ _ _ hlit
    show self.m_message.length + 3 ≤ self.m_message.length + (differentDataMessage A).length
    omega

/-- The method `parseShaderProgram` writes a message exactly when it returns
false. -/
theorem parseShaderProgram_reports (d : Declarations) (self : GlslToEffectConverter)
    (program : TProgram) :
    (GlslToEffectConverter.parseShaderProgram d self program).Holds d.NDEBUG
      (fun r => Reported self.m_message r.2.m_message r.1) := by
  unfold GlslToEffectConverter.parseShaderProgram
  refine holds_andThen _ _ _ _ _
    (parseLinkerObjectsForStage_reports d self program.vertexTreeRoot .Vertex) ?_
  intro r1 h1
  cases hr1 : r1.1 with
  | false =>
    simp only [hr1, Bool.not_false, if_true]
    rw [hr1] at h1
    exact h1
  | true =>
    simp only [hr1, Bool.not_true, Bool.false_eq_true, if_false]
    rw [hr1] at h1
    refine holds_andThen _ _ _ _ _
      (parseLinkerObjectsForStage_reports d r1.2 program.fragmentTreeRoot .Fragment) ?_
    intro r2 h2
    cases hr2 : r2.1 with
    | false =>
      simp only [hr2, Bool.not_false, if_true]
      rw [hr2] at h2
      exact reported_trans _ _ _ _ h1 h2
    | true =>
      simp only [hr2, Bool.not_true, Bool.false_eq_true, if_false]
      rw [hr2] at h2
      have h12 := reported_trans _ _ _ _ h1 h2
      have h3 := replaceVertexAttributeWithBufferVariant_reports d r2.2
      cases hr3 : (r2.2.replaceVertexAttributeWithBufferVariant d).1 with
      | false =>
        simp only [hr3, Bool.not_false, if_true]
        rw [hr3] at h3
        exact reported_trans _ _ _ _ h12 h3
      | true =>
        simp only [hr3, Bool.not_true, Bool.false_eq_true, if_false]
        rw [hr3] at h3
        have h123 := reported_trans _ _ _ _ h12 h3
        have h4 := makeUniformsUnique_reports (r2.2.replaceVertexAttributeWithBufferVariant d).2
        cases hr4 : (r2.2.replaceVertexAttributeWithBufferVariant d).2.makeUniformsUnique.1 with
        | false =>
          simp only [hr4, Bool.not_false, if_true]
          rw [hr4] at h4
          exact reported_trans _ _ _ _ h123 h4
        | true =>
          simp only [hr4, Bool.not_true, Bool.false_eq_true, if_false]
          rw [hr4] at h4
          exact reported_trans _ _ _ _ h123 h4

/-- C26. For a freshly constructed converter and every program,
`parseShaderProgram` returns true exactly when `getStatusMessage()` returns
"Ok" afterwards: when it returns true nothing was written to the stream of the
status message, and when it returns false an error message was written, which
is then the status message.  In a build with `NDEBUG` the call returns for
every program; in a build with assertions it returns or fails an assertion. -/
theorem parseShaderProgram_true_iff_status_ok
    (d : Declarations) (semanticInputs : String → Option EFixedSemantics)
    (program : TProgram) (ok : Bool) (result : GlslToEffectConverter)
    (h : GlslToEffectConverter.parseShaderProgram d
        (GlslToEffectConverter.new semanticInputs) program = .returned (ok, result)) :
    (ok = true ↔ result.getStatusMessage = "Ok") ∧
    (ok = true → result.m_message = "") ∧
    (ok = false → 3 ≤ result.m_message.length ∧
      result.getStatusMessage = result.m_message) ∧
    (d.NDEBUG = true → ∀ (self : GlslToEffectConverter) (other : TProgram),
      ∃ r, GlslToEffectConverter.parseShaderProgram d self other = .returned r) := by
  have hrep := parseShaderProgram_reports d (GlslToEffectConverter.new semanticInputs) program
  rw [h] at hrep
  have hrep1 : Reported "" result.m_message ok := hrep
  have htrue : ok = true → result.m_message = "" := by
    intro hok
    rw [hok] at hrep1
    simpa [Reported] using hrep1
  have hfalse : ok = false → 3 ≤ result.m_message.length := by
    intro hok
    rw [hok] at hrep1
    simpa [Reported] using hrep1
  have hstatus : ok = false → result.getStatusMessage = result.m_message := by
    intro hok
    have := hfalse hok
    unfold GlslToEffectConverter.getStatusMessage
    simp only
    rw [if_neg]
    simp only [beq_iff_eq]
    omega
  refine ⟨⟨fun hok => ?_, fun hst => ?_⟩, htrue, fun hok => ⟨hfalse hok, hstatus hok⟩, ?_⟩
  · unfold GlslToEffectConverter.getStatusMessage
    rw [htrue hok]
    rfl
  · cases hok : ok with
    | true => rfl
    | false =>
      have h3 := hfalse hok
      rw [← hstatus hok, hst] at h3
      exact absurd h3 (by decide)
  · intro hN self other
    have := parseShaderProgram_reports d self other
    cases ho : GlslToEffectConverter.parseShaderProgram d self other with
    | returned r => exact ⟨r, rfl⟩
    | assertionFailed expression =>
      rw [ho] at this
      have hf : d.NDEBUG = false := this
      rw [hN] at hf
      cases hf

theorem parseShaderProgram_true_iff_status_ok_witness :
    GlslToEffectConverter.parseShaderProgram sampleDeclarations
        (GlslToEffectConverter.new (fun _ => none)) sampleProgram
      = .returned (true,
          { m_semanticInputs := fun _ => none
            m_message := ""
            m_uniformInputs := [sampleInput "u_mvp" .EDataType_Matrix44F]
            m_attributeInputs := [sampleInput "a_position" .EDataType_Vector3Buffer] }) ∧
    GlslToEffectConverter.parseShaderProgram sampleDeclarations
        (GlslToEffectConverter.new (fun _ => none)) rejectedProgram
      = .returned (false,
          { m_semanticInputs := fun _ => none
            m_message := "u_flag: unknown scalar base type bool"
            m_uniformInputs := [sampleInput "u_mvp" .EDataType_Matrix44F]
            m_attributeInputs := [sampleInput "a_position" .EDataType_Vector3F] }) ∧
    ((true = true ↔
      GlslToEffectConverter.getStatusMessage
        { m_semanticInputs := fun _ => none
          m_message := ""
          m_uniformInputs := [sampleInput "u_mvp" .EDataType_Matrix44F]
          m_attributeInputs := [sampleInput "a_position" .EDataType_Vector3Buffer] } = "Ok") ∧
    (false = true ↔
      GlslToEffectConverter.getStatusMessage
        { m_semanticInputs := fun _ => none
          m_message := "u_flag: unknown scalar base type bool"
          m_uniformInputs := [sampleInput "u_mvp" .EDataType_Matrix44F]
          m_attributeInputs := [sampleInput "a_position" .EDataType_Vector3F] } = "Ok")) :=
  ⟨rfl, rfl,
   (parseShaderProgram_true_iff_status_ok sampleDeclarations (fun _ => none) sampleProgram
     true _ rfl).1,
   (parseShaderProgram_true_iff_status_ok sampleDeclarations (fun _ => none) rejectedProgram
     false _ rfl).1⟩

theorem makeUniformsUnique_keeps_last_of_each_name_witness :
    sampleConverter.makeUniformsUnique.1 = true ∧
    sampleConverter.makeUniformsUnique.2.m_uniformInputs
      = [sampleInput "u_mvp" .EDataType_Matrix44F, sampleInput "u_color" .EDataType_Vector4F] ∧
    sampleConverter.makeUniformsUnique.2.makeUniformsUnique
      = (true, sampleConverter.makeUniformsUnique.2) :=
  ⟨by decide, by decide,
   (makeUniformsUnique_keeps_last_of_each_name sampleConverter (by decide)).2.2.2.2.2.2⟩

theorem setInputTypeFromType_succeeds_on_listed_types_witness :
    vec3Type.getters.isStruct = false ∧
    (sampleDeclarations.NDEBUG = true ∨
      (sampleInput "a_position" (.other 0)).inputName.length ≠ 0) ∧
    expectedInputType vec3Type.getters = some (.EDataType_Vector3F, none) ∧
    GlslToEffectConverter.setInputTypeFromType sampleDeclarations sampleConverter vec3Type
        (sampleInput "a_position" (.other 0))
      = .returned (true, sampleInput "a_position" .EDataType_Vector3F, sampleConverter) :=
  ⟨rfl, Or.inr (by decide), by decide,
   (setInputTypeFromType_succeeds_on_listed_types sampleDeclarations sampleConverter vec3Type
     (sampleInput "a_position" (.other 0)) rfl (Or.inr (by decide))).1
     .EDataType_Vector3F none (by decide)⟩

end Ramses
